import Mathlib

/-! Meeting-room dashboard: aggregation pipeline and rooms view.

A shallow embedding of the logic of `src/components/sections/ReportSection.jsx`
and `src/components/sections/RoomsSection.jsx`.

Conventions of the embedding.

* API rows are JSON objects: property lists of primitive values (`JSObject`).
  Numbers are the integer-valued Numbers of the language.  They are printed as
  `Number::toString` prints them (`numberToString`: the shortest digits that read back
  as the Number, in exponent form from `1e21` on), and what `parseInt` reads is rounded to
  the nearest Number (`toNumber`).  Nested objects and fractional numbers are not
  modelled.
* A JavaScript object used as a dictionary is a list of own properties in
  insertion order (`Dict`); `Object.values` lists array-index keys first, in
  ascending numeric order, then the other keys in insertion order.
* A callback that may throw is a function into `Except JSError`.
* `new Date(v)` belongs to the host (parser and time zone); it is a parameter
  `newDate`, observed through the local-time getters `getFullYear`, `getMonth`
  and `getDate`.  `format` of date-fns is modelled on those fields.
* Event handlers return the list of effects they issue, in order.
* A fetch function takes the outcome of its request (`Response`) as a parameter and returns
  the state it leaves with the effects it issues; the query functions given to the query
  library return the outcome itself.
-/

namespace Meeting

/-! ## JavaScript values and objects -/

/-- A primitive JavaScript value as found in a parsed JSON row or a form field.  `num n` is
the Number whose value is the integer `n`; the integers that are Numbers are those that
`roundToDouble` leaves unchanged, among them every integer up to `2^53` in absolute value. -/
inductive JSValue where
  | undefined
  | null
  | bool (b : Bool)
  | num (n : Int)
  | str (s : String)
deriving DecidableEq, Repr

/-! ### Numbers: rounding and printing -/

/-- The number of low bits an integer loses when it is held in the 53 bits of a Number:
how often `v` is halved until it is below `2^53`.  `fuel` bounds the number of halvings;
`v` itself is always enough. -/
def excessBits : Nat → Nat → Nat
  | 0, _ => 0
  | fuel + 1, v => if v < 2 ^ 53 then 0 else excessBits fuel (v / 2) + 1

/-- The Number nearest to a non-negative integer, ties going to the even mantissa; the
exponent range is not limited here, see `toNumber`. -/
def roundToDouble (v : Nat) : Nat :=
  let e := excessBits v v
  let q := v / 2 ^ e
  let r := v % 2 ^ e
  if 2 ^ e < 2 * r ∨ (2 * r = 2 ^ e ∧ q % 2 = 1) then (q + 1) * 2 ^ e else q * 2 ^ e

/-- The multiple of `10 ^ m` that `Number::toString` prints for `x`, if one of the two
multiples next to `x` is read back as `x`: the nearer one, the one with the even digit
string when both are as near. -/
def shortestAt (x m : Nat) : Option Nat :=
  let lo := x / 10 ^ m * 10 ^ m
  let hi := lo + 10 ^ m
  if roundToDouble lo = x then
    if roundToDouble hi = x then
      if x - lo < hi - x then some lo
      else if hi - x < x - lo then some hi
      else if x / 10 ^ m % 2 = 0 then some lo else some hi
    else some lo
  else if roundToDouble hi = x then some hi
  else none

/-- The integer whose digits `Number::toString` prints for the Number `x`: the one with the
fewest significant digits that is read back as `x`. -/
def shortestDecimal (x : Nat) : Nat :=
  match (List.range (Nat.toDigits 10 x).length).reverse.findSome? (shortestAt x) with
  | some v => v
  | none => x

/-- A digit string without its trailing zeros. -/
def stripTrailingZeros (ds : List Char) : List Char :=
  (ds.reverse.dropWhile (fun c => c == '0')).reverse

/-- The exponent form of `Number::toString`, used from `10^21` on: `1e+21`,
`1.2345e+24`. -/
def exponentForm (v : Nat) : String :=
  let ds := Nat.toDigits 10 v
  let exponent := "e+" ++ Nat.repr (ds.length - 1)
  match stripTrailingZeros ds with
  | [] => "0" ++ exponent
  | [c] => String.mk [c] ++ exponent
  | c :: rest => String.mk (c :: '.' :: rest) ++ exponent

/-- The operation `Number::toString` on a non-negative integer Number. -/
def naturalToString (x : Nat) : String :=
  let v := shortestDecimal x
  if v < 10 ^ 21 then Nat.repr v else exponentForm v

/-- The operation `Number::toString` (radix 10) on an integer Number. -/
def numberToString (n : Int) : String :=
  if n < 0 then "-" ++ naturalToString n.natAbs else naturalToString n.natAbs

/-- The result of an arithmetic operation of the language: `NaN`, a finite integer Number,
or an infinity.  The sign of zero is not kept. -/
inductive JSNumber where
  | nan
  | finite (value : Int)
  | infinity (negative : Bool)
deriving DecidableEq, Repr

/-- Whether a result is a finite number, that is an integer here. -/
def JSNumber.isFinite : JSNumber → Bool
  | .finite _ => true
  | _ => false

/-- The Number for the integer of magnitude `v` and the given sign: the nearest Number, an
infinity from `2^1024` on. -/
def toNumber (negative : Bool) (v : Nat) : JSNumber :=
  if roundToDouble v < 16 ^ 256 then
    JSNumber.finite (if negative then - (roundToDouble v : Int) else (roundToDouble v : Int))
  else JSNumber.infinity negative

/-- The Number for an integer. -/
def JSNumber.ofInt (z : Int) : JSNumber :=
  toNumber (decide (z < 0)) z.natAbs

/-- The operator `-` on Numbers. -/
def JSNumber.sub : JSNumber → JSNumber → JSNumber
  | .nan, _ => .nan
  | _, .nan => .nan
  | .finite x, .finite y => JSNumber.ofInt (x - y)
  | .finite _, .infinity negative => .infinity (!negative)
  | .infinity negative, .finite _ => .infinity negative
  | .infinity negative, .infinity other => if negative = other then .nan else .infinity negative

/-- Truthiness (`ToBoolean`): `!v` is `!(v.toBoolean)`. -/
def JSValue.toBoolean : JSValue → Bool
  | .undefined => false
  | .null => false
  | .bool b => b
  | .num n => n != 0
  | .str s => s != ""

/-- The string of `v.toString()` for a value that is neither `null` nor `undefined`;
`none` stands for the `undefined` that `v?.toString()` yields on those two. -/
def JSValue.toStringOpt : JSValue → Option String
  | .undefined => none
  | .null => none
  | .bool b => some (if b then "true" else "false")
  | .num n => some (numberToString n)
  | .str s => some s

/-- Conversion of a value to a property key (`ToPropertyKey` on primitives). -/
def JSValue.toPropertyKey : JSValue → String
  | .undefined => "undefined"
  | .null => "null"
  | .bool b => if b then "true" else "false"
  | .num n => numberToString n
  | .str s => s

/-- Exceptions thrown by the modelled code. -/
inductive JSError where
  | rangeError (msg : String)
  | typeError (msg : String)
deriving DecidableEq, Repr

/-- An object used as a dictionary: own properties in insertion order. -/
abbrev Dict (α : Type) := List (String × α)

/-- A JSON row: a dictionary of primitive values. -/
abbrev JSObject := Dict JSValue

/-- Own-property lookup. -/
def Dict.get? {α : Type} (o : Dict α) (k : String) : Option α :=
  match o with
  | [] => none
  | (k', v) :: rest => if k' = k then some v else Dict.get? rest k

/-- Assignment `o[k] = v`: replaces the value of an existing own property in place,
or appends a new own property. -/
def Dict.set {α : Type} (o : Dict α) (k : String) (v : α) : Dict α :=
  match o with
  | [] => [(k, v)]
  | (k', v') :: rest => if k' = k then (k, v) :: rest else (k', v') :: Dict.set rest k v

/-- The keys of the own properties, in insertion order. -/
def Dict.keys {α : Type} (o : Dict α) : List String := o.map Prod.fst

/-- Property read `row.FIELD` on a JSON row: `undefined` when the row has no such property. -/
def JSObject.get (o : JSObject) (k : String) : JSValue :=
  match Dict.get? o k with
  | some v => v
  | none => JSValue.undefined

/-- The number a string of decimal digits denotes. -/
def decimalValue (cs : List Char) : Nat :=
  cs.foldl (fun n c => 10 * n + (c.toNat - 48)) 0

/-- Whether a property key is an array index: the canonical decimal string of an
integer below `2^32 - 1`. -/
def isArrayIndex (k : String) : Bool :=
  !k.data.isEmpty && k.data.all Char.isDigit
    && (k.data.length == 1 || k.data.head? != some '0')
    && decide (decimalValue k.data < 4294967295)

/-- Ordering of array-index keys inside `Object.values`. -/
def indexLE {α : Type} (p q : String × α) : Prop :=
  decimalValue p.1.data ≤ decimalValue q.1.data

instance {α : Type} : DecidableRel (indexLE (α := α)) :=
  fun p q => inferInstanceAs (Decidable (decimalValue p.1.data ≤ decimalValue q.1.data))

/-- The list `Object.values(o)`: array-index keys ascending, then the other keys in
insertion order. -/
def Dict.values {α : Type} (o : Dict α) : List α :=
  ((o.filter (fun p => isArrayIndex p.1)).insertionSort indexLE).map Prod.snd
    ++ (o.filter (fun p => !isArrayIndex p.1)).map Prod.snd

/-- The names every plain object inherits from `Object.prototype`. -/
def objectPrototypeKeys : List String :=
  ["constructor", "__defineGetter__", "__defineSetter__", "hasOwnProperty",
   "__lookupGetter__", "__lookupSetter__", "isPrototypeOf", "propertyIsEnumerable",
   "toString", "valueOf", "__proto__", "toLocaleString"]

/-- The loop `data.forEach(callback)` for a callback that updates an accumulator and
may throw: the first exception aborts the loop. -/
def forEach {σ α : Type} (callback : σ → α → Except JSError σ) : σ → List α → Except JSError σ
  | s, [] => Except.ok s
  | s, a :: rest =>
    match callback s a with
    | Except.ok s' => forEach callback s' rest
    | Except.error e => Except.error e

/-! ## Dates -/

/-- The local-time calendar fields of a valid `Date`: `getFullYear()`, `getMonth()`
(0 to 11) and `getDate()` (1 to 31). -/
structure LocalFields where
  fullYear : Int
  month : Fin 12
  date : Fin 32
deriving DecidableEq, Repr

/-- A `Date` object: `none` is an Invalid Date (time value `NaN`). -/
abbrev JSDate := Option LocalFields

/-- The helper `addLeadingZeros(number, targetLength)` of date-fns:
`sign + Math.abs(number).toString().padStart(targetLength, "0")`. -/
def addLeadingZeros (number : Int) (targetLength : Nat) : String :=
  (if number < 0 then "-" else "") ++ String.leftpad targetLength '0' (Nat.repr number.natAbs)

/-- The date-fns token `yyyy`: the calendar year (1 for year 0, that is 1 BC), at least
four digits. -/
def formatYear (d : LocalFields) : String :=
  addLeadingZeros (if d.fullYear > 0 then d.fullYear else 1 - d.fullYear) 4

/-- The date-fns token `MM`. -/
def formatMonth (d : LocalFields) : String :=
  addLeadingZeros ((d.month.val : Int) + 1) 2

/-- The date-fns token `dd`. -/
def formatDay (d : LocalFields) : String :=
  addLeadingZeros (d.date.val : Int) 2

/-- The two format strings the report view uses. -/
inductive DatePattern where
  | ymd
  | dmy
deriving DecidableEq, Repr

/-- The string `format(d, "yyyy-MM-dd")` for a valid date. -/
def formatYMD (d : LocalFields) : String :=
  formatYear d ++ "-" ++ formatMonth d ++ "-" ++ formatDay d

/-- The string `format(d, "dd/MM/yyyy")` for a valid date. -/
def formatDMY (d : LocalFields) : String :=
  formatDay d ++ "/" ++ formatMonth d ++ "/" ++ formatYear d

/-- The function `format(date, pattern)` of date-fns: throws a `RangeError` on an Invalid Date. -/
def format (date : JSDate) (pattern : DatePattern) : Except JSError String :=
  match date with
  | none => Except.error (JSError.rangeError "Invalid time value")
  | some d =>
    match pattern with
    | DatePattern.ymd => Except.ok (formatYMD d)
    | DatePattern.dmy => Except.ok (formatDMY d)

/-- Lexicographic comparison of two character sequences by code point. -/
def compareChars : List Char → List Char → Ordering
  | [], [] => Ordering.eq
  | [], _ :: _ => Ordering.lt
  | _ :: _, [] => Ordering.gt
  | a :: as, b :: bs =>
    if a.toNat < b.toNat then Ordering.lt
    else if b.toNat < a.toNat then Ordering.gt
    else compareChars as bs

/-- The comparison `a.localeCompare(b)` on strings made of ASCII digits and hyphens, the
only strings the report view compares.  The root collation orders such strings by code
point; a locale whose collation ignores punctuation (Thai) gives the same result on two
keys of equal length, in particular on the keys of the years 1 to 9999. -/
def localeCompare (a b : String) : Ordering :=
  compareChars a.data b.data

/-! ## Report view: aggregation pipeline -/

/-- An entry of the by-date series. -/
structure UsageEntry where
  date : String
  sortDate : String
  count : Nat
deriving DecidableEq, Repr

/-- The canonical day key of a booking: `format(new Date(booking.BDATE), "yyyy-MM-dd")`. -/
def bookingKey (newDate : JSValue → JSDate) (booking : JSObject) : Except JSError String :=
  format (newDate (booking.get "BDATE")) DatePattern.ymd

/-- The body of the `forEach` callback in `processRoomUsageData`.  The keys are
`yyyy-MM-dd` strings, which contain a hyphen and so never name a property inherited
from `Object.prototype`: the reads of `roomUsage[date]` are own-property lookups. -/
def roomUsageStep (newDate : JSValue → JSDate) (roomUsage : Dict UsageEntry)
    (booking : JSObject) : Except JSError (Dict UsageEntry) :=
  match bookingKey newDate booking with
  | Except.error e => Except.error e
  | Except.ok date =>
    let initialised : Except JSError (Dict UsageEntry) :=
      match roomUsage.get? date with
      | some _ => Except.ok roomUsage
      | none =>
        match format (newDate (JSValue.str date)) DatePattern.dmy with
        | Except.error e => Except.error e
        | Except.ok display =>
          Except.ok (roomUsage.set date { date := display, sortDate := date, count := 0 })
    match initialised with
    | Except.error e => Except.error e
    | Except.ok roomUsage1 =>
      match roomUsage1.get? date with
      | some entry => Except.ok (roomUsage1.set date { entry with count := entry.count + 1 })
      | none => Except.error (JSError.typeError "Cannot read properties of undefined")

/-- The comparator of the final sort, read as an order: `a` may stand before `b` when
`a.sortDate.localeCompare(b.sortDate)` is not positive. -/
def usageLE (a b : UsageEntry) : Prop :=
  localeCompare a.sortDate b.sortDate ≠ Ordering.gt

instance : DecidableRel usageLE :=
  fun a b => inferInstanceAs (Decidable (localeCompare a.sortDate b.sortDate ≠ Ordering.gt))

/-- The function `processRoomUsageData(data)`; `Array.prototype.sort` is a stable sort. -/
def processRoomUsageData (newDate : JSValue → JSDate) (data : List JSObject) :
    Except JSError (List UsageEntry) :=
  match forEach (roomUsageStep newDate) [] data with
  | Except.error e => Except.error e
  | Except.ok roomUsage => Except.ok ((Dict.values roomUsage).insertionSort usageLE)

/-- The four counters of `processBookingStatusData`. -/
structure StatusCounts where
  total : Nat
  used : Nat
  cancelled : Nat
  noShow : Nat
deriving DecidableEq, Repr

/-- An entry of the by-status series. -/
structure StatusEntry where
  name : String
  value : Nat
deriving DecidableEq, Repr

/-- The body of the `forEach` callback in `processBookingStatusData`. -/
def statusStep (statusCounts : StatusCounts) (booking : JSObject) : StatusCounts :=
  let counted := { statusCounts with total := statusCounts.total + 1 }
  if booking.get "STUBOOKING" = JSValue.num 3 then { counted with used := counted.used + 1 }
  else if booking.get "STUBOOKING" = JSValue.num 5 then
    { counted with cancelled := counted.cancelled + 1 }
  else if booking.get "STUBOOKING" = JSValue.num 2 then
    { counted with noShow := counted.noShow + 1 }
  else counted

/-- The label of the total counter. -/
def labelTotal : String := "การจองทั้งหมด"

/-- The label of the used counter. -/
def labelUsed : String := "เข้าใช้งานแล้ว"

/-- The label of the cancelled counter. -/
def labelCancelled : String := "ยกเลิกการจอง"

/-- The label of the no-show counter. -/
def labelNoShow : String := "ไม่มาใช้งาน"

/-- The function `processBookingStatusData(data)`. -/
def processBookingStatusData (data : List JSObject) : List StatusEntry :=
  let statusCounts := data.foldl statusStep { total := 0, used := 0, cancelled := 0, noShow := 0 }
  [ { name := labelTotal, value := statusCounts.total },
    { name := labelUsed, value := statusCounts.used },
    { name := labelCancelled, value := statusCounts.cancelled },
    { name := labelNoShow, value := statusCounts.noShow } ]


/-- The canonical day key of a booking whose BDATE gives a valid date; `none` when
`format` throws on it. -/
def dayKey? (newDate : JSValue → JSDate) (booking : JSObject) : Option String :=
  match bookingKey newDate booking with
  | Except.ok key => some key
  | Except.error _ => none

/-- The number of bookings of `data` whose canonical day key is `key`. -/
def dayCount (newDate : JSValue → JSDate) (data : List JSObject) (key : String) : Nat :=
  data.countP (fun booking => decide (dayKey? newDate booking = some key))

/-- A booking has a valid BDATE when the dates the aggregation builds from it are valid
dates: `new Date(booking.BDATE)`, and `new Date(key)` for the canonical key of that date. -/
def ValidBDATE (newDate : JSValue → JSDate) (booking : JSObject) : Prop :=
  ∃ d, newDate (booking.get "BDATE") = some d ∧ newDate (JSValue.str (formatYMD d)) ≠ none

/-- The loop invariant of `processRoomUsageData` after the bookings `seen`: distinct keys,
every entry stored under its own `sortDate` with the count of the bookings seen on that
day, and no entry for a day without bookings. -/
def UsageInv (newDate : JSValue → JSDate) (roomUsage : Dict UsageEntry)
    (seen : List JSObject) : Prop :=
  roomUsage.keys.Nodup
    ∧ (∀ k e, roomUsage.get? k = some e →
        e.sortDate = k ∧ e.count = dayCount newDate seen k ∧ 0 < dayCount newDate seen k)
    ∧ (∀ k, roomUsage.get? k = none → dayCount newDate seen k = 0)

/-- Chronological order of two calendar dates: year, then month, then day of the month. -/
def LocalFields.before (a b : LocalFields) : Prop :=
  a.fullYear < b.fullYear
    ∨ (a.fullYear = b.fullYear
        ∧ (a.month.val < b.month.val ∨ (a.month.val = b.month.val ∧ a.date.val < b.date.val)))

instance : DecidableRel LocalFields.before :=
  fun a b => inferInstanceAs (Decidable (a.fullYear < b.fullYear
    ∨ (a.fullYear = b.fullYear
        ∧ (a.month.val < b.month.val ∨ (a.month.val = b.month.val ∧ a.date.val < b.date.val)))))

/-- A booking row with the two fields the report view reads. -/
def exampleBooking (bdate : String) (status : Int) : JSObject :=
  [("BDATE", JSValue.str bdate), ("STUBOOKING", JSValue.num status)]

/-- A host for the worked examples: it reads a few day strings, in a time zone not west of
UTC, and rejects everything else. -/
def exampleNewDate : JSValue → JSDate
  | JSValue.str "2024-05-01" => some { fullYear := 2024, month := 4, date := 1 }
  | JSValue.str "2024-05-02" => some { fullYear := 2024, month := 4, date := 2 }
  | JSValue.str "2024-06-01" => some { fullYear := 2024, month := 5, date := 1 }
  | JSValue.str "9999-12-31" => some { fullYear := 9999, month := 11, date := 31 }
  | JSValue.str "10000-01-01" => some { fullYear := 10000, month := 0, date := 1 }
  | _ => none

/-- A host five hours west of UTC.  It reads a date-time string without offset as local
time, and a date-only string as midnight UTC, which is 19:00 of the previous local day. -/
def westOfUTCNewDate : JSValue → JSDate
  | JSValue.str "2024-05-01T10:00:00" => some { fullYear := 2024, month := 4, date := 1 }
  | JSValue.str "2024-05-01" => some { fullYear := 2024, month := 3, date := 30 }
  | _ => none

/-- The bookings of the worked example: two used on 2024-05-01, one cancelled on 2024-05-02. -/
def exampleBookings : List JSObject :=
  [exampleBooking "2024-05-01" 3, exampleBooking "2024-05-01" 3, exampleBooking "2024-05-02" 5]

/-- Two bookings whose display strings and canonical keys sort in opposite orders. -/
def crossMonthBookings : List JSObject :=
  [exampleBooking "2024-06-01" 3, exampleBooking "2024-05-02" 3]

/-- Two bookings on the last day of year 9999 and the first day of year 10000. -/
def farFutureBookings : List JSObject :=
  [exampleBooking "9999-12-31" 3, exampleBooking "10000-01-01" 3]

/-- A department bucket of `processDepartmentData`; `employees` is the `Set`, as the list
of its distinct members in insertion order. -/
structure DeptBucket where
  department : JSValue
  bookings : Nat
  employees : List JSValue
deriving DecidableEq, Repr

/-- An entry of the by-department series. -/
structure DeptEntry where
  department : JSValue
  employees : Nat
deriving DecidableEq, Repr

/-- The method `Set.prototype.add`: a value already in the set is not added again. -/
def setAdd (s : List JSValue) (v : JSValue) : List JSValue :=
  if v ∈ s then s else s ++ [v]

/-- What the read `o[k]` finds on a plain object: an own property, a member inherited from
`Object.prototype`, or nothing (`undefined`). -/
inductive Lookup (α : Type) where
  | own (v : α)
  | inherited
  | absent

/-- The read `o[k]` on a plain object, through the prototype chain. -/
def Dict.lookup {α : Type} (o : Dict α) (k : String) : Lookup α :=
  match o.get? k with
  | some v => Lookup.own v
  | none => if k ∈ objectPrototypeKeys then Lookup.inherited else Lookup.absent

/-- The body of the `forEach` callback in `processDepartmentData`.  A member inherited from
`Object.prototype` is truthy, so the bucket is not created for such a key, and the read of
its `employees` is `undefined`, on which `.add` throws. -/
def departmentStep (deptBookings : Dict DeptBucket) (member : JSObject) :
    Except JSError (Dict DeptBucket) :=
  let key := (member.get "DNAME").toPropertyKey
  let initialised : Dict DeptBucket :=
    match deptBookings.lookup key with
    | Lookup.absent =>
      deptBookings.set key { department := member.get "DNAME", bookings := 0, employees := [] }
    | Lookup.own _ => deptBookings
    | Lookup.inherited => deptBookings
  match initialised.lookup key with
  | Lookup.own dept =>
    Except.ok (initialised.set key
      { dept with employees := setAdd dept.employees (member.get "SSN") })
  | Lookup.inherited =>
    Except.error (JSError.typeError "Cannot read properties of undefined (reading 'add')")
  | Lookup.absent =>
    Except.error (JSError.typeError "Cannot read properties of undefined (reading 'employees')")

/-- The function `processDepartmentData(data)`. -/
def processDepartmentData (data : List JSObject) : Except JSError (List DeptEntry) :=
  match forEach departmentStep [] data with
  | Except.error e => Except.error e
  | Except.ok deptBookings =>
    Except.ok ((Dict.values deptBookings).map
      (fun dept => { department := dept.department, employees := dept.employees.length }))

/-! ## Rooms view -/

/-- What a `catch (error)` block receives: the rejection of a request, or an exception
thrown while the response was processed. -/
inductive Caught where
  | rejection (message : String)
  | exception (e : JSError)
deriving DecidableEq, Repr

/-- The effects the handlers of the two views issue besides updating their state. -/
inductive Effect where
  | toastError (msg : String)
  | addRoomMutate (newRoom : JSObject)
  | updateRoomMutate (updatedRoom : JSObject)
  | deleteRoomMutate (id : JSValue)
  | toastSuccess (msg : String)
  | invalidateQueries (key : String)
  | consoleError (label : String) (error : Caught)
deriving DecidableEq, Repr

/-- The message of the validation notification. -/
def validationMessage : String := "กรุณากรอกข้อมูลให้ครบทุกช่อง"

/-- The fields `handleSaveRoom` requires. -/
def requiredFields : List String :=
  ["CFRNAME", "BDNUM", "FLNUM", "RTNUM", "STUROOM", "CAPACITY"]

/-- The handler `handleSaveRoom(roomData)`; `editingRoom` is the room being edited, `none`
for `null`. -/
def handleSaveRoom (editingRoom : Option JSObject) (roomData : JSObject) : List Effect :=
  if !(roomData.get "CFRNAME").toBoolean
      || !(roomData.get "BDNUM").toBoolean
      || !(roomData.get "FLNUM").toBoolean
      || !(roomData.get "RTNUM").toBoolean
      || !(roomData.get "STUROOM").toBoolean
      || !(roomData.get "CAPACITY").toBoolean then
    [Effect.toastError validationMessage]
  else if editingRoom.isSome then
    [Effect.updateRoomMutate roomData]
  else
    [Effect.addRoomMutate roomData]

/-- The object spread `{ ...data }`; spreading `null` copies nothing. -/
def spread (data : Option JSObject) : JSObject :=
  match data with
  | some o => o
  | none => []

/-- The `onValueChange` handler of the change-status dialog; `data` is `dialogState.data`. -/
def changeStatusOnValueChange (data : Option JSObject) (value : String) : List Effect :=
  let updatedRoom := Dict.set (spread data) "STUROOM" (JSValue.str value)
  [Effect.updateRoomMutate updatedRoom]

/-- Whether a room record has all the required fields present (truthy). -/
def allRequiredPresent (room : JSObject) : Bool :=
  requiredFields.all (fun k => (room.get k).toBoolean)

/-- The method `s.includes(sub)`: `sub` occurs in `s` as a contiguous run of characters. -/
def includes (s sub : String) : Bool :=
  decide (sub.data <:+: s.data)

/-- The predicate of the `some` call in `filteredRooms`:
`value?.toString().toLowerCase().includes(searchTerm.toLowerCase())`, falsy on `null` and
`undefined`.  `toLowerCase` is the host's `String.prototype.toLowerCase`. -/
def valueMatches (toLowerCase : String → String) (searchTerm : String) (value : JSValue) :
    Bool :=
  match value.toStringOpt with
  | none => false
  | some s => includes (toLowerCase s) (toLowerCase searchTerm)

/-- The memo `filteredRooms`, a function of `sortedRooms` and `searchTerm`. -/
def filteredRooms (toLowerCase : String → String) (sortedRooms : List JSObject)
    (searchTerm : String) : List JSObject :=
  sortedRooms.filter (fun room => (Dict.values room).any (valueMatches toLowerCase searchTerm))

/-- The function `formatID(id)`: `id.toString().padStart(3, "0")`; the call throws on `null`
and `undefined`. -/
def formatID (id : JSValue) : Except JSError String :=
  match id.toStringOpt with
  | none => Except.error (JSError.typeError "Cannot read properties of undefined (reading 'toString')")
  | some s => Except.ok (String.leftpad 3 '0' s)

/-- The object `statusMap`: the display label of each room status code. -/
def statusMap : Dict String :=
  [("1", "พร้อมใช้งาน"), ("2", "ชำรุด"), ("3", "ปิดให้บริการ")]

/-- The text a table cell shows for a value: strings and numbers as text, nothing for
`null`, `undefined` and booleans. -/
def cellText : JSValue → String
  | JSValue.num n => numberToString n
  | JSValue.str s => s
  | _ => ""

/-- The text of the seven data cells of a table row, in column order: formatted ID, name,
building, floor, type, status label, capacity.  `none` when `formatID` throws. -/
def displayedCells (room : JSObject) : Option (List String) :=
  match formatID (room.get "CFRNUMBER") with
  | Except.error _ => none
  | Except.ok id =>
    some [id, cellText (room.get "CFRNAME"), cellText (room.get "BDNAME"),
      cellText (room.get "FLNAME"), cellText (room.get "RTNAME"),
      (match statusMap.get? (room.get "STUROOM").toPropertyKey with
        | some label => label
        | none => ""),
      cellText (room.get "CAPACITY")]

/-- Lower-casing of the ASCII letters, the part of `toLowerCase` the examples use. -/
def asciiLower (s : String) : String :=
  String.mk (s.data.map Char.toLower)

/-- A room row as the API would return it. -/
def exampleRoom : JSObject :=
  [("CFRNUMBER", JSValue.num 5), ("CFRNAME", JSValue.str "Orchid"),
   ("BDNUM", JSValue.num 7), ("BDNAME", JSValue.str "Main"),
   ("FLNUM", JSValue.num 2), ("FLNAME", JSValue.str "Second"),
   ("RTNUM", JSValue.num 4), ("RTNAME", JSValue.str "Seminar"),
   ("STUROOM", JSValue.num 1), ("CAPACITY", JSValue.num 30)]

/-- A room row whose capacity the server left unset. -/
def roomWithoutCapacity : JSObject :=
  [("CFRNUMBER", JSValue.num 5), ("CFRNAME", JSValue.str "Orchid"),
   ("BDNUM", JSValue.num 7), ("BDNAME", JSValue.str "Main"),
   ("FLNUM", JSValue.num 2), ("FLNAME", JSValue.str "Second"),
   ("RTNUM", JSValue.num 4), ("RTNAME", JSValue.str "Seminar"),
   ("STUROOM", JSValue.num 1), ("CAPACITY", JSValue.null)]

/-- The create-room form after typing everything but the capacity. -/
def incompleteForm : JSObject :=
  [("CFRNUMBER", JSValue.str ""), ("CFRNAME", JSValue.str "Orchid"),
   ("BDNUM", JSValue.str "7"), ("FLNUM", JSValue.str "2"), ("RTNUM", JSValue.str "4"),
   ("STUROOM", JSValue.str "1"), ("CAPACITY", JSValue.str "")]

/-- The create-room form with every required field filled in. -/
def completeForm : JSObject :=
  [("CFRNUMBER", JSValue.str ""), ("CFRNAME", JSValue.str "Orchid"),
   ("BDNUM", JSValue.str "7"), ("FLNUM", JSValue.str "2"), ("RTNUM", JSValue.str "4"),
   ("STUROOM", JSValue.str "1"), ("CAPACITY", JSValue.str "30")]

/-- The dictionary key of a member row: `member.DNAME` as a property key. -/
def deptKey (member : JSObject) : String :=
  (member.get "DNAME").toPropertyKey

/-- The employee identifiers of the rows of `data` that belong to the department `key`. -/
def deptSSNs (data : List JSObject) (key : String) : List JSValue :=
  (data.filter (fun m => decide (deptKey m = key))).map (fun m => m.get "SSN")

/-- The loop invariant of `processDepartmentData` after the rows `seen`: distinct keys, a
bucket exactly for the departments seen, and in each bucket the distinct employee
identifiers of the rows of that department. -/
def DeptInv (deptBookings : Dict DeptBucket) (seen : List JSObject) : Prop :=
  deptBookings.keys.Nodup
    ∧ (∀ k b, deptBookings.get? k = some b →
        b.department.toPropertyKey = k ∧ b.employees.Nodup
          ∧ (∀ v, v ∈ b.employees ↔ v ∈ deptSSNs seen k)
          ∧ ∃ m ∈ seen, deptKey m = k)
    ∧ (∀ k, deptBookings.get? k = none → ∀ m ∈ seen, deptKey m ≠ k)

/-! ## Requests and responses -/

/-- An HTTP request as issued through axios. -/
structure Request where
  method : String
  url : String
  body : Option JSObject
deriving DecidableEq, Repr

/-- The outcome of a request whose payload is an array of rows: the rows of
`response.data`, or the message of the error the promise is rejected with. -/
abbrev Response := Except String (List JSObject)

/-- The string a template literal substitutes for a value (`ToString` on primitives). -/
def interpolate : JSValue → String
  | JSValue.undefined => "undefined"
  | JSValue.null => "null"
  | JSValue.bool b => if b then "true" else "false"
  | JSValue.num n => numberToString n
  | JSValue.str s => s

/-- The method `array.filter(callback)` for a callback that may throw: the first exception
aborts the call. -/
def filterE {α : Type} (callback : α → Except JSError Bool) : List α → Except JSError (List α)
  | [] => Except.ok []
  | a :: rest =>
    match callback a with
    | Except.error e => Except.error e
    | Except.ok keep =>
      match filterE callback rest with
      | Except.error e => Except.error e
      | Except.ok kept => Except.ok (if keep then a :: kept else kept)

/-! ## Report view: state and fetches -/

/-- An option of the room selector of the report view: `{ id, name }`. -/
structure RoomOption where
  id : JSValue
  name : JSValue
deriving DecidableEq, Repr

/-- The state hooks of `ReportSection`. -/
structure ReportState where
  roomUsageData : List UsageEntry
  bookingStatusData : List StatusEntry
  departmentData : List DeptEntry
  departments : List JSObject
  rooms : List RoomOption
  selectedDepartment : String
  selectedDate : JSDate
  selectedRoom : String
  lockStatsData : List JSObject
  selectedMonth : Int
  selectedYear : Int
deriving DecidableEq, Repr

/-- The function `fetchLockStats`, given the outcome of `GET /employee-lock-stats`. -/
def fetchLockStats (response : Response) (s : ReportState) : ReportState × List Effect :=
  match response with
  | Except.ok data => ({ s with lockStatsData := data }, [])
  | Except.error message =>
    (s, [Effect.consoleError "Error fetching lock stats:" (Caught.rejection message)])

/-- The callback of the `filter` call in `fetchMonthlyData`.  On an Invalid Date `getMonth()`
is `NaN`, which equals no month; `booking.CFRNUM.toString()` throws on `null` and
`undefined`. -/
def monthlyFilter (newDate : JSValue → JSDate) (s : ReportState) (booking : JSObject) :
    Except JSError Bool :=
  match newDate (booking.get "BDATE") with
  | none => Except.ok false
  | some bookingDate =>
    if (bookingDate.month.val : Int) = s.selectedMonth then
      if bookingDate.fullYear = s.selectedYear then
        if s.selectedRoom = "all" then Except.ok true
        else
          match (booking.get "CFRNUM").toStringOpt with
          | none =>
            Except.error
              (JSError.typeError "Cannot read properties of undefined (reading 'toString')")
          | some roomId => Except.ok (decide (roomId = s.selectedRoom))
      else Except.ok false
    else Except.ok false

/-- The function `fetchMonthlyData`, given the outcome of `GET /admin-bookings`. -/
def fetchMonthlyData (newDate : JSValue → JSDate) (response : Response) (s : ReportState) :
    ReportState × List Effect :=
  match response with
  | Except.error message =>
    (s, [Effect.consoleError "Error fetching monthly data:" (Caught.rejection message)])
  | Except.ok data =>
    match filterE (monthlyFilter newDate s) data with
    | Except.error e =>
      (s, [Effect.consoleError "Error fetching monthly data:" (Caught.exception e)])
    | Except.ok filteredData =>
      match processRoomUsageData newDate filteredData with
      | Except.error e =>
        (s, [Effect.consoleError "Error fetching monthly data:" (Caught.exception e)])
      | Except.ok processedData => ({ s with roomUsageData := processedData }, [])

/-- The function `fetchData`, given the outcomes of `GET /admin-bookings` and of
`GET /members`.  The second request is awaited inside the same `try` block after the first
response has been processed, so its outcome is read only when everything before it
succeeded; the state updates made before an exception stay. -/
def fetchData (newDate : JSValue → JSDate) (roomUsageResponse departmentResponse : Response)
    (s : ReportState) : ReportState × List Effect :=
  match roomUsageResponse with
  | Except.error message =>
    (s, [Effect.consoleError "Error fetching report data:" (Caught.rejection message)])
  | Except.ok bookings =>
    match processRoomUsageData newDate bookings with
    | Except.error e =>
      (s, [Effect.consoleError "Error fetching report data:" (Caught.exception e)])
    | Except.ok roomUsage =>
      let s₁ := { s with roomUsageData := roomUsage }
      let s₂ := { s₁ with bookingStatusData := processBookingStatusData bookings }
      match departmentResponse with
      | Except.error message =>
        (s₂, [Effect.consoleError "Error fetching report data:"
                (Caught.rejection message)])
      | Except.ok members =>
        match processDepartmentData members with
        | Except.error e =>
          (s₂, [Effect.consoleError "Error fetching report data:" (Caught.exception e)])
        | Except.ok deptData => ({ s₂ with departmentData := deptData }, [])

/-- The function `fetchDepartments`, given the outcome of `GET /departments`. -/
def fetchDepartments (response : Response) (s : ReportState) :
    ReportState × List Effect :=
  match response with
  | Except.ok data => ({ s with departments := data }, [])
  | Except.error message =>
    (s, [Effect.consoleError "Error fetching departments:" (Caught.rejection message)])

/-- The function `fetchRooms` of the report view, given the outcome of `GET /rooms`. -/
def ReportSection.fetchRooms (response : Response) (s : ReportState) :
    ReportState × List Effect :=
  match response with
  | Except.ok data =>
    let transformedRooms := data.map
      (fun room => { id := room.get "CFRNUMBER", name := room.get "CFRNAME" : RoomOption })
    ({ s with rooms := transformedRooms }, [])
  | Except.error message =>
    (s, [Effect.consoleError "Error fetching rooms:" (Caught.rejection message)])

/-- The callback of the `filter` call in `fetchFilteredData`. -/
def filteredDataFilter (newDate : JSValue → JSDate) (formattedDate : String)
    (booking : JSObject) : Except JSError Bool :=
  match format (newDate (booking.get "BDATE")) DatePattern.ymd with
  | Except.error e => Except.error e
  | Except.ok bookingDate => Except.ok (decide (bookingDate = formattedDate))

/-- The function `fetchFilteredData`, given the outcome of the request
`GET /admin-bookings?date=...&roomId=...`.  `format(selectedDate, "yyyy-MM-dd")` is
evaluated inside the `try` block, before the request is issued. -/
def fetchFilteredData (newDate : JSValue → JSDate) (response : Response) (s : ReportState) :
    ReportState × List Effect :=
  match format s.selectedDate DatePattern.ymd with
  | Except.error e =>
    (s, [Effect.consoleError "Error fetching filtered data:" (Caught.exception e)])
  | Except.ok formattedDate =>
    match response with
    | Except.error message =>
      (s, [Effect.consoleError "Error fetching filtered data:"
            (Caught.rejection message)])
    | Except.ok data =>
      match filterE (filteredDataFilter newDate formattedDate) data with
      | Except.error e =>
        (s, [Effect.consoleError "Error fetching filtered data:" (Caught.exception e)])
      | Except.ok filteredBookings =>
        match processRoomUsageData newDate filteredBookings with
        | Except.error e =>
          (s, [Effect.consoleError "Error fetching filtered data:" (Caught.exception e)])
        | Except.ok processedData => ({ s with roomUsageData := processedData }, [])

/-- The function `fetchAllDaysData`, given the outcome of `GET /admin-bookings`. -/
def fetchAllDaysData (newDate : JSValue → JSDate) (response : Response) (s : ReportState) :
    ReportState × List Effect :=
  match response with
  | Except.error message =>
    (s, [Effect.consoleError "Error fetching all days data:" (Caught.rejection message)])
  | Except.ok data =>
    match processRoomUsageData newDate data with
    | Except.error e =>
      (s, [Effect.consoleError "Error fetching all days data:" (Caught.exception e)])
    | Except.ok processedData => ({ s with roomUsageData := processedData }, [])

/-- The outcomes of the five requests of `loadData`. -/
structure MountResponses where
  bookings : Response
  members : Response
  departments : Response
  rooms : Response
  lockStats : Response

/-- The function `loadData` of the mount effect: `fetchData`, `fetchDepartments`,
`fetchRooms` and `fetchLockStats` run together under `Promise.all`.  Each of them catches
its own failures and they write different state hooks, so the state they leave does not
depend on the order in which the responses arrive; the order below is the order of the
array. -/
def loadData (newDate : JSValue → JSDate) (r : MountResponses) (s : ReportState) :
    ReportState × List Effect :=
  let a := fetchData newDate r.bookings r.members s
  let b := fetchDepartments r.departments a.1
  let c := ReportSection.fetchRooms r.rooms b.1
  let d := fetchLockStats r.lockStats c.1
  (d.1, a.2 ++ b.2 ++ c.2 ++ d.2)

/-! ## Configuration and request targets -/

/-- The export `API_URL` of `config.js`, as a function of `process.env.NODE_ENV`. -/
def Config.API_URL (nodeEnv : JSValue) : String :=
  if nodeEnv = JSValue.str "development" then "http://localhost:8080"
  else "https://project-meet.vercel.app"

/-- The export `CLIENT_URL` of `config.js`. -/
def Config.CLIENT_URL (nodeEnv : JSValue) : String :=
  if nodeEnv = JSValue.str "development" then "http://localhost:5173"
  else "https://project-meet.vercel.app"

/-- The constant `API_URL` declared at the top of `RoomsSection.jsx`. -/
def RoomsSection.API_URL : String := "http://localhost:8080"

/-- The request of the query function `fetchRooms` of the rooms view. -/
def RoomsSection.fetchRoomsRequest : Request :=
  { method := "GET", url := RoomsSection.API_URL ++ "/room", body := none }

/-- The request of `fetchBuildings`. -/
def fetchBuildingsRequest : Request :=
  { method := "GET", url := RoomsSection.API_URL ++ "/buildings", body := none }

/-- The request of `fetchRoomtypes`. -/
def fetchRoomtypesRequest : Request :=
  { method := "GET", url := RoomsSection.API_URL ++ "/roomtypes", body := none }

/-- The request of `fetchStatusrooms`. -/
def fetchStatusroomsRequest : Request :=
  { method := "GET", url := RoomsSection.API_URL ++ "/statusrooms", body := none }

/-- The request of `fetchFloors`: issued only when `formData.BDNUM` is truthy. -/
def fetchFloorsRequest (formData : JSObject) : Option Request :=
  if (formData.get "BDNUM").toBoolean then
    some { method := "GET",
           url := RoomsSection.API_URL ++ "/floors?buildingId="
                    ++ interpolate (formData.get "BDNUM"),
           body := none }
  else none

/-- The `mutationFn` of `addRoomMutation`. -/
def addRoomRequest (newRoom : JSObject) : Request :=
  { method := "POST", url := RoomsSection.API_URL ++ "/addroom", body := some newRoom }

/-- The `mutationFn` of `updateRoomMutation`. -/
def updateRoomRequest (updatedRoom : JSObject) : Request :=
  { method := "PUT",
    url := RoomsSection.API_URL ++ "/updateroom/" ++ interpolate (updatedRoom.get "CFRNUMBER"),
    body := some updatedRoom }

/-- The `mutationFn` of `deleteRoomMutation`. -/
def deleteRoomRequest (CFRNUMBER : JSValue) : Request :=
  { method := "DELETE",
    url := RoomsSection.API_URL ++ "/deleteroom/" ++ interpolate CFRNUMBER,
    body := none }

/-- The request of `fetchLockStats`. -/
def fetchLockStatsRequest : Request :=
  { method := "GET", url := "http://localhost:8080/employee-lock-stats", body := none }

/-- The request `GET /admin-bookings` of `fetchData`, `fetchMonthlyData` and
`fetchAllDaysData`. -/
def adminBookingsRequest : Request :=
  { method := "GET", url := "http://localhost:8080/admin-bookings", body := none }

/-- The second request of `fetchData`. -/
def membersRequest : Request :=
  { method := "GET", url := "http://localhost:8080/members", body := none }

/-- The request of `fetchDepartments`. -/
def fetchDepartmentsRequest : Request :=
  { method := "GET", url := "http://localhost:8080/departments", body := none }

/-- The request of `fetchRooms` of the report view. -/
def ReportSection.fetchRoomsRequest : Request :=
  { method := "GET", url := "http://localhost:8080/rooms", body := none }

/-- The request of `fetchFilteredData`; `query` is the serialisation of the
`URLSearchParams` built from the selected date and room. -/
def fetchFilteredDataRequest (query : String) : Request :=
  { method := "GET", url := "http://localhost:8080/admin-bookings?" ++ query, body := none }

/-- The REST requests the two views can issue, for given arguments. -/
def allRequests (formData newRoom updatedRoom : JSObject) (CFRNUMBER : JSValue)
    (query : String) : List Request :=
  [RoomsSection.fetchRoomsRequest, fetchBuildingsRequest, fetchRoomtypesRequest,
   fetchStatusroomsRequest, addRoomRequest newRoom, updateRoomRequest updatedRoom,
   deleteRoomRequest CFRNUMBER, fetchLockStatsRequest, adminBookingsRequest, membersRequest,
   fetchDepartmentsRequest, ReportSection.fetchRoomsRequest, fetchFilteredDataRequest query]
    ++ (fetchFloorsRequest formData).toList

/-! ## Rooms view: queries, effects and mutation callbacks -/

/-- The query function `fetchRooms` of the rooms view: a rejection is not caught, it is the
result of the function. -/
def RoomsSection.fetchRooms (response : Response) : Response := response

/-- The query function `fetchBuildings`. -/
def fetchBuildings (response : Response) : Response := response

/-- The query function `fetchRoomtypes`. -/
def fetchRoomtypes (response : Response) : Response := response

/-- The query function `fetchStatusrooms`. -/
def fetchStatusrooms (response : Response) : Response := response

/-- The function `fetchFloors` of the first effect on `formData.BDNUM`, given the outcome of
its request: the new value of `floors` and the effects. -/
def fetchFloors (formData : JSObject) (response : Response) (floors : List JSObject) :
    List JSObject × List Effect :=
  if (formData.get "BDNUM").toBoolean then
    match response with
    | Except.ok data => (data, [])
    | Except.error message =>
      (floors, [Effect.consoleError "Error fetching floors:" (Caught.rejection message),
                Effect.toastError "ไม่สามารถดึงข้อมูลชั้นได้"])
  else ([], [])

/-- The second effect on `formData.BDNUM`: the new value of `formData`. -/
def resetFloorEffect (formData : JSObject) : JSObject :=
  if (formData.get "BDNUM").toBoolean then Dict.set formData "FLNUM" (JSValue.str "")
  else formData

/-- The state `dialogState`. -/
structure DialogState where
  type : Option String
  isOpen : Bool
  data : Option JSObject
deriving DecidableEq, Repr

/-- The state hooks of `RoomsSection`; `formData` is `none` when it has been set to `null`. -/
structure RoomsState where
  isModalOpen : Bool
  editingRoom : Option JSObject
  searchTerm : String
  currentPage : Int
  floors : List JSObject
  dialogState : DialogState
  formData : Option JSObject
deriving DecidableEq, Repr

/-- The value `{ type: null, isOpen: false, data: null }`. -/
def closedDialog : DialogState := { type := none, isOpen := false, data := none }

/-- The `onSuccess` callback of `addRoomMutation`. -/
def addRoomOnSuccess (s : RoomsState) : RoomsState × List Effect :=
  ({ s with isModalOpen := false },
   [Effect.invalidateQueries "rooms", Effect.toastSuccess "เพิ่มห้องประชุมสำเร็จ"])

/-- The `onError` callback of `addRoomMutation`; `message` is `error.message`. -/
def addRoomOnError (message : String) : List Effect :=
  [Effect.toastError ("ไม่สามารถเพิ่มห้องประชุมได้: " ++ message)]

/-- The `onSuccess` callback of `updateRoomMutation`. -/
def updateRoomOnSuccess (s : RoomsState) : RoomsState × List Effect :=
  ({ s with isModalOpen := false, dialogState := closedDialog },
   [Effect.invalidateQueries "rooms", Effect.toastSuccess "อัปเดตข้อมูลห้องประชุมสำเร็จ"])

/-- The `onError` callback of `updateRoomMutation`. -/
def updateRoomOnError (message : String) : List Effect :=
  [Effect.toastError ("ไม่สามารถอัปเดตข้อมูลห้องประชุมได้: " ++ message)]

/-- The `onSuccess` callback of `deleteRoomMutation`. -/
def deleteRoomOnSuccess (s : RoomsState) : RoomsState × List Effect :=
  ({ s with dialogState := closedDialog },
   [Effect.invalidateQueries "rooms", Effect.toastSuccess "ลบห้องประชุมสำเร็จ"])

/-- The `onError` callback of `deleteRoomMutation`. -/
def deleteRoomOnError (message : String) : List Effect :=
  [Effect.toastError ("ไม่สามารถลบห้องประชุมได้: " ++ message)]

/-- The form `handleAction("add")` installs. -/
def blankForm : JSObject :=
  [("CFRNUMBER", JSValue.str ""), ("CFRNAME", JSValue.str ""), ("BDNUM", JSValue.str ""),
   ("FLNUM", JSValue.str ""), ("RTNUM", JSValue.str ""), ("STUROOM", JSValue.str ""),
   ("CAPACITY", JSValue.str "")]

/-- The handler `handleAction(action, room = null)`. -/
def handleAction (action : String) (room : Option JSObject) (s : RoomsState) : RoomsState :=
  if action = "add" then
    { s with editingRoom := none, formData := some blankForm, isModalOpen := true }
  else if action = "edit" then
    { s with editingRoom := room, formData := room, isModalOpen := true }
  else if action = "delete" ∨ action = "approve" ∨ action = "close" then
    { s with dialogState := { type := some action, isOpen := true, data := room } }
  else s

/-- The handler `handleDeleteRoom`: reading `dialogState.data.CFRNUMBER` throws when
`dialogState.data` is `null`. -/
def handleDeleteRoom (s : RoomsState) : Except JSError (List Effect) :=
  match s.dialogState.data with
  | none =>
    Except.error (JSError.typeError "Cannot read properties of null (reading 'CFRNUMBER')")
  | some room => Except.ok [Effect.deleteRoomMutate (room.get "CFRNUMBER")]

/-- The object `statusColors`: the colour classes of each room status code. -/
def statusColors : Dict String :=
  [("1", "bg-green-100 text-green-800"), ("2", "bg-yellow-100 text-yellow-800"),
   ("3", "bg-red-100 text-red-800")]

/-- The items of the select of the change-status dialog: value and label. -/
def changeStatusOptions : List (String × String) :=
  [("1", "พร้อมใช้งาน"), ("2", "ชำรุด"), ("3", "ปิดให้บริการ")]

/-! ## Rooms view: sorting and pagination -/

/-- The characters `parseInt` skips at the start of its input (white space and line
terminators). -/
def isStrWhiteSpaceChar (c : Char) : Bool :=
  [9, 10, 11, 12, 13, 32, 160, 5760, 8232, 8233, 8239, 8287, 12288, 65279].contains c.toNat
    || (decide (8192 ≤ c.toNat) && decide (c.toNat ≤ 8202))

/-- The value of a character as a digit of the given radix, if it is one. -/
def digitValue (radix : Nat) (c : Char) : Option Nat :=
  let v :=
    if 48 ≤ c.toNat ∧ c.toNat ≤ 57 then c.toNat - 48
    else if 97 ≤ c.toNat ∧ c.toNat ≤ 122 then c.toNat - 87
    else if 65 ≤ c.toNat ∧ c.toNat ≤ 90 then c.toNat - 55
    else radix
  if v < radix then some v else none

/-- The number denoted by the longest run of digits at the start of `cs`, continuing from
the value `acc` of the digits already read; `none` when no digit has been read. -/
def parseDigits (radix : Nat) : List Char → Option Nat → Option Nat
  | [], acc => acc
  | c :: rest, acc =>
    match digitValue radix c with
    | none => acc
    | some v =>
      parseDigits radix rest (some (radix * (match acc with | some n => n | none => 0) + v))

/-- The digits of `parseInt` after white space and sign: hexadecimal after `0x` or `0X`,
decimal otherwise. -/
def parseUnsigned : List Char → Option Nat
  | '0' :: 'x' :: rest => parseDigits 16 rest none
  | '0' :: 'X' :: rest => parseDigits 16 rest none
  | cs => parseDigits 10 cs none

/-- The Number `parseInt` returns for the digits it has read: `NaN` without a digit,
otherwise the Number nearest to the integer the digits denote.  (An implementation may
read the decimal digits after the twentieth as zeros; here every digit counts.) -/
def parsedNumber (negative : Bool) : Option Nat → JSNumber
  | none => JSNumber.nan
  | some v => toNumber negative v

/-- The function `parseInt(string)` on a string.  The digits are read as an exact integer,
which is then rounded to a Number (`9007199254740993` reads as `2^53`); reading stops at
the first character that is not a digit (`1e+21` reads as 1). -/
def parseIntString (s : String) : JSNumber :=
  match s.data.dropWhile isStrWhiteSpaceChar with
  | '-' :: rest => parsedNumber true (parseUnsigned rest)
  | '+' :: rest => parsedNumber false (parseUnsigned rest)
  | cs => parsedNumber false (parseUnsigned cs)

/-- The function `parseInt(value)`: the argument is first converted to a string. -/
def parseInt (value : JSValue) : JSNumber :=
  parseIntString (interpolate value)

/-- The comparator of `sortedRooms`: `parseInt(a.CFRNUMBER) - parseInt(b.CFRNUMBER)`. -/
def compareRooms (a b : JSObject) : JSNumber :=
  (parseInt (a.get "CFRNUMBER")).sub (parseInt (b.get "CFRNUMBER"))

/-- The comparator read as an order: `a` may stand before `b` when the comparator does not
return a positive number (`NaN` counts as zero). -/
def roomLE (a b : JSObject) : Prop :=
  match compareRooms a b with
  | JSNumber.nan => True
  | JSNumber.finite v => v ≤ 0
  | JSNumber.infinity negative => negative = true

instance : DecidableRel roomLE :=
  fun a b => by
    unfold roomLE
    cases compareRooms a b <;> infer_instance

/-- The memo `sortedRooms`: a stable sort of a copy of `rooms`.  When some CFRNUMBER does
not parse the comparator is not consistent and the order `Array.prototype.sort` produces
depends on the implementation; the result is then still a rearrangement of `rooms`, here
the one insertion sort gives. -/
def sortedRooms (rooms : List JSObject) : List JSObject :=
  rooms.insertionSort roomLE

/-- The constant `ITEMS_PER_PAGE`. -/
def ITEMS_PER_PAGE : Nat := 10

/-- The value `totalPages`: `Math.ceil(filteredRooms.length / ITEMS_PER_PAGE)`, which for
an array length is the exact ceiling of the quotient. -/
def totalPages (filteredRooms : List JSObject) : Nat :=
  (filteredRooms.length + (ITEMS_PER_PAGE - 1)) / ITEMS_PER_PAGE

/-- The value `startIndex`: `(currentPage - 1) * ITEMS_PER_PAGE`. -/
def startIndex (currentPage : Int) : Int :=
  (currentPage - 1) * (ITEMS_PER_PAGE : Int)

/-- The method `array.slice(start, stop)`: a negative index counts from the end, and both
indices are clamped to the array. -/
def slice {α : Type} (l : List α) (start stop : Int) : List α :=
  let len : Int := l.length
  let k : Int := if start < 0 then max (len + start) 0 else min start len
  let final : Int := if stop < 0 then max (len + stop) 0 else min stop len
  (l.drop k.toNat).take (final - k).toNat

/-- The value `paginatedRooms`. -/
def paginatedRooms (filteredRooms : List JSObject) (currentPage : Int) : List JSObject :=
  slice filteredRooms (startIndex currentPage) (startIndex currentPage + (ITEMS_PER_PAGE : Int))

/-- The rows of the table for the fetched `rooms`, the search term and the current page. -/
def renderedRooms (toLowerCase : String → String) (rooms : List JSObject)
    (searchTerm : String) (currentPage : Int) : List JSObject :=
  paginatedRooms (filteredRooms toLowerCase (sortedRooms rooms) searchTerm) currentPage

/-- Modelled from the spec: the remote API, which is not part of the sources.  Its room
collection is a list of rows; a successful `DELETE /deleteroom/{id}` removes the room whose
CFRNUMBER is written `id`, and `GET /room` returns the collection. -/
def serverDeleteRoom (store : List JSObject) (id : String) : List JSObject :=
  store.filter (fun room => decide (interpolate (room.get "CFRNUMBER") ≠ id))

/-! ## Initial states and example data of the views -/

/-- The initial state of `ReportSection`; `now` is the `new Date()` of the first render. -/
def initialReportState (now : LocalFields) : ReportState :=
  { roomUsageData := [], bookingStatusData := [], departmentData := [], departments := [],
    rooms := [], selectedDepartment := "all", selectedDate := some now, selectedRoom := "all",
    lockStatsData := [], selectedMonth := (now.month.val : Int), selectedYear := now.fullYear }

/-- The initial state of `RoomsSection`. -/
def initialRoomsState : RoomsState :=
  { isModalOpen := false, editingRoom := none, searchTerm := "", currentPage := 1,
    floors := [], dialogState := closedDialog,
    formData := some [("CFRNAME", JSValue.str ""), ("BDNUM", JSValue.str ""),
      ("FLNUM", JSValue.str ""), ("RTNUM", JSValue.str ""), ("STUROOM", JSValue.str ""),
      ("CAPACITY", JSValue.str "")] }

/-- The first day of the worked example, as the date of the first render. -/
def exampleNow : LocalFields := { fullYear := 2024, month := 4, date := 1 }

/-- The state of the report view after `fetchAllDaysData` has loaded the bookings of the
worked example. -/
def loadedReportState : ReportState :=
  (fetchAllDaysData exampleNewDate (Except.ok exampleBookings) (initialReportState exampleNow)).1

/-- A member row. -/
def exampleMember : JSObject :=
  [("DNAME", JSValue.str "IT"), ("SSN", JSValue.num 1001)]

/-- The outcomes of the mount requests when only the bookings request is rejected. -/
def bookingsRejected : MountResponses :=
  { bookings := Except.error "Network Error", members := Except.ok [exampleMember],
    departments := Except.ok [], rooms := Except.ok [exampleRoom], lockStats := Except.ok [] }

/-- The outcomes of the mount requests when all of them succeed. -/
def allFulfilled : MountResponses :=
  { bookings := Except.ok exampleBookings, members := Except.ok [exampleMember],
    departments := Except.ok [], rooms := Except.ok [exampleRoom], lockStats := Except.ok [] }

/-- Whether an effect is a notification shown to the user. -/
def Effect.isNotification : Effect → Bool
  | Effect.toastError _ => true
  | Effect.toastSuccess _ => true
  | _ => false

/-- A room row without a building but with a floor. -/
def roomWithoutBuilding : JSObject :=
  [("CFRNUMBER", JSValue.num 5), ("CFRNAME", JSValue.str "Orchid"),
   ("BDNUM", JSValue.null), ("FLNUM", JSValue.num 2), ("RTNUM", JSValue.num 4),
   ("STUROOM", JSValue.num 1), ("CAPACITY", JSValue.num 30)]

/-- A second room row. -/
def otherRoom : JSObject :=
  [("CFRNUMBER", JSValue.num 12), ("CFRNAME", JSValue.str "Lotus"),
   ("BDNUM", JSValue.num 7), ("BDNAME", JSValue.str "Main"),
   ("FLNUM", JSValue.num 3), ("FLNAME", JSValue.str "Third"),
   ("RTNUM", JSValue.num 4), ("RTNAME", JSValue.str "Seminar"),
   ("STUROOM", JSValue.num 2), ("CAPACITY", JSValue.num 12)]

/-! ## Rooms view: search input, page buttons and the copy made before sorting -/

/-- The `onChange` handler of the search input: `setSearchTerm(e.target.value)`. -/
def onSearchChange (value : String) (s : RoomsState) : RoomsState :=
  { s with searchTerm := value }

/-- The handler `handlePageChange(page)`; it also scrolls the table into view. -/
def handlePageChange (page : Int) (s : RoomsState) : RoomsState :=
  { s with currentPage := page }

/-- The pages the numbered buttons lead to: `i + 1` for `i` below `totalPages`. -/
def pageButtons (filtered : List JSObject) : List Int :=
  (List.range (totalPages filtered)).map (fun i : Nat => (i : Int) + 1)

/-- Whether the table shows the single row that says no data was found:
`paginatedRooms.length === 0`. -/
def showsNoDataRow (paginated : List JSObject) : Bool :=
  paginated.length == 0

/-- The arrays of the heap, by reference: an array value such as `rooms` is an index. -/
abbrev ArrayHeap := List (List JSObject)

/-- The contents of the array behind a reference. -/
def ArrayHeap.read (h : ArrayHeap) (ref : Nat) : List JSObject :=
  h.getD ref []

/-- The spread `[...source]`: a new array with the elements of `source`; the result is the
heap and the reference of the new array. -/
def spreadArray (h : ArrayHeap) (source : Nat) : ArrayHeap × Nat :=
  (h ++ [h.read source], h.length)

/-- The call `array.sort(comparator)` of `sortedRooms`: it reorders the array behind the
reference in place and returns the same reference. -/
def sortInPlace (h : ArrayHeap) (ref : Nat) : ArrayHeap × Nat :=
  (h.set ref ((h.read ref).insertionSort roomLE), ref)

/-- The callback of the memo `sortedRooms` on the heap: `[...rooms].sort(comparator)`. -/
def sortedRoomsOnHeap (h : ArrayHeap) (rooms : Nat) : ArrayHeap × Nat :=
  let copy := spreadArray h rooms
  sortInPlace copy.1 copy.2

/-- The integer `parseInt` reads from the identifier of a room, 0 standing in when the
result is not a finite number. -/
def roomNumber (room : JSObject) : Int :=
  match parseInt (room.get "CFRNUMBER") with
  | JSNumber.finite n => n
  | _ => 0

/-- A room whose identifier is the Number `1e21`. -/
def hugeRoom : JSObject :=
  [("CFRNUMBER", JSValue.num 1000000000000000000000), ("CFRNAME", JSValue.str "Annex")]

/-- A room with the identifier 2. -/
def secondRoom : JSObject :=
  [("CFRNUMBER", JSValue.num 2), ("CFRNAME", JSValue.str "Hall")]

/-- A room whose identifier is the digit string of `2^53 + 1`. -/
def longDigitsRoom : JSObject :=
  [("CFRNUMBER", JSValue.str "9007199254740993"), ("CFRNAME", JSValue.str "East")]

/-- A room whose identifier is the digit string of `2^53`. -/
def shorterDigitsRoom : JSObject :=
  [("CFRNUMBER", JSValue.str "9007199254740992"), ("CFRNAME", JSValue.str "West")]

/-- Eleven room rows numbered 1 to 11. -/
def elevenRooms : List JSObject :=
  (List.range 11).map
    (fun i : Nat => [("CFRNUMBER", JSValue.num ((i : Int) + 1)), ("CFRNAME", JSValue.str "Hall")])

/-! ## Report view: the cards and the chart filters -/

/-- The expression `bookingStatusData.find((item) => item.name === name)?.value`. -/
def findValue (bookingStatusData : List StatusEntry) (name : String) : Option Nat :=
  (bookingStatusData.find? (fun item => decide (item.name = name))).map StatusEntry.value

/-- The expression `value || fallback` on an optional count: the fallback replaces both
`undefined` and 0. -/
def orElse (value : Option Nat) (fallback : Nat) : Nat :=
  match value with
  | some n => if n = 0 then fallback else n
  | none => fallback

/-- The function `Math.round` in exact arithmetic: the nearest integer, halves going up. -/
def mathRound (x : ℚ) : Int :=
  ⌊x + 1 / 2⌋

/-- The denominator of the usage-rate card: the total count, or 1. -/
def usageRateDenominator (bookingStatusData : List StatusEntry) : Nat :=
  orElse (findValue bookingStatusData labelTotal) 1

/-- The number the usage-rate card shows, in exact arithmetic:
`Math.round((used || 0) / (total || 1) * 100)`. -/
def usageRateCard (bookingStatusData : List StatusEntry) : Int :=
  mathRound (((orElse (findValue bookingStatusData labelUsed) 0 : Nat) : ℚ)
    / ((usageRateDenominator bookingStatusData : Nat) : ℚ) * 100)

/-- The value of an item of the department select of the department tab:
`dept.DNUMBER?.toString() || "0"`. -/
def departmentTabSelectValue (dept : JSObject) : String :=
  match (dept.get "DNUMBER").toStringOpt with
  | some text => if text = "" then "0" else text
  | none => "0"

/-- The value of an item of the department select of the lock-stats tab: `dept.DNAME`, for a
department whose name is a string (the values of a select are strings). -/
def lockStatsTabSelectValue (dept : JSObject) : Option String :=
  match dept.get "DNAME" with
  | JSValue.str name => some name
  | _ => none

/-- The handler `setSelectedDepartment`, the `onValueChange` of both department selects. -/
def setSelectedDepartment (value : String) (s : ReportState) : ReportState :=
  { s with selectedDepartment := value }

/-- The expression
`departments?.find((d) => d.DNUMBER?.toString() === selectedDepartment)?.DNAME`. -/
def selectedDepartmentName (s : ReportState) : JSValue :=
  match s.departments.find?
      (fun d => decide ((d.get "DNUMBER").toStringOpt = some s.selectedDepartment)) with
  | some d => d.get "DNAME"
  | none => JSValue.undefined

/-- The data of the bar chart of the department tab. -/
def departmentChartData (s : ReportState) : List DeptEntry :=
  s.departmentData.filter
    (fun dept => decide (s.selectedDepartment = "all")
      || decide (dept.department = selectedDepartmentName s))

/-- The data of the bar chart of the lock-stats tab. -/
def lockStatsChartData (s : ReportState) : List JSObject :=
  s.lockStatsData.filter
    (fun stat => decide (s.selectedDepartment = "all")
      || decide (stat.get "DNAME" = JSValue.str s.selectedDepartment))

/-- Two hundred bookings of which 199 were used and one was cancelled. -/
def almostAllUsed : List JSObject :=
  List.replicate 199 (exampleBooking "2024-05-01" 3) ++ [exampleBooking "2024-05-02" 5]

/-- The decimal representation of a natural number, most significant digit first, without
leading zeros (`0` is written `0`); the number of digits of `n` is its length. -/
def decimalRepresentation (n : Nat) : List Char :=
  if n = 0 then ['0'] else (Nat.digits 10 n).reverse.map Nat.digitChar

/-- A department row. -/
def salesDepartment : JSObject :=
  [("DNUMBER", JSValue.num 20), ("DNAME", JSValue.str "Sales")]

/-- A department whose name is the number string of another department. -/
def numberNamedDepartment : JSObject :=
  [("DNUMBER", JSValue.num 10), ("DNAME", JSValue.str "20")]

/-- A department whose DNUMBER is the string `all`, the value of the item for all
departments. -/
def allDepartment : JSObject :=
  [("DNUMBER", JSValue.str "all"), ("DNAME", JSValue.str "Everything")]

/-- A lock-stat row of the department Sales. -/
def salesLockStat : JSObject :=
  [("FNAME", JSValue.str "Ann"), ("LNAME", JSValue.str "Lee"), ("DNAME", JSValue.str "Sales"),
   ("COUNT", JSValue.num 2), ("LOCKCOUNT", JSValue.num 1)]

/-- A member row of the department Sales. -/
def salesMember : JSObject :=
  [("DNAME", JSValue.str "Sales"), ("SSN", JSValue.num 1003)]

/-- A member row without the property DNAME. -/
def memberWithoutDepartment : JSObject :=
  [("SSN", JSValue.num 1002)]

/-- The state of the report view after the departments, the department series and the
lock-stat rows have been stored. -/
def reportStateWith (departments : List JSObject) (departmentData : List DeptEntry)
    (lockStatsData : List JSObject) : ReportState :=
  { initialReportState exampleNow with
    departments := departments, departmentData := departmentData,
    lockStatsData := lockStatsData }

/-! ## Dictionaries: basic facts -/

theorem Dict.get?_set_self {α : Type} (o : Dict α) (k : String) (v : α) :
    (o.set k v).get? k = some v := by
  induction o with
  | nil => simp [Dict.set, Dict.get?]
  | cons p rest ih =>
    obtain ⟨k', v'⟩ := p
    by_cases h : k' = k
    · simp [Dict.set, Dict.get?, h]
    · simp [Dict.set, Dict.get?, h, ih]

theorem Dict.get?_set_ne {α : Type} (o : Dict α) (k k' : String) (v : α) (h : k' ≠ k) :
    (o.set k v).get? k' = o.get? k' := by
  induction o with
  | nil => simp [Dict.set, Dict.get?, Ne.symm h]
  | cons p rest ih =>
    obtain ⟨k₀, v₀⟩ := p
    by_cases h₀ : k₀ = k
    · subst h₀
      simp [Dict.set, Dict.get?, Ne.symm h]
    · by_cases h₁ : k₀ = k'
      · subst h₁
        simp [Dict.set, Dict.get?, h₀]
      · simp [Dict.set, Dict.get?, h₀, h₁, ih]

theorem Dict.get?_eq_none_iff {α : Type} (o : Dict α) (k : String) :
    o.get? k = none ↔ k ∉ o.keys := by
  induction o with
  | nil => simp [Dict.get?, Dict.keys]
  | cons p rest ih =>
    obtain ⟨k', v'⟩ := p
    by_cases h : k' = k
    · simp [Dict.get?, Dict.keys, h]
    · have ih' : Dict.get? rest k = none ↔ k ∉ List.map Prod.fst rest := ih
      simp [Dict.get?, Dict.keys, h, ih', Ne.symm h]

theorem Dict.keys_set_of_mem {α : Type} (o : Dict α) (k : String) (v : α) (h : k ∈ o.keys) :
    (o.set k v).keys = o.keys := by
  induction o with
  | nil => simp [Dict.keys] at h
  | cons p rest ih =>
    obtain ⟨k', v'⟩ := p
    by_cases h' : k' = k
    · simp [Dict.set, Dict.keys, h']
    · have hm : k ∈ Dict.keys rest := by
        simp only [Dict.keys, List.map_cons, List.mem_cons] at h
        rcases h with h | h
        · exact absurd h.symm h'
        · exact h
      have := ih hm
      simp only [Dict.keys] at this
      simp [Dict.set, Dict.keys, h', this]

theorem Dict.keys_set_of_not_mem {α : Type} (o : Dict α) (k : String) (v : α) (h : k ∉ o.keys) :
    (o.set k v).keys = o.keys ++ [k] := by
  induction o with
  | nil => simp [Dict.set, Dict.keys]
  | cons p rest ih =>
    obtain ⟨k', v'⟩ := p
    simp only [Dict.keys, List.map_cons, List.mem_cons, not_or] at h
    have := ih h.2
    simp only [Dict.keys] at this
    simp [Dict.set, Dict.keys, Ne.symm h.1, this]

theorem Dict.nodup_keys_set {α : Type} (o : Dict α) (k : String) (v : α) (h : o.keys.Nodup) :
    (o.set k v).keys.Nodup := by
  by_cases hk : k ∈ o.keys
  · rw [Dict.keys_set_of_mem o k v hk]; exact h
  · rw [Dict.keys_set_of_not_mem o k v hk]
    exact List.Nodup.append h (List.nodup_singleton k) (by simpa using hk)

theorem Dict.get?_of_mem {α : Type} (o : Dict α) (k : String) (v : α) (h : o.keys.Nodup)
    (hm : (k, v) ∈ o) : o.get? k = some v := by
  induction o with
  | nil => simp at hm
  | cons p rest ih =>
    obtain ⟨k', v'⟩ := p
    simp only [Dict.keys, List.map_cons, List.nodup_cons] at h
    rcases List.mem_cons.mp hm with heq | hrest
    · injection heq with h1 h2
      subst h1; subst h2
      simp [Dict.get?]
    · have hne : k' ≠ k := by
        intro hk
        apply h.1
        subst hk
        exact List.mem_map_of_mem Prod.fst hrest
      simp [Dict.get?, hne]
      exact ih h.2 hrest

theorem Dict.mem_of_get? {α : Type} (o : Dict α) (k : String) (v : α)
    (h : o.get? k = some v) : (k, v) ∈ o := by
  induction o with
  | nil => simp [Dict.get?] at h
  | cons p rest ih =>
    obtain ⟨k', v'⟩ := p
    by_cases hk : k' = k
    · simp [Dict.get?, hk] at h
      simp [hk, h]
    · simp [Dict.get?, hk] at h
      exact List.mem_cons_of_mem _ (ih h)

theorem Dict.values_perm {α : Type} (o : Dict α) : (Dict.values o).Perm (o.map Prod.snd) := by
  unfold Dict.values
  have h1 := (List.perm_insertionSort indexLE (o.filter (fun p => isArrayIndex p.1))).map Prod.snd
  have h2 := (List.filter_append_perm (fun p : String × α => isArrayIndex p.1) o).map Prod.snd
  rw [List.map_append] at h2
  exact (h1.append_right _).trans h2

theorem Dict.mem_values {α : Type} (o : Dict α) (v : α) :
    v ∈ Dict.values o ↔ ∃ k, (k, v) ∈ o := by
  rw [(Dict.values_perm o).mem_iff]
  simp


/-! ## Canonical day keys are never inherited property names -/

theorem formatYMD_not_inherited (d : LocalFields) : formatYMD d ∉ objectPrototypeKeys := by
  have hmem : '-' ∈ (formatYMD d).data := by
    simp [formatYMD, String.data_append]
  intro h
  simp only [objectPrototypeKeys, List.mem_cons, List.mem_singleton, List.not_mem_nil,
    or_false] at h
  rcases h with h | h | h | h | h | h | h | h | h | h | h | h <;>
    (rw [h] at hmem; revert hmem; decide)

/-! ## By-date aggregation: the loop -/

theorem dayCount_append_singleton (newDate : JSValue → JSDate) (seen : List JSObject)
    (b : JSObject) (k : String) :
    dayCount newDate (seen ++ [b]) k
      = dayCount newDate seen k + (if dayKey? newDate b = some k then 1 else 0) := by
  unfold dayCount
  rw [List.countP_append]
  by_cases h : dayKey? newDate b = some k <;> simp [List.countP_cons, h]

theorem roomUsageStep_ok (newDate : JSValue → JSDate) (o o' : Dict UsageEntry) (b : JSObject)
    (h : roomUsageStep newDate o b = Except.ok o') :
    ∃ k, dayKey? newDate b = some k ∧
      ((∃ e, o.get? k = some e ∧ o' = o.set k { e with count := e.count + 1 })
        ∨ (o.get? k = none ∧ ∃ display,
            o' = (o.set k { date := display, sortDate := k, count := 0 }).set k
                  { date := display, sortDate := k, count := 1 })) := by
  unfold roomUsageStep at h
  cases hk : bookingKey newDate b with
  | error e => simp [hk] at h
  | ok k =>
    refine ⟨k, by simp [dayKey?, hk], ?_⟩
    simp only [hk] at h
    cases hg : o.get? k with
    | some e =>
      left
      simp only [hg] at h
      injection h with h
      exact ⟨e, rfl, h.symm⟩
    | none =>
      right
      simp only [hg] at h
      cases hf : format (newDate (JSValue.str k)) DatePattern.dmy with
      | error e => simp [hf] at h
      | ok display =>
        simp only [hf, Dict.get?_set_self] at h
        injection h with h
        exact ⟨rfl, display, h.symm⟩

theorem roomUsageStep_inv (newDate : JSValue → JSDate) (o o' : Dict UsageEntry)
    (seen : List JSObject) (b : JSObject)
    (h : roomUsageStep newDate o b = Except.ok o') (hinv : UsageInv newDate o seen) :
    UsageInv newDate o' (seen ++ [b]) := by
  obtain ⟨hnd, hsome, hnone⟩ := hinv
  obtain ⟨k, hk, hcase⟩ := roomUsageStep_ok newDate o o' b h
  have hcnt : ∀ k', dayCount newDate (seen ++ [b]) k'
      = dayCount newDate seen k' + (if k = k' then 1 else 0) := by
    intro k'
    rw [dayCount_append_singleton, hk]
    simp
  rcases hcase with ⟨e, he, rfl⟩ | ⟨hno, display, rfl⟩
  · obtain ⟨hs, hc, _⟩ := hsome k e he
    refine ⟨Dict.nodup_keys_set _ _ _ hnd, ?_, ?_⟩
    · intro k' e' hg
      by_cases hkk : k' = k
      · subst hkk
        rw [Dict.get?_set_self] at hg
        injection hg with hg
        subst hg
        rw [hcnt]
        simp [hs, hc]
      · rw [Dict.get?_set_ne _ _ _ _ hkk] at hg
        rw [hcnt]
        simpa [Ne.symm hkk] using hsome k' e' hg
    · intro k' hg
      by_cases hkk : k' = k
      · subst hkk
        rw [Dict.get?_set_self] at hg
        exact absurd hg (by simp)
      · rw [Dict.get?_set_ne _ _ _ _ hkk] at hg
        rw [hcnt]
        simpa [Ne.symm hkk] using hnone k' hg
  · have hz := hnone k hno
    refine ⟨Dict.nodup_keys_set _ _ _ (Dict.nodup_keys_set _ _ _ hnd), ?_, ?_⟩
    · intro k' e' hg
      by_cases hkk : k' = k
      · subst hkk
        rw [Dict.get?_set_self] at hg
        injection hg with hg
        subst hg
        rw [hcnt]
        simp [hz]
      · rw [Dict.get?_set_ne _ _ _ _ hkk, Dict.get?_set_ne _ _ _ _ hkk] at hg
        rw [hcnt]
        simpa [Ne.symm hkk] using hsome k' e' hg
    · intro k' hg
      by_cases hkk : k' = k
      · subst hkk
        rw [Dict.get?_set_self] at hg
        exact absurd hg (by simp)
      · rw [Dict.get?_set_ne _ _ _ _ hkk, Dict.get?_set_ne _ _ _ _ hkk] at hg
        rw [hcnt]
        simpa [Ne.symm hkk] using hnone k' hg

theorem forEach_roomUsage_inv (newDate : JSValue → JSDate) (data : List JSObject) :
    ∀ (o o' : Dict UsageEntry) (seen : List JSObject),
      forEach (roomUsageStep newDate) o data = Except.ok o' → UsageInv newDate o seen →
      UsageInv newDate o' (seen ++ data) := by
  induction data with
  | nil =>
    intro o o' seen h hinv
    simp only [forEach] at h
    injection h with h
    subst h
    simpa using hinv
  | cons b rest ih =>
    intro o o' seen h hinv
    simp only [forEach] at h
    cases hs : roomUsageStep newDate o b with
    | error e => simp [hs] at h
    | ok o₁ =>
      simp only [hs] at h
      have := ih o₁ o' (seen ++ [b]) h (roomUsageStep_inv newDate o o₁ seen b hs hinv)
      simpa using this

theorem roomUsageStep_succeeds (newDate : JSValue → JSDate) (o : Dict UsageEntry)
    (b : JSObject) (hb : ValidBDATE newDate b) :
    ∃ o', roomUsageStep newDate o b = Except.ok o' := by
  obtain ⟨d, hd, hkey⟩ := hb
  obtain ⟨d', hd'⟩ := Option.ne_none_iff_exists'.mp hkey
  unfold roomUsageStep
  simp only [bookingKey, hd, format]
  cases hg : o.get? (formatYMD d) with
  | some e => simp [hg]
  | none => simp [hd', Dict.get?_set_self]

theorem forEach_roomUsage_succeeds (newDate : JSValue → JSDate) (data : List JSObject)
    (hvalid : ∀ b ∈ data, ValidBDATE newDate b) :
    ∀ o : Dict UsageEntry, ∃ o', forEach (roomUsageStep newDate) o data = Except.ok o' := by
  induction data with
  | nil => intro o; exact ⟨o, rfl⟩
  | cons b rest ih =>
    intro o
    obtain ⟨o₁, h₁⟩ := roomUsageStep_succeeds newDate o b (hvalid b (List.mem_cons_self _ _))
    obtain ⟨o', h'⟩ := ih (fun x hx => hvalid x (List.mem_cons_of_mem _ hx)) o₁
    exact ⟨o', by simp [forEach, h₁, h']⟩

theorem usageInv_nil (newDate : JSValue → JSDate) : UsageInv newDate [] [] := by
  refine ⟨by simp [Dict.keys], ?_, ?_⟩
  · intro k e h
    simp [Dict.get?] at h
  · intro k _
    simp [dayCount]

theorem processRoomUsageData_ok (newDate : JSValue → JSDate) (data : List JSObject)
    (entries : List UsageEntry) (h : processRoomUsageData newDate data = Except.ok entries) :
    ∃ o : Dict UsageEntry, UsageInv newDate o data
      ∧ entries = (Dict.values o).insertionSort usageLE := by
  unfold processRoomUsageData at h
  cases hf : forEach (roomUsageStep newDate) [] data with
  | error e => simp [hf] at h
  | ok o =>
    simp only [hf] at h
    injection h with h
    refine ⟨o, ?_, h.symm⟩
    simpa using forEach_roomUsage_inv newDate data [] o [] hf (usageInv_nil newDate)

/-! ## Comparison of keys -/

theorem compareChars_swap (a : List Char) :
    ∀ b, compareChars b a = (compareChars a b).swap := by
  induction a with
  | nil => intro b; cases b <;> simp [compareChars, Ordering.swap]
  | cons x xs ih =>
    intro b
    cases b with
    | nil => simp [compareChars, Ordering.swap]
    | cons y ys =>
      simp only [compareChars]
      by_cases h1 : x.toNat < y.toNat
      · have h2 : ¬ y.toNat < x.toNat := by omega
        simp [h1, h2, Ordering.swap]
      · by_cases h2 : y.toNat < x.toNat
        · simp [h1, h2, Ordering.swap]
        · simp [h1, h2, ih ys]

theorem char_eq_of_toNat_eq (x y : Char) (h : x.toNat = y.toNat) : x = y := by
  apply Char.ext
  apply UInt32.ext
  exact h

theorem compareChars_eq (a : List Char) :
    ∀ b, compareChars a b = Ordering.eq → a = b := by
  induction a with
  | nil => intro b h; cases b <;> simp_all [compareChars]
  | cons x xs ih =>
    intro b h
    cases b with
    | nil => simp [compareChars] at h
    | cons y ys =>
      simp only [compareChars] at h
      by_cases h1 : x.toNat < y.toNat
      · simp [h1] at h
      · by_cases h2 : y.toNat < x.toNat
        · simp [h1, h2] at h
        · simp only [h1, h2, if_false] at h
          have hxy : x = y := char_eq_of_toNat_eq x y (by omega)
          rw [hxy, ih ys h]

theorem compareChars_trans (a : List Char) :
    ∀ b c, compareChars a b ≠ Ordering.gt → compareChars b c ≠ Ordering.gt →
      compareChars a c ≠ Ordering.gt := by
  induction a with
  | nil => intro b c _ _; cases c <;> simp [compareChars]
  | cons x xs ih =>
    intro b c hab hbc
    cases b with
    | nil => simp [compareChars] at hab
    | cons y ys =>
      cases c with
      | nil => simp [compareChars] at hbc
      | cons z zs =>
        simp only [compareChars] at hab hbc ⊢
        by_cases h1 : x.toNat < y.toNat
        · by_cases h3 : y.toNat < z.toNat
          · have : x.toNat < z.toNat := by omega
            simp [this]
          · by_cases h4 : z.toNat < y.toNat
            · simp [h3, h4] at hbc
            · have : x.toNat < z.toNat := by omega
              simp [this]
        · by_cases h2 : y.toNat < x.toNat
          · simp [h1, h2] at hab
          · simp only [h1, h2, if_false] at hab
            by_cases h3 : y.toNat < z.toNat
            · have : x.toNat < z.toNat := by omega
              simp [this]
            · by_cases h4 : z.toNat < y.toNat
              · simp [h3, h4] at hbc
              · simp only [h3, h4, if_false] at hbc
                have e1 : ¬ x.toNat < z.toNat := by omega
                have e2 : ¬ z.toNat < x.toNat := by omega
                simp only [e1, e2, if_false]
                exact ih ys zs hab hbc

theorem usageLE_total (a b : UsageEntry) : usageLE a b ∨ usageLE b a := by
  unfold usageLE localeCompare
  rw [compareChars_swap a.sortDate.data b.sortDate.data]
  cases compareChars a.sortDate.data b.sortDate.data <;> simp [Ordering.swap]

theorem usageLE_trans (a b c : UsageEntry) (hab : usageLE a b) (hbc : usageLE b c) :
    usageLE a c :=
  compareChars_trans _ _ _ hab hbc

theorem localeCompare_lt_of_ne (a b : String) (hle : localeCompare a b ≠ Ordering.gt)
    (hne : a ≠ b) : localeCompare a b = Ordering.lt := by
  unfold localeCompare at hle ⊢
  cases h : compareChars a.data b.data with
  | lt => rfl
  | gt => exact absurd h hle
  | eq => exact absurd (String.ext (compareChars_eq _ _ h)) hne

/-! ## By-date aggregation: the result -/

theorem usage_mem_iff (newDate : JSValue → JSDate) (data : List JSObject)
    (o : Dict UsageEntry) (hinv : UsageInv newDate o data) (e : UsageEntry) :
    e ∈ (Dict.values o).insertionSort usageLE ↔ o.get? e.sortDate = some e := by
  rw [(List.perm_insertionSort usageLE _).mem_iff, Dict.mem_values]
  constructor
  · rintro ⟨k, hk⟩
    have hg := Dict.get?_of_mem o k e hinv.1 hk
    have := (hinv.2.1 k e hg).1
    rw [this]
    exact hg
  · intro h
    exact ⟨e.sortDate, Dict.mem_of_get? o _ _ h⟩

theorem usage_keys_nodup (newDate : JSValue → JSDate) (data : List JSObject)
    (o : Dict UsageEntry) (hinv : UsageInv newDate o data) :
    (((Dict.values o).insertionSort usageLE).map UsageEntry.sortDate).Nodup := by
  have hp : (((Dict.values o).insertionSort usageLE).map UsageEntry.sortDate).Perm
      ((o.map Prod.snd).map UsageEntry.sortDate) :=
    ((List.perm_insertionSort usageLE _).trans (Dict.values_perm o)).map _
  rw [hp.nodup_iff]
  have hkeys : (o.map Prod.snd).map UsageEntry.sortDate = o.keys := by
    rw [List.map_map]
    unfold Dict.keys
    apply List.map_congr_left
    rintro ⟨k, e⟩ hm
    exact (hinv.2.1 k e (Dict.get?_of_mem o k e hinv.1 hm)).1
  rw [hkeys]
  exact hinv.1

/-- C1. When every booking has a valid BDATE, `processRoomUsageData` returns a series with
exactly one entry per distinct calendar day (`yyyy-MM-dd`) of the input: every booking's day
has an entry, every entry's `sortDate` is the day of some booking, and no two entries share
a `sortDate`. -/
theorem processRoomUsageData_one_entry_per_date (newDate : JSValue → JSDate)
    (data : List JSObject) (hvalid : ∀ b ∈ data, ValidBDATE newDate b) :
    ∃ entries, processRoomUsageData newDate data = Except.ok entries
      ∧ (∀ b ∈ data, ∃ e ∈ entries, dayKey? newDate b = some e.sortDate)
      ∧ (∀ e ∈ entries, ∃ b ∈ data, dayKey? newDate b = some e.sortDate)
      ∧ (entries.map UsageEntry.sortDate).Nodup := by
  obtain ⟨o, ho⟩ := forEach_roomUsage_succeeds newDate data hvalid []
  have hres : processRoomUsageData newDate data
      = Except.ok ((Dict.values o).insertionSort usageLE) := by
    simp [processRoomUsageData, ho]
  obtain ⟨o₂, hinv, heq⟩ := processRoomUsageData_ok newDate data _ hres
  refine ⟨_, hres, ?_, ?_, ?_⟩
  · intro b hb
    obtain ⟨d, hd, _⟩ := hvalid b hb
    have hkey : dayKey? newDate b = some (formatYMD d) := by
      simp [dayKey?, bookingKey, hd, format]
    have hpos : 0 < dayCount newDate data (formatYMD d) := by
      unfold dayCount
      rw [List.countP_pos_iff]
      exact ⟨b, hb, by simp [hkey]⟩
    cases hg : o₂.get? (formatYMD d) with
    | none => have := hinv.2.2 _ hg; omega
    | some e =>
      have hs := (hinv.2.1 _ e hg).1
      refine ⟨e, ?_, by rw [hkey, hs]⟩
      rw [heq, usage_mem_iff newDate data o₂ hinv, hs]
      exact hg
  · intro e he
    rw [heq, usage_mem_iff newDate data o₂ hinv] at he
    have hpos := (hinv.2.1 _ e he).2.2
    unfold dayCount at hpos
    rw [List.countP_pos_iff] at hpos
    obtain ⟨b, hb, hk⟩ := hpos
    exact ⟨b, hb, by simpa using hk⟩
  · rw [heq]
    exact usage_keys_nodup newDate data o₂ hinv

/-- C2. Every entry returned by `processRoomUsageData` has `count` equal to the number of
input bookings whose BDATE formats to the calendar day `sortDate` of the entry. -/
theorem processRoomUsageData_count (newDate : JSValue → JSDate) (data : List JSObject)
    (entries : List UsageEntry) (h : processRoomUsageData newDate data = Except.ok entries) :
    ∀ e ∈ entries,
      e.count = data.countP (fun b => decide (dayKey? newDate b = some e.sortDate)) := by
  obtain ⟨o, hinv, heq⟩ := processRoomUsageData_ok newDate data entries h
  intro e he
  rw [heq, usage_mem_iff newDate data o hinv] at he
  exact (hinv.2.1 _ e he).2.1

/-! ## Decimal digits of the canonical key -/

theorem toDigitsCore_succ (f n : Nat) (ds : List Char) :
    Nat.toDigitsCore 10 (f + 1) n ds
      = if n / 10 = 0 then Nat.digitChar (n % 10) :: ds
        else Nat.toDigitsCore 10 f (n / 10) (Nat.digitChar (n % 10) :: ds) := by
  simp [Nat.toDigitsCore]

theorem toDigits_lt_10 (n : Nat) (h : n < 10) : Nat.toDigits 10 n = [Nat.digitChar n] := by
  have h1 : n / 10 = 0 := by omega
  have h2 : n % 10 = n := by omega
  simp [Nat.toDigits, toDigitsCore_succ, h1, h2]

theorem toDigits_lt_100 (n : Nat) (h0 : 10 ≤ n) (h : n < 100) :
    Nat.toDigits 10 n = [Nat.digitChar (n / 10), Nat.digitChar (n % 10)] := by
  obtain ⟨k, rfl⟩ : ∃ k, n = k + 1 := ⟨n - 1, by omega⟩
  have h1 : (k + 1) / 10 ≠ 0 := by omega
  have h2 : (k + 1) / 10 / 10 = 0 := by omega
  have h3 : (k + 1) / 10 % 10 = (k + 1) / 10 := by omega
  simp [Nat.toDigits, toDigitsCore_succ, h1, h2, h3]

theorem toDigits_lt_1000 (n : Nat) (h0 : 100 ≤ n) (h : n < 1000) :
    Nat.toDigits 10 n
      = [Nat.digitChar (n / 100), Nat.digitChar (n / 10 % 10), Nat.digitChar (n % 10)] := by
  obtain ⟨k, rfl⟩ : ∃ k, n = k + 2 := ⟨n - 2, by omega⟩
  have h1 : (k + 2) / 10 ≠ 0 := by omega
  have h2 : (k + 2) / 10 / 10 ≠ 0 := by omega
  have h3 : (k + 2) / 10 / 10 / 10 = 0 := by omega
  have h4 : (k + 2) / 10 / 10 % 10 = (k + 2) / 100 := by omega
  have h5 : (k + 2) / 100 ≠ 0 := by omega
  have h6 : (k + 2) / 100 / 10 = 0 := by omega
  have h7 : (k + 2) / 100 % 10 = (k + 2) / 100 := by omega
  simp [Nat.toDigits, toDigitsCore_succ, h1, h2, h3, h4, h5, h6, h7]

theorem toDigits_lt_10000 (n : Nat) (h0 : 1000 ≤ n) (h : n < 10000) :
    Nat.toDigits 10 n
      = [Nat.digitChar (n / 1000), Nat.digitChar (n / 100 % 10), Nat.digitChar (n / 10 % 10),
         Nat.digitChar (n % 10)] := by
  obtain ⟨k, rfl⟩ : ∃ k, n = k + 3 := ⟨n - 3, by omega⟩
  have h1 : (k + 3) / 10 ≠ 0 := by omega
  have h2 : (k + 3) / 10 / 10 ≠ 0 := by omega
  have h3 : (k + 3) / 10 / 10 / 10 ≠ 0 := by omega
  have h4 : (k + 3) / 10 / 10 / 10 / 10 = 0 := by omega
  have h5 : (k + 3) / 10 / 10 / 10 % 10 = (k + 3) / 1000 := by omega
  have h6 : (k + 3) / 10 / 10 % 10 = (k + 3) / 100 % 10 := by omega
  have h7 : (k + 3) / 100 ≠ 0 := by omega
  have h8 : (k + 3) / 100 / 10 ≠ 0 := by omega
  have h9 : (k + 3) / 1000 ≠ 0 := by omega
  have h10 : (k + 3) / 1000 / 10 = 0 := by omega
  have h11 : (k + 3) / 100 / 10 / 10 = 0 := by omega
  have h12 : (k + 3) / 1000 % 10 = (k + 3) / 1000 := by omega
  have h13 : (k + 3) / 100 / 10 % 10 = (k + 3) / 1000 := by omega
  have h14 : (k + 3) / 100 / 10 = (k + 3) / 1000 := by omega
  simp [Nat.toDigits, toDigitsCore_succ, h1, h2, h3, h4, h5, h6, h7, h8, h9, h10, h11, h12, h13, h14]

theorem pad4_data (n : Nat) (h : n < 10000) :
    (String.leftpad 4 '0' (Nat.repr n)).data
      = [Nat.digitChar (n / 1000), Nat.digitChar (n / 100 % 10), Nat.digitChar (n / 10 % 10),
         Nat.digitChar (n % 10)] := by
  simp only [String.leftpad, Nat.repr, List.asString, List.leftpad]
  by_cases c1 : n < 10
  · have e1 : n / 1000 = 0 := by omega
    have e2 : n / 100 % 10 = 0 := by omega
    have e3 : n / 10 % 10 = 0 := by omega
    have e4 : n % 10 = n := by omega
    rw [toDigits_lt_10 n c1, e1, e2, e3, e4]
    rfl
  · by_cases c2 : n < 100
    · have e1 : n / 1000 = 0 := by omega
      have e2 : n / 100 % 10 = 0 := by omega
      have e3 : n / 10 % 10 = n / 10 := by omega
      rw [toDigits_lt_100 n (by omega) c2, e1, e2, e3]
      rfl
    · by_cases c3 : n < 1000
      · have e1 : n / 1000 = 0 := by omega
        have e2 : n / 100 % 10 = n / 100 := by omega
        rw [toDigits_lt_1000 n (by omega) c3, e1, e2]
        rfl
      · rw [toDigits_lt_10000 n (by omega) h]
        rfl

theorem pad2_data (n : Nat) (h : n < 100) :
    (String.leftpad 2 '0' (Nat.repr n)).data
      = [Nat.digitChar (n / 10), Nat.digitChar (n % 10)] := by
  simp only [String.leftpad, Nat.repr, List.asString, List.leftpad]
  by_cases c1 : n < 10
  · have e1 : n / 10 = 0 := by omega
    have e4 : n % 10 = n := by omega
    rw [toDigits_lt_10 n c1, e1, e4]
    rfl
  · rw [toDigits_lt_100 n (by omega) h]
    rfl

theorem digitChar_toNat (i : Nat) (h : i < 10) : (Nat.digitChar i).toNat = 48 + i := by
  interval_cases i <;> rfl

theorem lex_step (x y : Nat) (rest : Ordering) :
    (if 48 + x < 48 + y then Ordering.lt else if 48 + y < 48 + x then Ordering.gt else rest)
        = Ordering.lt
      ↔ (x < y ∨ (x = y ∧ rest = Ordering.lt)) := by
  by_cases h1 : x < y
  · have : 48 + x < 48 + y := by omega
    simp [h1, this]
  · by_cases h2 : y < x
    · have e1 : ¬ 48 + x < 48 + y := by omega
      have e2 : 48 + y < 48 + x := by omega
      have e3 : x ≠ y := by omega
      simp [h1, e1, e2, e3]
    · have e1 : ¬ 48 + x < 48 + y := by omega
      have e2 : ¬ 48 + y < 48 + x := by omega
      have e3 : x = y := by omega
      simp [h1, e1, e2, e3]

theorem formatYMD_data (d : LocalFields) (h1 : 1 ≤ d.fullYear) (h2 : d.fullYear ≤ 9999) :
    (formatYMD d).data
      = [Nat.digitChar (d.fullYear.toNat / 1000), Nat.digitChar (d.fullYear.toNat / 100 % 10),
         Nat.digitChar (d.fullYear.toNat / 10 % 10), Nat.digitChar (d.fullYear.toNat % 10),
         '-', Nat.digitChar ((d.month.val + 1) / 10), Nat.digitChar ((d.month.val + 1) % 10),
         '-', Nat.digitChar (d.date.val / 10), Nat.digitChar (d.date.val % 10)] := by
  have hy : (if d.fullYear > 0 then d.fullYear else 1 - d.fullYear) = d.fullYear := by
    rw [if_pos (by omega)]
  have hy0 : ¬ d.fullYear < 0 := by omega
  have hm0 : ¬ ((d.month.val : Int) + 1 < 0) := by omega
  have hd0 : ¬ ((d.date.val : Int) < 0) := by omega
  have hyabs : d.fullYear.natAbs = d.fullYear.toNat := by omega
  have hmabs : ((d.month.val : Int) + 1).natAbs = d.month.val + 1 := by omega
  have hdabs : ((d.date.val : Int)).natAbs = d.date.val := by omega
  have hm := d.month.isLt
  have hd := d.date.isLt
  simp only [formatYMD, formatYear, formatMonth, formatDay, addLeadingZeros, hy, hy0, hm0, hd0,
    if_false, String.data_append, hyabs, hmabs, hdabs]
  rw [pad4_data _ (by omega), pad2_data _ (by omega), pad2_data _ (by omega)]
  rfl

theorem localeCompare_formatYMD (a b : LocalFields)
    (ha1 : 1 ≤ a.fullYear) (ha2 : a.fullYear ≤ 9999)
    (hb1 : 1 ≤ b.fullYear) (hb2 : b.fullYear ≤ 9999) :
    localeCompare (formatYMD a) (formatYMD b) = Ordering.lt ↔ a.before b := by
  unfold localeCompare
  rw [formatYMD_data a ha1 ha2, formatYMD_data b hb1 hb2]
  have hma := a.month.isLt
  have hda := a.date.isLt
  have hmb := b.month.isLt
  have hdb := b.date.isLt
  obtain ⟨ya, hya⟩ : ∃ n : Nat, a.fullYear = (n : Int) := ⟨a.fullYear.toNat, by omega⟩
  obtain ⟨yb, hyb⟩ : ∃ n : Nat, b.fullYear = (n : Int) := ⟨b.fullYear.toNat, by omega⟩
  simp only [compareChars, LocalFields.before, hya, hyb, Int.toNat_ofNat]
  rw [digitChar_toNat (ya / 1000) (by omega), digitChar_toNat (yb / 1000) (by omega),
    digitChar_toNat (ya / 100 % 10) (by omega), digitChar_toNat (yb / 100 % 10) (by omega),
    digitChar_toNat (ya / 10 % 10) (by omega), digitChar_toNat (yb / 10 % 10) (by omega),
    digitChar_toNat (ya % 10) (by omega), digitChar_toNat (yb % 10) (by omega),
    digitChar_toNat ((a.month.val + 1) / 10) (by omega),
    digitChar_toNat ((b.month.val + 1) / 10) (by omega),
    digitChar_toNat ((a.month.val + 1) % 10) (by omega),
    digitChar_toNat ((b.month.val + 1) % 10) (by omega),
    digitChar_toNat (a.date.val / 10) (by omega), digitChar_toNat (b.date.val / 10) (by omega),
    digitChar_toNat (a.date.val % 10) (by omega), digitChar_toNat (b.date.val % 10) (by omega)]
  simp only [lt_self_iff_false, if_false]
  have ea : ya = 1000 * (ya / 1000) + 100 * (ya / 100 % 10) + 10 * (ya / 10 % 10) + ya % 10 := by
    omega
  have eb : yb = 1000 * (yb / 1000) + 100 * (yb / 100 % 10) + 10 * (yb / 10 % 10) + yb % 10 := by
    omega
  have ema : a.month.val + 1 = 10 * ((a.month.val + 1) / 10) + (a.month.val + 1) % 10 := by omega
  have emb : b.month.val + 1 = 10 * ((b.month.val + 1) / 10) + (b.month.val + 1) % 10 := by omega
  have eda : a.date.val = 10 * (a.date.val / 10) + a.date.val % 10 := by omega
  have edb : b.date.val = 10 * (b.date.val / 10) + b.date.val % 10 := by omega
  have ba2 : ya / 100 % 10 < 10 := by omega
  have ba1 : ya / 10 % 10 < 10 := by omega
  have ba0 : ya % 10 < 10 := by omega
  have bb2 : yb / 100 % 10 < 10 := by omega
  have bb1 : yb / 10 % 10 < 10 := by omega
  have bb0 : yb % 10 < 10 := by omega
  have bma : (a.month.val + 1) % 10 < 10 := by omega
  have bmb : (b.month.val + 1) % 10 < 10 := by omega
  have bda : a.date.val % 10 < 10 := by omega
  have bdb : b.date.val % 10 < 10 := by omega
  generalize ya / 1000 = a3 at *
  generalize ya / 100 % 10 = a2 at *
  generalize ya / 10 % 10 = a1 at *
  generalize ya % 10 = a0 at *
  generalize yb / 1000 = b3 at *
  generalize yb / 100 % 10 = b2 at *
  generalize yb / 10 % 10 = b1 at *
  generalize yb % 10 = b0 at *
  generalize (a.month.val + 1) / 10 = ma1 at *
  generalize (a.month.val + 1) % 10 = ma0 at *
  generalize (b.month.val + 1) / 10 = mb1 at *
  generalize (b.month.val + 1) % 10 = mb0 at *
  generalize a.date.val / 10 = da1 at *
  generalize a.date.val % 10 = da0 at *
  generalize b.date.val / 10 = db1 at *
  generalize b.date.val % 10 = db0 at *
  generalize a.month.val = ma at *
  generalize b.month.val = mb at *
  generalize a.date.val = da at *
  generalize b.date.val = db at *
  subst ea eb eda edb
  simp only [lex_step, reduceCtorEq, and_false, or_false]
  omega

/-! ## By-date aggregation: order of the series -/

theorem processRoomUsageData_strictly_sorted (newDate : JSValue → JSDate)
    (data : List JSObject) (entries : List UsageEntry)
    (h : processRoomUsageData newDate data = Except.ok entries) :
    entries.Pairwise (fun a b => localeCompare a.sortDate b.sortDate = Ordering.lt) := by
  obtain ⟨o, hinv, heq⟩ := processRoomUsageData_ok newDate data entries h
  have hsorted : entries.Pairwise usageLE := by
    rw [heq]
    haveI : IsTotal UsageEntry usageLE := ⟨usageLE_total⟩
    haveI : IsTrans UsageEntry usageLE := ⟨usageLE_trans⟩
    exact List.sorted_insertionSort usageLE _
  have hnodup : entries.Pairwise (fun a b => a.sortDate ≠ b.sortDate) := by
    have := usage_keys_nodup newDate data o hinv
    rw [← heq] at this
    exact List.pairwise_map.mp this
  exact (hsorted.and hnodup).imp (fun hab => localeCompare_lt_of_ne _ _ hab.1 hab.2)

/-- C1, witness: the worked example of the specification. -/
theorem processRoomUsageData_one_entry_per_date_witness :
    (∀ b ∈ exampleBookings, ValidBDATE exampleNewDate b)
      ∧ ∃ entries, processRoomUsageData exampleNewDate exampleBookings = Except.ok entries
          ∧ (∀ b ∈ exampleBookings, ∃ e ∈ entries, dayKey? exampleNewDate b = some e.sortDate)
          ∧ (∀ e ∈ entries, ∃ b ∈ exampleBookings, dayKey? exampleNewDate b = some e.sortDate)
          ∧ (entries.map UsageEntry.sortDate).Nodup :=
  have hv : ∀ b ∈ exampleBookings, ValidBDATE exampleNewDate b := by
    intro b hb
    simp only [exampleBookings, List.mem_cons, List.mem_singleton, List.not_mem_nil,
      or_false] at hb
    rcases hb with rfl | rfl | rfl
    · exact ⟨{ fullYear := 2024, month := 4, date := 1 }, rfl, by decide⟩
    · exact ⟨{ fullYear := 2024, month := 4, date := 1 }, rfl, by decide⟩
    · exact ⟨{ fullYear := 2024, month := 4, date := 2 }, rfl, by decide⟩
  ⟨hv, processRoomUsageData_one_entry_per_date exampleNewDate exampleBookings hv⟩

/-- C2, witness: the worked example of the specification. -/
theorem processRoomUsageData_count_witness :
    processRoomUsageData exampleNewDate exampleBookings
        = Except.ok [{ date := "01/05/2024", sortDate := "2024-05-01", count := 2 },
                     { date := "02/05/2024", sortDate := "2024-05-02", count := 1 }]
      ∧ ∀ e ∈ [({ date := "01/05/2024", sortDate := "2024-05-01", count := 2 } : UsageEntry),
               { date := "02/05/2024", sortDate := "2024-05-02", count := 1 }],
          e.count = exampleBookings.countP
            (fun b => decide (dayKey? exampleNewDate b = some e.sortDate)) :=
  ⟨rfl, processRoomUsageData_count exampleNewDate exampleBookings _ rfl⟩

/-- C3, as stated, fails: for a booking on 9999-12-31 and one on 10000-01-01 the series
lists the key `10000-01-01` first, although 9999-12-31 is the earlier day. -/
theorem processRoomUsageData_order_not_chronological :
    processRoomUsageData exampleNewDate farFutureBookings
        = Except.ok [{ date := "01/01/10000", sortDate := "10000-01-01", count := 1 },
                     { date := "31/12/9999", sortDate := "9999-12-31", count := 1 }]
      ∧ formatYMD { fullYear := 10000, month := 0, date := 1 } = "10000-01-01"
      ∧ formatYMD { fullYear := 9999, month := 11, date := 31 } = "9999-12-31"
      ∧ LocalFields.before { fullYear := 9999, month := 11, date := 31 }
          { fullYear := 10000, month := 0, date := 1 } :=
  ⟨rfl, rfl, rfl, by decide⟩

/-- C3, amended. The series returned by `processRoomUsageData` is strictly ascending by the
canonical key `sortDate` under `localeCompare`, and for entries whose keys are the
`yyyy-MM-dd` strings of days in the years 1 to 9999 this order is chronological order. -/
theorem processRoomUsageData_sorted_by_key (newDate : JSValue → JSDate)
    (data : List JSObject) (entries : List UsageEntry)
    (h : processRoomUsageData newDate data = Except.ok entries) :
    entries.Pairwise (fun a b =>
      localeCompare a.sortDate b.sortDate = Ordering.lt
        ∧ ∀ da db : LocalFields, 1 ≤ da.fullYear → da.fullYear ≤ 9999 →
            1 ≤ db.fullYear → db.fullYear ≤ 9999 →
            a.sortDate = formatYMD da → b.sortDate = formatYMD db → da.before db) := by
  refine (processRoomUsageData_strictly_sorted newDate data entries h).imp ?_
  intro a b hab
  refine ⟨hab, ?_⟩
  intro da db ha1 ha2 hb1 hb2 hka hkb
  rw [hka, hkb] at hab
  exact (localeCompare_formatYMD da db ha1 ha2 hb1 hb2).mp hab

/-- C3, witness: for bookings on 2024-06-01 and 2024-05-02 the series is ordered by key,
2024-05-02 first, while the display strings `02/05/2024`, `01/06/2024` are in descending
order. -/
theorem processRoomUsageData_sorted_by_key_witness :
    processRoomUsageData exampleNewDate crossMonthBookings
        = Except.ok [{ date := "02/05/2024", sortDate := "2024-05-02", count := 1 },
                     { date := "01/06/2024", sortDate := "2024-06-01", count := 1 }]
      ∧ localeCompare "02/05/2024" "01/06/2024" = Ordering.gt
      ∧ [({ date := "02/05/2024", sortDate := "2024-05-02", count := 1 } : UsageEntry),
          { date := "01/06/2024", sortDate := "2024-06-01", count := 1 }].Pairwise (fun a b =>
          localeCompare a.sortDate b.sortDate = Ordering.lt
            ∧ ∀ da db : LocalFields, 1 ≤ da.fullYear → da.fullYear ≤ 9999 →
                1 ≤ db.fullYear → db.fullYear ≤ 9999 →
                a.sortDate = formatYMD da → b.sortDate = formatYMD db → da.before db) :=
  ⟨rfl, by decide, processRoomUsageData_sorted_by_key exampleNewDate crossMonthBookings _ rfl⟩

/-! ## By-status aggregation -/

theorem foldl_statusStep (data : List JSObject) :
    ∀ c : StatusCounts, data.foldl statusStep c =
      { total := c.total + data.length,
        used := c.used + data.countP (fun b => decide (b.get "STUBOOKING" = JSValue.num 3)),
        cancelled :=
          c.cancelled + data.countP (fun b => decide (b.get "STUBOOKING" = JSValue.num 5)),
        noShow :=
          c.noShow + data.countP (fun b => decide (b.get "STUBOOKING" = JSValue.num 2)) } := by
  induction data with
  | nil => intro c; simp
  | cons b rest ih =>
    intro c
    rw [List.foldl_cons, ih]
    by_cases h3 : b.get "STUBOOKING" = JSValue.num 3
    · simp [statusStep, h3, List.countP_cons]; omega
    · by_cases h5 : b.get "STUBOOKING" = JSValue.num 5
      · simp [statusStep, h5, List.countP_cons]; omega
      · by_cases h2 : b.get "STUBOOKING" = JSValue.num 2
        · simp [statusStep, h2, List.countP_cons]; omega
        · simp [statusStep, h3, h5, h2, List.countP_cons]; omega

/-- C5. `processBookingStatusData` returns exactly four entries with the fixed labels in the
order total, used, cancelled, no-show; their values are the input length and the numbers of
bookings whose STUBOOKING is 3, 5 and 2. -/
theorem processBookingStatusData_eq (data : List JSObject) :
    processBookingStatusData data =
      [ { name := "การจองทั้งหมด", value := data.length },
        { name := "เข้าใช้งานแล้ว",
          value := data.countP (fun b => decide (b.get "STUBOOKING" = JSValue.num 3)) },
        { name := "ยกเลิกการจอง",
          value := data.countP (fun b => decide (b.get "STUBOOKING" = JSValue.num 5)) },
        { name := "ไม่มาใช้งาน",
          value := data.countP (fun b => decide (b.get "STUBOOKING" = JSValue.num 2)) } ] := by
  simp [processBookingStatusData, foldl_statusStep, labelTotal, labelUsed, labelCancelled,
    labelNoShow]

/-- C6. On the empty list `processBookingStatusData` returns the four entries with the fixed
labels, each with value 0. -/
theorem processBookingStatusData_nil :
    processBookingStatusData [] =
      [ { name := "การจองทั้งหมด", value := 0 },
        { name := "เข้าใช้งานแล้ว", value := 0 },
        { name := "ยกเลิกการจอง", value := 0 },
        { name := "ไม่มาใช้งาน", value := 0 } ] := rfl

/-! ## The worked example of the specification -/

/-- C7. For two bookings the host dates 2024-05-01, both used (STUBOOKING 3), and one the
host dates 2024-05-02, cancelled (STUBOOKING 5), given in any order, `processRoomUsageData`
returns the two entries 2024-05-01 with count 2 and 2024-05-02 with count 1, in that
order, and `processBookingStatusData` returns total 3, used 2, cancelled 1, no-show 0. -/
theorem worked_example (newDate : JSValue → JSDate) (b₁ b₂ b₃ : JSObject)
    (data : List JSObject)
    (hdata : data = [b₁, b₂, b₃] ∨ data = [b₁, b₃, b₂] ∨ data = [b₃, b₁, b₂])
    (hd₁ : newDate (b₁.get "BDATE") = some { fullYear := 2024, month := 4, date := 1 })
    (hd₂ : newDate (b₂.get "BDATE") = some { fullYear := 2024, month := 4, date := 1 })
    (hd₃ : newDate (b₃.get "BDATE") = some { fullYear := 2024, month := 4, date := 2 })
    (hs₁ : b₁.get "STUBOOKING" = JSValue.num 3)
    (hs₂ : b₂.get "STUBOOKING" = JSValue.num 3)
    (hs₃ : b₃.get "STUBOOKING" = JSValue.num 5)
    (hk₁ : newDate (JSValue.str "2024-05-01") ≠ none)
    (hk₂ : newDate (JSValue.str "2024-05-02") ≠ none) :
    (∃ entries, processRoomUsageData newDate data = Except.ok entries
        ∧ entries.map (fun e => (e.sortDate, e.count))
            = [("2024-05-01", 2), ("2024-05-02", 1)])
      ∧ processBookingStatusData data =
          [ { name := "การจองทั้งหมด", value := 3 },
            { name := "เข้าใช้งานแล้ว", value := 2 },
            { name := "ยกเลิกการจอง", value := 1 },
            { name := "ไม่มาใช้งาน", value := 0 } ] := by
  obtain ⟨d₁, hd₁'⟩ := Option.ne_none_iff_exists'.mp hk₁
  obtain ⟨d₂, hd₂'⟩ := Option.ne_none_iff_exists'.mp hk₂
  have e₁ : formatYMD { fullYear := 2024, month := 4, date := 1 } = "2024-05-01" := rfl
  have e₂ : formatYMD { fullYear := 2024, month := 4, date := 2 } = "2024-05-02" := rfl
  have hne : ("2024-05-01" : String) ≠ "2024-05-02" := by decide
  have hne' : ("2024-05-02" : String) ≠ "2024-05-01" := by decide
  have hi₁ : isArrayIndex "2024-05-01" = false := by decide
  have hi₂ : isArrayIndex "2024-05-02" = false := by decide
  have hle : usageLE { date := formatDMY d₁, sortDate := "2024-05-01", count := 2 }
      { date := formatDMY d₂, sortDate := "2024-05-02", count := 1 } := by
    have : localeCompare "2024-05-01" "2024-05-02" ≠ Ordering.gt := by decide
    exact this
  have hgt : ¬ usageLE { date := formatDMY d₂, sortDate := "2024-05-02", count := 1 }
      { date := formatDMY d₁, sortDate := "2024-05-01", count := 2 } := by
    have : ¬ localeCompare "2024-05-02" "2024-05-01" ≠ Ordering.gt := by decide
    exact this
  constructor
  · refine ⟨[{ date := formatDMY d₁, sortDate := "2024-05-01", count := 2 },
             { date := formatDMY d₂, sortDate := "2024-05-02", count := 1 }], ?_, rfl⟩
    rcases hdata with rfl | rfl | rfl
    · have hf : forEach (roomUsageStep newDate) [] [b₁, b₂, b₃]
          = Except.ok
              [("2024-05-01", { date := formatDMY d₁, sortDate := "2024-05-01", count := 2 }),
               ("2024-05-02", { date := formatDMY d₂, sortDate := "2024-05-02", count := 1 })] := by
        simp [forEach, roomUsageStep, bookingKey, format, hd₁, hd₂, hd₃, e₁, e₂, hd₁', hd₂',
          Dict.get?, Dict.set, hne]
      simp [processRoomUsageData, hf, Dict.values, hi₁, hi₂, List.insertionSort,
        List.orderedInsert, hle]
    · have hf : forEach (roomUsageStep newDate) [] [b₁, b₃, b₂]
          = Except.ok
              [("2024-05-01", { date := formatDMY d₁, sortDate := "2024-05-01", count := 2 }),
               ("2024-05-02", { date := formatDMY d₂, sortDate := "2024-05-02", count := 1 })] := by
        simp [forEach, roomUsageStep, bookingKey, format, hd₁, hd₂, hd₃, e₁, e₂, hd₁', hd₂',
          Dict.get?, Dict.set, hne, hne']
      simp [processRoomUsageData, hf, Dict.values, hi₁, hi₂, List.insertionSort,
        List.orderedInsert, hle]
    · have hf : forEach (roomUsageStep newDate) [] [b₃, b₁, b₂]
          = Except.ok
              [("2024-05-02", { date := formatDMY d₂, sortDate := "2024-05-02", count := 1 }),
               ("2024-05-01", { date := formatDMY d₁, sortDate := "2024-05-01", count := 2 })] := by
        simp [forEach, roomUsageStep, bookingKey, format, hd₁, hd₂, hd₃, e₁, e₂, hd₁', hd₂',
          Dict.get?, Dict.set, hne, hne']
      simp [processRoomUsageData, hf, Dict.values, hi₁, hi₂, List.insertionSort,
        List.orderedInsert, hgt]
  · simp only [processBookingStatusData, foldl_statusStep, labelTotal, labelUsed,
      labelCancelled, labelNoShow]
    rcases hdata with rfl | rfl | rfl <;> simp [List.countP_cons, hs₁, hs₂, hs₃]

/-- C7, witness: the worked example on concrete rows. -/
theorem worked_example_witness :
    (∃ entries, processRoomUsageData exampleNewDate exampleBookings = Except.ok entries
        ∧ entries.map (fun e => (e.sortDate, e.count))
            = [("2024-05-01", 2), ("2024-05-02", 1)])
      ∧ processBookingStatusData exampleBookings =
          [ { name := "การจองทั้งหมด", value := 3 },
            { name := "เข้าใช้งานแล้ว", value := 2 },
            { name := "ยกเลิกการจอง", value := 1 },
            { name := "ไม่มาใช้งาน", value := 0 } ] :=
  worked_example exampleNewDate (exampleBooking "2024-05-01" 3) (exampleBooking "2024-05-01" 3)
    (exampleBooking "2024-05-02" 5) exampleBookings (Or.inl rfl) rfl rfl rfl rfl rfl rfl
    (by decide) (by decide)

/-! ## By-department aggregation -/

/-- C4, failing input: on the single member row with DNAME `constructor` and SSN 1 the
lookup `deptBookings[member.DNAME]` finds the member inherited from `Object.prototype`, no
bucket is created, and `processDepartmentData` throws instead of returning the entry of
that department with one employee. -/
theorem processDepartmentData_inherited_key :
    processDepartmentData [[("DNAME", JSValue.str "constructor"), ("SSN", JSValue.num 1)]]
      = Except.error
          (JSError.typeError "Cannot read properties of undefined (reading 'add')") := rfl

/-! ## Rooms view: saving a room -/

theorem get_mem_requiredFields (roomData : JSObject) (k : String) (hk : k ∈ requiredFields)
    (h : (roomData.get k).toBoolean = false) :
    (!(roomData.get "CFRNAME").toBoolean
      || !(roomData.get "BDNUM").toBoolean
      || !(roomData.get "FLNUM").toBoolean
      || !(roomData.get "RTNUM").toBoolean
      || !(roomData.get "STUROOM").toBoolean
      || !(roomData.get "CAPACITY").toBoolean) = true := by
  simp only [requiredFields, List.mem_cons, List.mem_singleton, List.not_mem_nil,
    or_false] at hk
  rcases hk with rfl | rfl | rfl | rfl | rfl | rfl <;> simp [h]

/-- C8. When at least one of the required fields CFRNAME, BDNUM, FLNUM, RTNUM, STUROOM,
CAPACITY of the form is empty, `handleSaveRoom` issues no mutation: its only effect is the
validation error notification. -/
theorem handleSaveRoom_empty_field (editingRoom : Option JSObject) (roomData : JSObject)
    (h : ∃ k ∈ requiredFields, roomData.get k = JSValue.str "") :
    handleSaveRoom editingRoom roomData = [Effect.toastError "กรุณากรอกข้อมูลให้ครบทุกช่อง"] := by
  obtain ⟨k, hk, hempty⟩ := h
  have hfalsy : (roomData.get k).toBoolean = false := by
    rw [hempty]; rfl
  unfold handleSaveRoom
  rw [if_pos (get_mem_requiredFields roomData k hk hfalsy)]
  rfl

/-- C8, witness: the create-room form with the capacity left empty. -/
theorem handleSaveRoom_empty_field_witness :
    handleSaveRoom none incompleteForm = [Effect.toastError "กรุณากรอกข้อมูลให้ครบทุกช่อง"] :=
  handleSaveRoom_empty_field none incompleteForm ⟨"CAPACITY", by decide, rfl⟩

theorem handleSaveRoom_cases (editingRoom : Option JSObject) (roomData : JSObject) :
    (allRequiredPresent roomData = false
        ∧ handleSaveRoom editingRoom roomData = [Effect.toastError validationMessage])
      ∨ (allRequiredPresent roomData = true
        ∧ (handleSaveRoom editingRoom roomData = [Effect.updateRoomMutate roomData]
          ∨ handleSaveRoom editingRoom roomData = [Effect.addRoomMutate roomData])) := by
  unfold handleSaveRoom allRequiredPresent requiredFields
  cases h1 : (roomData.get "CFRNAME").toBoolean <;>
  cases h2 : (roomData.get "BDNUM").toBoolean <;>
  cases h3 : (roomData.get "FLNUM").toBoolean <;>
  cases h4 : (roomData.get "RTNUM").toBoolean <;>
  cases h5 : (roomData.get "STUROOM").toBoolean <;>
  cases h6 : (roomData.get "CAPACITY").toBoolean <;>
  cases editingRoom <;>
  simp [h1, h2, h3, h4, h5, h6]

/-- C9, as stated, fails: the change-status dialog, opened on a room row whose CAPACITY is
`null`, issues the update mutation with a record in which CAPACITY is still missing. -/
theorem changeStatus_skips_presence_check :
    changeStatusOnValueChange (some roomWithoutCapacity) "2"
        = [Effect.updateRoomMutate (Dict.set roomWithoutCapacity "STUROOM" (JSValue.str "2"))]
      ∧ allRequiredPresent (Dict.set roomWithoutCapacity "STUROOM" (JSValue.str "2")) = false
      ∧ (JSObject.get (Dict.set roomWithoutCapacity "STUROOM" (JSValue.str "2")) "CAPACITY")
          = JSValue.null := by
  decide

/-- C9, amended. Every add or update mutation issued by the save form (`handleSaveRoom`)
has passed the required-field presence check: the record sent is the form record and all
six required fields of it are present.  The change-status dialog issues its update mutation
with no presence check: the record sent has the chosen value as STUROOM and every other
field as in the dialog's room, present or not. -/
theorem mutations_of_rooms_view (editingRoom : Option JSObject) (roomData : JSObject)
    (data : Option JSObject) (value : String) :
    (∀ room, (Effect.addRoomMutate room ∈ handleSaveRoom editingRoom roomData
          ∨ Effect.updateRoomMutate room ∈ handleSaveRoom editingRoom roomData) →
        room = roomData ∧ allRequiredPresent room = true)
      ∧ ∃ updatedRoom,
          changeStatusOnValueChange data value = [Effect.updateRoomMutate updatedRoom]
            ∧ updatedRoom.get "STUROOM" = JSValue.str value
            ∧ ∀ k, k ≠ "STUROOM" → updatedRoom.get k = (spread data).get k := by
  constructor
  · intro room hroom
    rcases handleSaveRoom_cases editingRoom roomData with ⟨_, h⟩ | ⟨hp, h | h⟩ <;>
      rw [h] at hroom <;> simp at hroom
    · rw [hroom]; exact ⟨rfl, hp⟩
    · rw [hroom]; exact ⟨rfl, hp⟩
  · refine ⟨Dict.set (spread data) "STUROOM" (JSValue.str value), rfl, ?_, ?_⟩
    · simp [JSObject.get, Dict.get?_set_self]
    · intro k hk
      simp [JSObject.get, Dict.get?_set_ne _ _ _ _ hk]

/-- C9, witness: the completed create-room form is sent by the add mutation, and all its
required fields are present. -/
theorem mutations_of_rooms_view_witness :
    Effect.addRoomMutate completeForm ∈ handleSaveRoom none completeForm
      ∧ completeForm = completeForm ∧ allRequiredPresent completeForm = true :=
  have h : Effect.addRoomMutate completeForm ∈ handleSaveRoom none completeForm := by decide
  ⟨h, (mutations_of_rooms_view none completeForm none "1").1 completeForm (Or.inl h)⟩

/-! ## Rooms view: search filter -/

/-- C10, as stated, fails in both directions on the room row with CFRNUMBER 5 and BDNUM 7:
the term `005` occurs in the displayed formatted ID `005`, yet the row is filtered out; the
term `7` occurs in no displayed cell, yet the row is kept (it matches the hidden BDNUM). -/
theorem filteredRooms_not_displayed_fields :
    displayedCells exampleRoom
        = some ["005", "Orchid", "Main", "Second", "Seminar", "พร้อมใช้งาน", "30"]
      ∧ includes (asciiLower "005") (asciiLower "005") = true
      ∧ filteredRooms asciiLower [exampleRoom] "005" = []
      ∧ (∀ cell ∈ ["005", "Orchid", "Main", "Second", "Seminar", "พร้อมใช้งาน", "30"],
          includes (asciiLower cell) (asciiLower "7") = false)
      ∧ filteredRooms asciiLower [exampleRoom] "7" = [exampleRoom] := by
  decide

/-- C10, amended. A room is in `filteredRooms` if and only if it is in the sorted room list
and the lower-cased search term occurs as a substring of the lower-cased string form of at
least one property value of the room record that is neither `null` nor `undefined`: the raw
values of all properties of the record, not the cells displayed in the table. -/
theorem mem_filteredRooms_iff (toLowerCase : String → String) (sortedRooms : List JSObject)
    (searchTerm : String) (room : JSObject) :
    room ∈ filteredRooms toLowerCase sortedRooms searchTerm
      ↔ room ∈ sortedRooms
          ∧ ∃ value ∈ Dict.values room, ∃ s, value.toStringOpt = some s
              ∧ (toLowerCase searchTerm).data <:+: (toLowerCase s).data := by
  unfold filteredRooms
  rw [List.mem_filter, List.any_eq_true]
  apply and_congr_right
  intro _
  constructor
  · rintro ⟨value, hv, hm⟩
    refine ⟨value, hv, ?_⟩
    unfold valueMatches at hm
    cases hs : value.toStringOpt with
    | none => simp [hs] at hm
    | some s =>
      simp only [hs, includes, decide_eq_true_eq] at hm
      exact ⟨s, rfl, hm⟩
  · rintro ⟨value, hv, s, hs, hm⟩
    refine ⟨value, hv, ?_⟩
    simp [valueMatches, hs, includes, hm]

/-! ## By-department aggregation: rows whose department name is not an inherited name -/

theorem setAdd_nodup (s : List JSValue) (v : JSValue) (h : s.Nodup) : (setAdd s v).Nodup := by
  unfold setAdd
  by_cases hv : v ∈ s
  · simpa [hv] using h
  · simp only [hv, if_false]
    exact List.Nodup.append h (List.nodup_singleton v) (by simpa using hv)

theorem mem_setAdd (s : List JSValue) (v w : JSValue) : w ∈ setAdd s v ↔ w ∈ s ∨ w = v := by
  unfold setAdd
  by_cases hv : v ∈ s
  · simp only [hv, if_true]
    constructor
    · exact Or.inl
    · rintro (h | rfl)
      · exact h
      · exact hv
  · simp [hv]

theorem deptSSNs_append_singleton (seen : List JSObject) (m : JSObject) (k : String) :
    deptSSNs (seen ++ [m]) k
      = deptSSNs seen k ++ (if deptKey m = k then [m.get "SSN"] else []) := by
  unfold deptSSNs
  rw [List.filter_append, List.map_append]
  by_cases h : deptKey m = k <;> simp [List.filter_cons, h]

theorem departmentStep_ok (o : Dict DeptBucket) (m : JSObject)
    (hkey : deptKey m ∉ objectPrototypeKeys) :
    (∃ b, o.get? (deptKey m) = some b
        ∧ departmentStep o m = Except.ok (o.set (deptKey m)
            { b with employees := setAdd b.employees (m.get "SSN") }))
      ∨ (o.get? (deptKey m) = none
        ∧ departmentStep o m = Except.ok
            ((o.set (deptKey m) { department := m.get "DNAME", bookings := 0, employees := [] }).set
              (deptKey m)
              { department := m.get "DNAME", bookings := 0,
                employees := setAdd [] (m.get "SSN") })) := by
  cases hg : o.get? (deptKey m) with
  | some b =>
    left
    refine ⟨b, rfl, ?_⟩
    have hg' : Dict.get? o (m.get "DNAME").toPropertyKey = some b := hg
    simp [departmentStep, Dict.lookup, hg', deptKey]
  | none =>
    right
    refine ⟨rfl, ?_⟩
    have hg' : Dict.get? o (m.get "DNAME").toPropertyKey = none := hg
    have hkey' : (m.get "DNAME").toPropertyKey ∉ objectPrototypeKeys := hkey
    simp [departmentStep, Dict.lookup, hg', hkey', Dict.get?_set_self, deptKey]

theorem departmentStep_inv (o o' : Dict DeptBucket) (seen : List JSObject) (m : JSObject)
    (hkey : deptKey m ∉ objectPrototypeKeys)
    (h : departmentStep o m = Except.ok o') (hinv : DeptInv o seen) :
    DeptInv o' (seen ++ [m]) := by
  obtain ⟨hnd, hsome, hnone⟩ := hinv
  have hother : ∀ k', k' ≠ deptKey m → deptSSNs (seen ++ [m]) k' = deptSSNs seen k' := by
    intro k' hk'
    rw [deptSSNs_append_singleton]
    simp [Ne.symm hk']
  have hself : deptSSNs (seen ++ [m]) (deptKey m) = deptSSNs seen (deptKey m) ++ [m.get "SSN"] := by
    rw [deptSSNs_append_singleton]
    simp
  rcases departmentStep_ok o m hkey with ⟨b, hb, hstep⟩ | ⟨hno, hstep⟩
  · rw [hstep] at h
    injection h with h
    subst h
    obtain ⟨hd, hbn, hbm, _⟩ := hsome _ b hb
    refine ⟨Dict.nodup_keys_set _ _ _ hnd, ?_, ?_⟩
    · intro k' b' hg
      by_cases hkk : k' = deptKey m
      · subst hkk
        rw [Dict.get?_set_self] at hg
        injection hg with hg
        subst hg
        refine ⟨hd, setAdd_nodup _ _ hbn, ?_, m, by simp, rfl⟩
        intro v
        rw [mem_setAdd, hself, hbm v]
        simp
      · rw [Dict.get?_set_ne _ _ _ _ hkk] at hg
        obtain ⟨h1, h2, h3, m', hm', hk'⟩ := hsome k' b' hg
        refine ⟨h1, h2, ?_, m', by simp [hm'], hk'⟩
        intro v
        rw [hother k' hkk]
        exact h3 v
    · intro k' hg
      by_cases hkk : k' = deptKey m
      · subst hkk
        rw [Dict.get?_set_self] at hg
        exact absurd hg (by simp)
      · rw [Dict.get?_set_ne _ _ _ _ hkk] at hg
        intro m' hm'
        rcases List.mem_append.mp hm' with hm' | hm'
        · exact hnone k' hg m' hm'
        · simp only [List.mem_singleton] at hm'
          subst hm'
          exact Ne.symm hkk
  · rw [hstep] at h
    injection h with h
    subst h
    have hempty : deptSSNs seen (deptKey m) = [] := by
      unfold deptSSNs
      rw [List.map_eq_nil_iff, List.filter_eq_nil_iff]
      intro m' hm'
      simpa using hnone _ hno m' hm'
    refine ⟨Dict.nodup_keys_set _ _ _ (Dict.nodup_keys_set _ _ _ hnd), ?_, ?_⟩
    · intro k' b' hg
      by_cases hkk : k' = deptKey m
      · subst hkk
        rw [Dict.get?_set_self] at hg
        injection hg with hg
        subst hg
        refine ⟨rfl, setAdd_nodup _ _ List.nodup_nil, ?_, m, by simp, rfl⟩
        intro v
        rw [mem_setAdd, hself, hempty]
        simp
      · rw [Dict.get?_set_ne _ _ _ _ hkk, Dict.get?_set_ne _ _ _ _ hkk] at hg
        obtain ⟨h1, h2, h3, m', hm', hk'⟩ := hsome k' b' hg
        refine ⟨h1, h2, ?_, m', by simp [hm'], hk'⟩
        intro v
        rw [hother k' hkk]
        exact h3 v
    · intro k' hg
      by_cases hkk : k' = deptKey m
      · subst hkk
        rw [Dict.get?_set_self] at hg
        exact absurd hg (by simp)
      · rw [Dict.get?_set_ne _ _ _ _ hkk, Dict.get?_set_ne _ _ _ _ hkk] at hg
        intro m' hm'
        rcases List.mem_append.mp hm' with hm' | hm'
        · exact hnone k' hg m' hm'
        · simp only [List.mem_singleton] at hm'
          subst hm'
          exact Ne.symm hkk

theorem forEach_department (data : List JSObject) :
    ∀ (o : Dict DeptBucket) (seen : List JSObject),
      (∀ m ∈ data, deptKey m ∉ objectPrototypeKeys) → DeptInv o seen →
      ∃ o', forEach departmentStep o data = Except.ok o' ∧ DeptInv o' (seen ++ data) := by
  induction data with
  | nil =>
    intro o seen _ hinv
    exact ⟨o, rfl, by simpa using hinv⟩
  | cons m rest ih =>
    intro o seen hkeys hinv
    have hk := hkeys m (List.mem_cons_self _ _)
    have hstep : ∃ o₁, departmentStep o m = Except.ok o₁ := by
      rcases departmentStep_ok o m hk with ⟨b, _, hs⟩ | ⟨_, hs⟩ <;> exact ⟨_, hs⟩
    obtain ⟨o₁, h₁⟩ := hstep
    obtain ⟨o', h', hinv'⟩ := ih o₁ (seen ++ [m])
      (fun x hx => hkeys x (List.mem_cons_of_mem _ hx))
      (departmentStep_inv o o₁ seen m hk h₁ hinv)
    refine ⟨o', by simp [forEach, h₁, h'], ?_⟩
    simpa using hinv'

/-- The by-department aggregation on rows none of whose department names is a name
inherited from `Object.prototype`: the call returns, with exactly one entry per distinct
department key of the input, and the `employees` value of an entry is the number of distinct
employee identifiers among the rows of that department. -/
theorem processDepartmentData_distinct_employees (data : List JSObject)
    (hkeys : ∀ m ∈ data, deptKey m ∉ objectPrototypeKeys) :
    ∃ entries, processDepartmentData data = Except.ok entries
      ∧ (∀ m ∈ data, ∃ e ∈ entries, e.department.toPropertyKey = deptKey m)
      ∧ (entries.map (fun e => e.department.toPropertyKey)).Nodup
      ∧ ∀ e ∈ entries,
          (∃ m ∈ data, deptKey m = e.department.toPropertyKey)
            ∧ e.employees = (deptSSNs data e.department.toPropertyKey).dedup.length := by
  have hinv0 : DeptInv [] [] := by
    refine ⟨by simp [Dict.keys], ?_, ?_⟩
    · intro k b h
      simp [Dict.get?] at h
    · intro k _ m hm
      simp at hm
  obtain ⟨o, ho, hinv⟩ := forEach_department data [] [] hkeys hinv0
  simp only [List.nil_append] at hinv
  obtain ⟨hnd, hsome, hnone⟩ := hinv
  have hres : processDepartmentData data
      = Except.ok ((Dict.values o).map
          (fun dept => { department := dept.department, employees := dept.employees.length })) := by
    simp only [processDepartmentData, ho]
  refine ⟨_, hres, ?_, ?_, ?_⟩
  · intro m hm
    cases hg : o.get? (deptKey m) with
    | none => exact absurd rfl (hnone _ hg m hm)
    | some b =>
      refine ⟨{ department := b.department, employees := b.employees.length }, ?_,
        (hsome _ b hg).1⟩
      rw [List.mem_map]
      exact ⟨b, (Dict.mem_values o b).mpr ⟨_, Dict.mem_of_get? o _ _ hg⟩, rfl⟩
  · rw [List.map_map]
    have hp : ((Dict.values o).map
        ((fun e : DeptEntry => e.department.toPropertyKey)
          ∘ (fun dept : DeptBucket =>
              { department := dept.department, employees := dept.employees.length }))).Perm
        ((o.map Prod.snd).map (fun dept : DeptBucket => dept.department.toPropertyKey)) :=
      (Dict.values_perm o).map _
    rw [hp.nodup_iff]
    have hk : (o.map Prod.snd).map (fun dept : DeptBucket => dept.department.toPropertyKey)
        = o.keys := by
      rw [List.map_map]
      unfold Dict.keys
      apply List.map_congr_left
      rintro ⟨k, b⟩ hm
      exact (hsome k b (Dict.get?_of_mem o k b hnd hm)).1
    rw [hk]
    exact hnd
  · intro e he
    rw [List.mem_map] at he
    obtain ⟨b, hb, rfl⟩ := he
    obtain ⟨k, hkb⟩ := (Dict.mem_values o b).mp hb
    obtain ⟨h1, h2, h3, m, hm, hmk⟩ := hsome k b (Dict.get?_of_mem o k b hnd hkb)
    simp only
    rw [h1]
    refine ⟨⟨m, hm, hmk⟩, ?_⟩
    apply List.Perm.length_eq
    rw [List.perm_ext_iff_of_nodup h2 (List.nodup_dedup _)]
    intro v
    rw [h3 v, List.mem_dedup]

/-! ## Rooms view: pagination -/

theorem slice_subset {α : Type} (l : List α) (start stop : Int) (x : α)
    (h : x ∈ slice l start stop) : x ∈ l := by
  unfold slice at h
  exact List.mem_of_mem_drop (List.mem_of_mem_take h)

theorem paginatedRooms_nat (l : List JSObject) (i : Nat) :
    paginatedRooms l ((i : Int) + 1) = (l.drop (10 * i)).take 10 := by
  unfold paginatedRooms slice startIndex ITEMS_PER_PAGE
  have h1 : ¬ (((i : Int) + 1 - 1) * ((10 : Nat) : Int) < 0) := by
    push_cast; omega
  have h2 : ¬ (((i : Int) + 1 - 1) * ((10 : Nat) : Int) + ((10 : Nat) : Int) < 0) := by
    push_cast; omega
  simp only [h1, h2, if_false]
  by_cases hle : 10 * i ≤ l.length
  · have e1 : (min (((i : Int) + 1 - 1) * ((10 : Nat) : Int)) (l.length : Int)).toNat = 10 * i := by
      push_cast; omega
    have e2 : (min (((i : Int) + 1 - 1) * ((10 : Nat) : Int) + ((10 : Nat) : Int)) (l.length : Int)
        - min (((i : Int) + 1 - 1) * ((10 : Nat) : Int)) (l.length : Int)).toNat
        = min 10 (l.length - 10 * i) := by
      push_cast; omega
    rw [e1, e2]
    apply List.ext_getElem
    · simp only [List.length_take, List.length_drop]
      omega
    · intro n hn1 hn2
      simp [List.getElem_take]
  · have e1 : (min (((i : Int) + 1 - 1) * ((10 : Nat) : Int)) (l.length : Int)).toNat
        = l.length := by
      push_cast; omega
    rw [e1, List.drop_length, List.drop_eq_nil_of_le (by omega)]
    simp

theorem join_pages (n : Nat) : ∀ l : List JSObject, l.length ≤ 10 * n →
    ((List.range n).map (fun i => (l.drop (10 * i)).take 10)).flatten = l := by
  induction n with
  | zero =>
    intro l hl
    have : l = [] := List.eq_nil_of_length_eq_zero (by omega)
    simp [this]
  | succ n ih =>
    intro l hl
    rw [List.range_succ_eq_map, List.map_cons, List.flatten_cons, List.map_map]
    have hrest : (List.range n).map ((fun i => (l.drop (10 * i)).take 10) ∘ Nat.succ)
        = (List.range n).map (fun i => ((l.drop 10).drop (10 * i)).take 10) := by
      apply List.map_congr_left
      intro i _
      simp only [Function.comp, List.drop_drop]
      congr 2
      omega
    rw [hrest, ih (l.drop 10) (by simp only [List.length_drop]; omega)]
    simp

/-- C20. For every filtered room list, the pages 1 to `totalPages` computed by the pagination
slice, concatenated in page order, are the filtered list itself; each of these pages holds
at most `ITEMS_PER_PAGE` = 10 rooms and at least one. -/
theorem pages_partition (filtered : List JSObject) :
    ((List.range (totalPages filtered)).map
        (fun i : Nat => paginatedRooms filtered ((i : Int) + 1))).flatten = filtered
      ∧ ∀ page : Nat, 1 ≤ page → page ≤ totalPages filtered →
          (paginatedRooms filtered (page : Int)).length ≤ 10
            ∧ 1 ≤ (paginatedRooms filtered (page : Int)).length := by
  constructor
  · have h : (fun i : Nat => paginatedRooms filtered ((i : Int) + 1))
        = (fun i : Nat => (filtered.drop (10 * i)).take 10) := by
      funext i
      exact paginatedRooms_nat filtered i
    rw [h]
    apply join_pages
    unfold totalPages ITEMS_PER_PAGE
    omega
  · intro page h1 h2
    obtain ⟨i, rfl⟩ : ∃ i, page = i + 1 := ⟨page - 1, by omega⟩
    have h : paginatedRooms filtered ((i + 1 : Nat) : Int) = (filtered.drop (10 * i)).take 10 := by
      rw [← paginatedRooms_nat filtered i]
      rfl
    rw [h]
    unfold totalPages ITEMS_PER_PAGE at h2
    simp only [List.length_take, List.length_drop]
    omega

/-- C20, witness: a list of 21 rooms has three pages; the third one holds the last room. -/
theorem pages_partition_witness :
    totalPages (List.replicate 21 exampleRoom) = 3
      ∧ (paginatedRooms (List.replicate 21 exampleRoom) ((3 : Nat) : Int)).length ≤ 10
      ∧ 1 ≤ (paginatedRooms (List.replicate 21 exampleRoom) ((3 : Nat) : Int)).length :=
  ⟨by decide,
    (pages_partition (List.replicate 21 exampleRoom)).2 3 (by decide) (by decide)⟩

/-! ## Report view: failing fetches -/

/-- C11, as stated, fails: after the bookings of the worked example have been loaded, a
rejected request of each of the four fetches leaves the loaded series in `roomUsageData`;
the series is not emptied. -/
theorem failed_fetch_keeps_stale_series :
    loadedReportState.roomUsageData
        = [{ date := "01/05/2024", sortDate := "2024-05-01", count := 2 },
           { date := "02/05/2024", sortDate := "2024-05-02", count := 1 }]
      ∧ (fetchAllDaysData exampleNewDate (Except.error "Network Error")
            loadedReportState).1.roomUsageData = loadedReportState.roomUsageData
      ∧ (fetchMonthlyData exampleNewDate (Except.error "Network Error")
            loadedReportState).1.roomUsageData = loadedReportState.roomUsageData
      ∧ (fetchFilteredData exampleNewDate (Except.error "Network Error")
            loadedReportState).1.roomUsageData = loadedReportState.roomUsageData
      ∧ (fetchData exampleNewDate (Except.error "Network Error") (Except.ok [])
            loadedReportState).1.roomUsageData = loadedReportState.roomUsageData :=
  ⟨rfl, rfl, rfl, rfl, rfl⟩

/-- C11, amended. When the request of a report fetch (`fetchData`, `fetchMonthlyData`,
`fetchFilteredData`, `fetchAllDaysData`) is rejected, the view state is left exactly as it
was: every series keeps what an earlier fetch stored, and is empty only if nothing had been
stored.  When the members request of `fetchData` is rejected, `departmentData` is left as
it was. -/
theorem failed_fetch_leaves_state (newDate : JSValue → JSDate) (message : String)
    (other : Response) (s : ReportState) :
    (fetchData newDate (Except.error message) other s).1 = s
      ∧ (fetchMonthlyData newDate (Except.error message) s).1 = s
      ∧ (fetchFilteredData newDate (Except.error message) s).1 = s
      ∧ (fetchAllDaysData newDate (Except.error message) s).1 = s
      ∧ (fetchData newDate other (Except.error message) s).1.departmentData
          = s.departmentData := by
  refine ⟨rfl, rfl, ?_, rfl, ?_⟩
  · unfold fetchFilteredData
    cases format s.selectedDate DatePattern.ymd <;> rfl
  · cases other with
    | error m => rfl
    | ok bookings =>
      cases h : processRoomUsageData newDate bookings <;> simp [fetchData, h]

/-! ## Both views: rejected requests -/

/-- C12, as stated, fails: a rejected lock-stats request of the report view is logged to the
console and produces no notification, and a rejected request of the query function
`fetchRooms` of the rooms view is not caught: the rejection is the result of the function. -/
theorem rejected_request_without_notification :
    (fetchLockStats (Except.error "Network Error") (initialReportState exampleNow)).2
        = [Effect.consoleError "Error fetching lock stats:" (Caught.rejection "Network Error")]
      ∧ ((fetchLockStats (Except.error "Network Error")
            (initialReportState exampleNow)).2.any Effect.isNotification) = false
      ∧ RoomsSection.fetchRooms (Except.error "Network Error")
          = Except.error "Network Error" :=
  ⟨rfl, rfl, rfl⟩

/-- C12, amended. In the report view every rejected request is caught inside its fetch
function and logged with `console.error`; no notification is produced.  In the rooms view a
rejected floors request is caught, logged and notified with `toast.error`, and a rejected
add, update or delete mutation is notified with `toast.error` by its `onError` callback; the
query functions `fetchRooms`, `fetchBuildings`, `fetchRoomtypes` and `fetchStatusrooms` do
not catch: the rejection is their result. -/
theorem rejected_requests (newDate : JSValue → JSDate) (message : String) (other : Response)
    (s : ReportState) (formData : JSObject) (floors : List JSObject) :
    ((fetchLockStats (Except.error message) s).2
          = [Effect.consoleError "Error fetching lock stats:" (Caught.rejection message)]
      ∧ (fetchMonthlyData newDate (Except.error message) s).2
          = [Effect.consoleError "Error fetching monthly data:" (Caught.rejection message)]
      ∧ (fetchData newDate (Except.error message) other s).2
          = [Effect.consoleError "Error fetching report data:" (Caught.rejection message)]
      ∧ (fetchDepartments (Except.error message) s).2
          = [Effect.consoleError "Error fetching departments:" (Caught.rejection message)]
      ∧ (ReportSection.fetchRooms (Except.error message) s).2
          = [Effect.consoleError "Error fetching rooms:" (Caught.rejection message)]
      ∧ (fetchAllDaysData newDate (Except.error message) s).2
          = [Effect.consoleError "Error fetching all days data:" (Caught.rejection message)]
      ∧ (∃ error, (fetchFilteredData newDate (Except.error message) s).2
            = [Effect.consoleError "Error fetching filtered data:" error]))
      ∧ ((formData.get "BDNUM").toBoolean = true →
          fetchFloors formData (Except.error message) floors
            = (floors, [Effect.consoleError "Error fetching floors:" (Caught.rejection message),
                        Effect.toastError "ไม่สามารถดึงข้อมูลชั้นได้"]))
      ∧ (addRoomOnError message = [Effect.toastError ("ไม่สามารถเพิ่มห้องประชุมได้: " ++ message)]
        ∧ updateRoomOnError message
            = [Effect.toastError ("ไม่สามารถอัปเดตข้อมูลห้องประชุมได้: " ++ message)]
        ∧ deleteRoomOnError message
            = [Effect.toastError ("ไม่สามารถลบห้องประชุมได้: " ++ message)])
      ∧ (RoomsSection.fetchRooms (Except.error message) = Except.error message
        ∧ fetchBuildings (Except.error message) = Except.error message
        ∧ fetchRoomtypes (Except.error message) = Except.error message
        ∧ fetchStatusrooms (Except.error message) = Except.error message) := by
  refine ⟨⟨rfl, rfl, rfl, rfl, rfl, rfl, ?_⟩, ?_, ⟨rfl, rfl, rfl⟩, ⟨rfl, rfl, rfl, rfl⟩⟩
  · unfold fetchFilteredData
    cases format s.selectedDate DatePattern.ymd with
    | error e => exact ⟨Caught.exception e, rfl⟩
    | ok formattedDate => exact ⟨Caught.rejection message, rfl⟩
  · intro hb
    simp [fetchFloors, hb]

/-- C12, witness: the rejected floors request of the form in which building 7 is selected. -/
theorem rejected_requests_witness :
    (completeForm.get "BDNUM").toBoolean = true
      ∧ fetchFloors completeForm (Except.error "Network Error") []
          = ([], [Effect.consoleError "Error fetching floors:"
                    (Caught.rejection "Network Error"),
                  Effect.toastError "ไม่สามารถดึงข้อมูลชั้นได้"]) :=
  ⟨by decide,
    (rejected_requests exampleNewDate "Network Error" (Except.ok [])
      (initialReportState exampleNow) completeForm []).2.1 (by decide)⟩

/-! ## Rooms view: the effects on the selected building -/

/-- C13, as stated, fails: when the form changes to a room row without a building (BDNUM
`null`) that has a floor, the floor list is emptied but the floor selection is not reset. -/
theorem floor_kept_without_building :
    (roomWithoutBuilding.get "BDNUM").toBoolean = false
      ∧ resetFloorEffect roomWithoutBuilding = roomWithoutBuilding
      ∧ (resetFloorEffect roomWithoutBuilding).get "FLNUM" = JSValue.num 2
      ∧ fetchFloors roomWithoutBuilding (Except.ok [exampleRoom]) [exampleRoom] = ([], []) := by
  decide

/-- C13, amended. When the building selection changes to a building (a truthy
`formData.BDNUM`), the floor list is requested for that building with
`GET /floors?buildingId=BDNUM` and replaced by the response, and the floor selection
`formData.FLNUM` is reset to the empty string with every other form field left unchanged.
When no building is selected (a falsy BDNUM), no request is issued, the floor list is
emptied and the form is left unchanged. -/
theorem building_effects (formData : JSObject) (response : Response)
    (floors : List JSObject) :
    ((formData.get "BDNUM").toBoolean = true →
        fetchFloorsRequest formData
            = some { method := "GET",
                     url := "http://localhost:8080/floors?buildingId="
                              ++ interpolate (formData.get "BDNUM"),
                     body := none }
          ∧ (∀ data, response = Except.ok data →
              fetchFloors formData response floors = (data, []))
          ∧ (resetFloorEffect formData).get "FLNUM" = JSValue.str ""
          ∧ ∀ k, k ≠ "FLNUM" → (resetFloorEffect formData).get k = formData.get k)
      ∧ ((formData.get "BDNUM").toBoolean = false →
          fetchFloorsRequest formData = none
            ∧ fetchFloors formData response floors = ([], [])
            ∧ resetFloorEffect formData = formData) := by
  constructor
  · intro hb
    refine ⟨?_, ?_, ?_, ?_⟩
    · simp [fetchFloorsRequest, hb, RoomsSection.API_URL, String.append_assoc]
    · intro data hd
      simp [fetchFloors, hb, hd]
    · have hr : resetFloorEffect formData = Dict.set formData "FLNUM" (JSValue.str "") := by
        simp [resetFloorEffect, hb]
      rw [hr]
      simp [JSObject.get, Dict.get?_set_self]
    · intro k hk
      have hr : resetFloorEffect formData = Dict.set formData "FLNUM" (JSValue.str "") := by
        simp [resetFloorEffect, hb]
      rw [hr]
      simp [JSObject.get, Dict.get?_set_ne _ _ _ _ hk]
  · intro hb
    simp [fetchFloorsRequest, fetchFloors, resetFloorEffect, hb]

/-- C13, witness: the form in which building 7 and floor 2 are selected, and the blank
form. -/
theorem building_effects_witness :
    ((completeForm.get "BDNUM").toBoolean = true
        ∧ fetchFloorsRequest completeForm
            = some { method := "GET", url := "http://localhost:8080/floors?buildingId=7",
                     body := none }
        ∧ (resetFloorEffect completeForm).get "FLNUM" = JSValue.str ""
        ∧ (resetFloorEffect completeForm).get "CAPACITY" = JSValue.str "30")
      ∧ ((blankForm.get "BDNUM").toBoolean = false
        ∧ fetchFloorsRequest blankForm = none
        ∧ fetchFloors blankForm (Except.ok [exampleRoom]) [exampleRoom] = ([], [])
        ∧ resetFloorEffect blankForm = blankForm) :=
  have h := (building_effects completeForm (Except.ok [exampleRoom]) []).1 (by decide)
  ⟨⟨by decide, h.1, h.2.2.1, by decide⟩,
    by decide,
    (building_effects blankForm (Except.ok [exampleRoom]) [exampleRoom]).2 (by decide)⟩

/-! ## Rooms view: status codes -/

/-- C14. The room status codes are the closed enumeration 1, 2, 3: `statusMap` and
`statusColors` have exactly these three keys, and the change-status dialog offers exactly
these three values, each with the label `statusMap` gives it. -/
theorem status_codes_closed :
    statusMap.keys = ["1", "2", "3"]
      ∧ statusColors.keys = ["1", "2", "3"]
      ∧ changeStatusOptions.map Prod.fst = ["1", "2", "3"]
      ∧ (∀ option ∈ changeStatusOptions, statusMap.get? option.1 = some option.2)
      ∧ statusMap.map Prod.snd = ["พร้อมใช้งาน", "ชำรุด", "ปิดให้บริการ"] := by
  decide

/-! ## Rooms view: mutation callbacks -/

/-- C15. After a successful add, update or delete mutation the dialog that issued it is
closed and the cached `rooms` collection is invalidated: `isModalOpen` becomes false for
add and update, `dialogState` is reset to `{ type: null, isOpen: false, data: null }` for
update and delete, and each callback calls `invalidateQueries("rooms")`. -/
theorem mutation_success (s : RoomsState) :
    ((addRoomOnSuccess s).1.isModalOpen = false
        ∧ Effect.invalidateQueries "rooms" ∈ (addRoomOnSuccess s).2)
      ∧ ((updateRoomOnSuccess s).1.isModalOpen = false
        ∧ (updateRoomOnSuccess s).1.dialogState = { type := none, isOpen := false, data := none }
        ∧ Effect.invalidateQueries "rooms" ∈ (updateRoomOnSuccess s).2)
      ∧ ((deleteRoomOnSuccess s).1.dialogState = { type := none, isOpen := false, data := none }
        ∧ Effect.invalidateQueries "rooms" ∈ (deleteRoomOnSuccess s).2) := by
  simp [addRoomOnSuccess, updateRoomOnSuccess, deleteRoomOnSuccess, closedDialog]

/-- C16. The update request is a PUT to `/updateroom/{id}` with `id` the CFRNUMBER of the
record sent, which is the body; after `handleAction("delete", room)` the handler
`handleDeleteRoom` passes the CFRNUMBER of that room to the delete mutation, whose request
is a DELETE to `/deleteroom/{id}` with that `id`. -/
theorem update_and_delete_requests (updatedRoom room : JSObject) (s : RoomsState) :
    updateRoomRequest updatedRoom
        = { method := "PUT",
            url := "http://localhost:8080/updateroom/"
                     ++ interpolate (updatedRoom.get "CFRNUMBER"),
            body := some updatedRoom }
      ∧ (handleAction "delete" (some room) s).dialogState
          = { type := some "delete", isOpen := true, data := some room }
      ∧ handleDeleteRoom (handleAction "delete" (some room) s)
          = Except.ok [Effect.deleteRoomMutate (room.get "CFRNUMBER")]
      ∧ deleteRoomRequest (room.get "CFRNUMBER")
          = { method := "DELETE",
              url := "http://localhost:8080/deleteroom/"
                       ++ interpolate (room.get "CFRNUMBER"),
              body := none } := by
  refine ⟨?_, ?_, ?_, ?_⟩
  · simp [updateRoomRequest, RoomsSection.API_URL, String.append_assoc]
  · simp [handleAction]
  · simp [handleAction, handleDeleteRoom]
  · simp [deleteRoomRequest, RoomsSection.API_URL, String.append_assoc]

/-! ## Report view: the fetches of the mount effect -/

theorem fetchData_departments (newDate : JSValue → JSDate) (b m : Response) (s : ReportState) :
    (fetchData newDate b m s).1.departments = s.departments
      ∧ (fetchData newDate b m s).1.rooms = s.rooms
      ∧ (fetchData newDate b m s).1.lockStatsData = s.lockStatsData := by
  unfold fetchData
  repeat' split
  all_goals exact ⟨rfl, rfl, rfl⟩

theorem loadData_fields (newDate : JSValue → JSDate) (r : MountResponses) (s : ReportState) :
    (loadData newDate r s).1.roomUsageData
        = (fetchData newDate r.bookings r.members s).1.roomUsageData
      ∧ (loadData newDate r s).1.bookingStatusData
        = (fetchData newDate r.bookings r.members s).1.bookingStatusData
      ∧ (loadData newDate r s).1.departmentData
        = (fetchData newDate r.bookings r.members s).1.departmentData
      ∧ (loadData newDate r s).1.departments = (fetchDepartments r.departments s).1.departments
      ∧ (loadData newDate r s).1.rooms = (ReportSection.fetchRooms r.rooms s).1.rooms
      ∧ (loadData newDate r s).1.lockStatsData = (fetchLockStats r.lockStats s).1.lockStatsData := by
  obtain ⟨hd, hr, hl⟩ := fetchData_departments newDate r.bookings r.members s
  unfold loadData
  cases hdep : r.departments <;> cases hrooms : r.rooms <;> cases hlock : r.lockStats <;>
    simp [fetchDepartments, ReportSection.fetchRooms, fetchLockStats, hd, hr, hl]

/-- The state `loadData` leaves does not depend on the order in which the four fetches
apply their responses: applying them in the reverse order gives the same state. -/
theorem loadData_order (newDate : JSValue → JSDate) (r : MountResponses) (s : ReportState) :
    (fetchData newDate r.bookings r.members
        (fetchDepartments r.departments
          (ReportSection.fetchRooms r.rooms (fetchLockStats r.lockStats s).1).1).1).1
      = (loadData newDate r s).1 := by
  unfold loadData
  cases r.departments <;> cases r.rooms <;> cases r.lockStats <;> cases r.bookings <;>
    simp only [fetchDepartments, ReportSection.fetchRooms, fetchLockStats, fetchData] <;>
    (repeat' split) <;> rfl

/-- C17, as stated, fails: when only the bookings request is rejected, the members request,
which would be fulfilled, is never read and `departmentData` stays empty, although the
member row would give the department `IT` with one employee. -/
theorem members_lost_with_bookings :
    bookingsRejected.members = Except.ok [exampleMember]
      ∧ processDepartmentData [exampleMember]
          = Except.ok [{ department := JSValue.str "IT", employees := 1 }]
      ∧ (loadData exampleNewDate bookingsRejected (initialReportState exampleNow)).1.departmentData
          = [] :=
  ⟨rfl, rfl, rfl⟩

/-- C17, amended. Among the fetches of the mount effect, `fetchData`, `fetchDepartments`,
`fetchRooms` and `fetchLockStats` do not depend on one another: a fulfilled departments,
rooms or lock-stats response is applied to its own state whatever happens to the other
requests, and a fulfilled bookings response whose rows are processed without exception is
applied to `roomUsageData` and `bookingStatusData` whatever happens to the members request.
The members request is issued inside `fetchData` after the bookings response has been
processed: its response is applied to `departmentData` when that step succeeded, and when
the bookings request is rejected `departmentData` is left as it was. -/
theorem mount_fetches (newDate : JSValue → JSDate) (r : MountResponses) (s : ReportState) :
    (∀ data, r.departments = Except.ok data → (loadData newDate r s).1.departments = data)
      ∧ (∀ data, r.rooms = Except.ok data →
          (loadData newDate r s).1.rooms
            = data.map (fun room =>
                { id := room.get "CFRNUMBER", name := room.get "CFRNAME" : RoomOption }))
      ∧ (∀ data, r.lockStats = Except.ok data → (loadData newDate r s).1.lockStatsData = data)
      ∧ (∀ bookings entries, r.bookings = Except.ok bookings →
          processRoomUsageData newDate bookings = Except.ok entries →
          (loadData newDate r s).1.roomUsageData = entries
            ∧ (loadData newDate r s).1.bookingStatusData = processBookingStatusData bookings)
      ∧ (∀ bookings entries members deptData, r.bookings = Except.ok bookings →
          processRoomUsageData newDate bookings = Except.ok entries →
          r.members = Except.ok members →
          processDepartmentData members = Except.ok deptData →
          (loadData newDate r s).1.departmentData = deptData)
      ∧ (∀ message, r.bookings = Except.error message →
          (loadData newDate r s).1.departmentData = s.departmentData) := by
  obtain ⟨h1, h2, h3, h4, h5, h6⟩ := loadData_fields newDate r s
  refine ⟨?_, ?_, ?_, ?_, ?_, ?_⟩
  · intro data hd
    rw [h4, hd]; rfl
  · intro data hd
    rw [h5, hd]; rfl
  · intro data hd
    rw [h6, hd]; rfl
  · intro bookings entries hb hp
    rw [h1, h2, hb]
    unfold fetchData
    simp only [hp]
    repeat' split
    all_goals exact ⟨rfl, rfl⟩
  · intro bookings entries members deptData hb hp hm hq
    rw [h3, hb, hm]
    unfold fetchData
    simp only [hp, hq]
  · intro message hb
    rw [h3, hb]
    rfl

/-- C17, witness: all five requests fulfilled with the rows of the worked example, and the
bookings request rejected while the other four are fulfilled. -/
theorem mount_fetches_witness :
    (loadData exampleNewDate allFulfilled (initialReportState exampleNow)).1.departments = []
      ∧ (loadData exampleNewDate allFulfilled (initialReportState exampleNow)).1.rooms
          = [{ id := JSValue.num 5, name := JSValue.str "Orchid" }]
      ∧ (loadData exampleNewDate allFulfilled (initialReportState exampleNow)).1.lockStatsData
          = []
      ∧ ((loadData exampleNewDate allFulfilled (initialReportState exampleNow)).1.roomUsageData
            = [{ date := "01/05/2024", sortDate := "2024-05-01", count := 2 },
               { date := "02/05/2024", sortDate := "2024-05-02", count := 1 }]
          ∧ (loadData exampleNewDate allFulfilled
                (initialReportState exampleNow)).1.bookingStatusData
              = processBookingStatusData exampleBookings)
      ∧ (loadData exampleNewDate allFulfilled (initialReportState exampleNow)).1.departmentData
          = [{ department := JSValue.str "IT", employees := 1 }]
      ∧ (loadData exampleNewDate bookingsRejected (initialReportState exampleNow)).1.departmentData
          = (initialReportState exampleNow).departmentData :=
  ⟨(mount_fetches exampleNewDate allFulfilled (initialReportState exampleNow)).1 [] rfl,
    (mount_fetches exampleNewDate allFulfilled (initialReportState exampleNow)).2.1
      [exampleRoom] rfl,
    (mount_fetches exampleNewDate allFulfilled (initialReportState exampleNow)).2.2.1 [] rfl,
    (mount_fetches exampleNewDate allFulfilled (initialReportState exampleNow)).2.2.2.1
      exampleBookings _ rfl rfl,
    (mount_fetches exampleNewDate allFulfilled (initialReportState exampleNow)).2.2.2.2.1
      exampleBookings _ [exampleMember] _ rfl rfl rfl rfl,
    (mount_fetches exampleNewDate bookingsRejected (initialReportState exampleNow)).2.2.2.2.2
      "Network Error" rfl⟩

/-! ## Base URL of the requests -/

/-- C18, failing input: with `NODE_ENV` set to `production` the `API_URL` of `config.js` is
`https://project-meet.vercel.app`, but the rooms view and the report view still send their
requests to `http://localhost:8080`. -/
theorem views_ignore_config :
    Config.API_URL (JSValue.str "production") = "https://project-meet.vercel.app"
      ∧ Config.API_URL (JSValue.str "development") = "http://localhost:8080"
      ∧ RoomsSection.fetchRoomsRequest.url = "http://localhost:8080/room"
      ∧ adminBookingsRequest.url = "http://localhost:8080/admin-bookings" := by
  decide

/-- Every request of the two views goes to `http://localhost:8080`, whatever the
environment: the hard-coded base is the value `config.js` selects in development only. -/
theorem requests_go_to_localhost (formData newRoom updatedRoom : JSObject)
    (CFRNUMBER : JSValue) (query : String) :
    ∀ r ∈ allRequests formData newRoom updatedRoom CFRNUMBER query,
      ∃ path, r.url = Config.API_URL (JSValue.str "development") ++ path := by
  intro r hr
  have hc : Config.API_URL (JSValue.str "development") = "http://localhost:8080" := by decide
  rw [hc]
  simp only [allRequests, List.mem_append, List.mem_cons, List.mem_singleton,
    List.not_mem_nil, or_false, Option.mem_toList, Option.mem_def] at hr
  rcases hr with (h | h | h | h | h | h | h | h | h | h | h | h | h) | h
  · exact ⟨"/room", by rw [h]; rfl⟩
  · exact ⟨"/buildings", by rw [h]; rfl⟩
  · exact ⟨"/roomtypes", by rw [h]; rfl⟩
  · exact ⟨"/statusrooms", by rw [h]; rfl⟩
  · exact ⟨"/addroom", by rw [h]; rfl⟩
  · exact ⟨"/updateroom/" ++ interpolate (updatedRoom.get "CFRNUMBER"), by
      rw [h, ← String.append_assoc]; rfl⟩
  · exact ⟨"/deleteroom/" ++ interpolate CFRNUMBER, by
      rw [h, ← String.append_assoc]; rfl⟩
  · exact ⟨"/employee-lock-stats", by rw [h]; rfl⟩
  · exact ⟨"/admin-bookings", by rw [h]; rfl⟩
  · exact ⟨"/members", by rw [h]; rfl⟩
  · exact ⟨"/departments", by rw [h]; rfl⟩
  · exact ⟨"/rooms", by rw [h]; rfl⟩
  · refine ⟨"/admin-bookings?" ++ query, ?_⟩
    rw [h]
    simp only [fetchFilteredDataRequest, ← String.append_assoc]
    rfl
  · refine ⟨"/floors?buildingId=" ++ interpolate (formData.get "BDNUM"), ?_⟩
    unfold fetchFloorsRequest at h
    split at h
    · injection h with h
      rw [← h, ← String.append_assoc]
      rfl
    · exact absurd h (by simp)

/-! ## Rooms view: the listing after a delete -/

theorem mem_renderedRooms (toLowerCase : String → String) (rooms : List JSObject)
    (searchTerm : String) (currentPage : Int) (room : JSObject)
    (h : room ∈ renderedRooms toLowerCase rooms searchTerm currentPage) : room ∈ rooms := by
  unfold renderedRooms paginatedRooms at h
  have h1 := slice_subset _ _ _ _ h
  unfold filteredRooms at h1
  have h2 := (List.mem_filter.mp h1).1
  unfold sortedRooms at h2
  exact (List.perm_insertionSort roomLE rooms).mem_iff.mp h2

/-- C19. After `handleAction("delete", room)` the handler `handleDeleteRoom` sends the
CFRNUMBER of `room` to the delete mutation, and the success callback invalidates the
cached `rooms` collection; when the API has removed that room and the refetch has returned
its collection, no row of the rendered listing has the CFRNUMBER of the deleted room, for
every search term and page: the deleted room is not listed. -/
theorem deleted_room_not_listed (toLowerCase : String → String) (store : List JSObject)
    (room : JSObject) (s : RoomsState) (searchTerm : String) (currentPage : Int) :
    handleDeleteRoom (handleAction "delete" (some room) s)
        = Except.ok [Effect.deleteRoomMutate (room.get "CFRNUMBER")]
      ∧ Effect.invalidateQueries "rooms"
          ∈ (deleteRoomOnSuccess (handleAction "delete" (some room) s)).2
      ∧ (∀ listed ∈ renderedRooms toLowerCase
            (serverDeleteRoom store (interpolate (room.get "CFRNUMBER"))) searchTerm currentPage,
          interpolate (listed.get "CFRNUMBER") ≠ interpolate (room.get "CFRNUMBER"))
      ∧ room ∉ renderedRooms toLowerCase
          (serverDeleteRoom store (interpolate (room.get "CFRNUMBER"))) searchTerm currentPage := by
  have hlisted : ∀ listed ∈ renderedRooms toLowerCase
      (serverDeleteRoom store (interpolate (room.get "CFRNUMBER"))) searchTerm currentPage,
      interpolate (listed.get "CFRNUMBER") ≠ interpolate (room.get "CFRNUMBER") := by
    intro listed hl
    have hm := mem_renderedRooms _ _ _ _ _ hl
    unfold serverDeleteRoom at hm
    simpa using (List.mem_filter.mp hm).2
  refine ⟨?_, ?_, hlisted, ?_⟩
  · simp [handleAction, handleDeleteRoom]
  · simp [deleteRoomOnSuccess]
  · intro hr
    exact hlisted room hr rfl

/-- C19, witness: of the two rooms 12 and 5 of the store, only room 12 is listed after room 5
has been deleted. -/
theorem deleted_room_not_listed_witness :
    renderedRooms asciiLower (serverDeleteRoom [otherRoom, exampleRoom] "5") "" 1 = [otherRoom]
      ∧ renderedRooms asciiLower [otherRoom, exampleRoom] "" 1 = [exampleRoom, otherRoom]
      ∧ exampleRoom ∉ renderedRooms asciiLower
          (serverDeleteRoom [otherRoom, exampleRoom] (interpolate (exampleRoom.get "CFRNUMBER")))
          "" 1 :=
  ⟨by decide, by decide,
    (deleted_room_not_listed asciiLower [otherRoom, exampleRoom] exampleRoom initialRoomsState
      "" 1).2.2.2⟩

/-! ## Rooms view: saving a complete record -/

/-- C22. When all six required fields of the record are truthy, `handleSaveRoom` issues
exactly one effect, a mutation carrying that record, and no validation notification: the
update mutation when `editingRoom` is set, the add mutation otherwise.  A required field
holding the number 0 or the empty string counts as missing: the only effect is then the
validation notification. -/
theorem handleSaveRoom_complete (editingRoom : Option JSObject) (roomData : JSObject) :
    ((∀ k ∈ requiredFields, (roomData.get k).toBoolean = true) →
        handleSaveRoom editingRoom roomData
          = (if editingRoom.isSome then [Effect.updateRoomMutate roomData]
             else [Effect.addRoomMutate roomData]))
      ∧ ((∃ k ∈ requiredFields, roomData.get k = JSValue.num 0 ∨ roomData.get k = JSValue.str "") →
        handleSaveRoom editingRoom roomData
          = [Effect.toastError "กรุณากรอกข้อมูลให้ครบทุกช่อง"]) := by
  constructor
  · intro h
    have h1 := h "CFRNAME" (by decide)
    have h2 := h "BDNUM" (by decide)
    have h3 := h "FLNUM" (by decide)
    have h4 := h "RTNUM" (by decide)
    have h5 := h "STUROOM" (by decide)
    have h6 := h "CAPACITY" (by decide)
    cases editingRoom <;> simp [handleSaveRoom, h1, h2, h3, h4, h5, h6]
  · rintro ⟨k, hk, hv⟩
    have hfalsy : (roomData.get k).toBoolean = false := by
      rcases hv with hv | hv <;> rw [hv] <;> rfl
    unfold handleSaveRoom
    rw [if_pos (get_mem_requiredFields roomData k hk hfalsy)]
    rfl

/-- C22, witness: the completed form is sent by the add mutation when no room is being
edited and by the update mutation when one is; the form with the capacity left empty is
not sent. -/
theorem handleSaveRoom_complete_witness :
    handleSaveRoom none completeForm = [Effect.addRoomMutate completeForm]
      ∧ handleSaveRoom (some exampleRoom) completeForm = [Effect.updateRoomMutate completeForm]
      ∧ handleSaveRoom none incompleteForm = [Effect.toastError "กรุณากรอกข้อมูลให้ครบทุกช่อง"] :=
  ⟨(handleSaveRoom_complete none completeForm).1 (by decide),
    (handleSaveRoom_complete (some exampleRoom) completeForm).1 (by decide),
    (handleSaveRoom_complete none incompleteForm).2 ⟨"CAPACITY", by decide, Or.inr rfl⟩⟩

/-! ## By-date aggregation: the counts add up -/

theorem countSum_set (o : Dict UsageEntry) (k : String) (v : UsageEntry) :
    ((o.set k v).map (fun p => p.2.count)).sum
        + (match o.get? k with | some e => e.count | none => 0)
      = (o.map (fun p => p.2.count)).sum + v.count := by
  induction o with
  | nil => simp [Dict.set, Dict.get?]
  | cons p rest ih =>
    obtain ⟨k', e'⟩ := p
    by_cases h : k' = k
    · simp [Dict.set, Dict.get?, h]
      omega
    · simp only [Dict.set, Dict.get?, h, if_false, List.map_cons, List.sum_cons]
      omega

theorem roomUsageStep_sum (newDate : JSValue → JSDate) (o o' : Dict UsageEntry)
    (b : JSObject) (h : roomUsageStep newDate o b = Except.ok o') :
    (o'.map (fun p => p.2.count)).sum = (o.map (fun p => p.2.count)).sum + 1 := by
  obtain ⟨k, _, hcase⟩ := roomUsageStep_ok newDate o o' b h
  rcases hcase with ⟨e, he, rfl⟩ | ⟨hno, display, rfl⟩
  · have := countSum_set o k { e with count := e.count + 1 }
    rw [he] at this
    simp only at this
    omega
  · have h1 := countSum_set o k { date := display, sortDate := k, count := 0 }
    have h2 := countSum_set (o.set k { date := display, sortDate := k, count := 0 }) k
      { date := display, sortDate := k, count := 1 }
    rw [hno] at h1
    rw [Dict.get?_set_self] at h2
    simp only at h1 h2
    omega

theorem forEach_roomUsage_sum (newDate : JSValue → JSDate) (data : List JSObject) :
    ∀ o o' : Dict UsageEntry, forEach (roomUsageStep newDate) o data = Except.ok o' →
      (o'.map (fun p => p.2.count)).sum = (o.map (fun p => p.2.count)).sum + data.length := by
  induction data with
  | nil =>
    intro o o' h
    simp only [forEach] at h
    injection h with h
    subst h
    simp
  | cons b rest ih =>
    intro o o' h
    simp only [forEach] at h
    cases hs : roomUsageStep newDate o b with
    | error e => simp [hs] at h
    | ok o₁ =>
      simp only [hs] at h
      rw [ih o₁ o' h, roomUsageStep_sum newDate o o₁ b hs]
      simp only [List.length_cons]
      omega

/-- C23. The counts of the entries returned by `processRoomUsageData` add up to the length
of the input list. -/
theorem processRoomUsageData_count_sum (newDate : JSValue → JSDate) (data : List JSObject)
    (entries : List UsageEntry) (h : processRoomUsageData newDate data = Except.ok entries) :
    (entries.map UsageEntry.count).sum = data.length := by
  unfold processRoomUsageData at h
  cases hf : forEach (roomUsageStep newDate) [] data with
  | error e => simp [hf] at h
  | ok o =>
    simp only [hf] at h
    injection h with h
    subst h
    have hp : (((Dict.values o).insertionSort usageLE).map UsageEntry.count).Perm
        ((o.map Prod.snd).map UsageEntry.count) :=
      ((List.perm_insertionSort usageLE _).trans (Dict.values_perm o)).map _
    rw [hp.sum_eq, List.map_map]
    have := forEach_roomUsage_sum newDate data [] o hf
    simpa [Function.comp] using this

/-- C23, witness: the worked example, 2 + 1 = 3 bookings. -/
theorem processRoomUsageData_count_sum_witness :
    (([{ date := "01/05/2024", sortDate := "2024-05-01", count := 2 },
       { date := "02/05/2024", sortDate := "2024-05-02", count := 1 }] : List UsageEntry).map
        UsageEntry.count).sum = exampleBookings.length :=
  processRoomUsageData_count_sum exampleNewDate exampleBookings _ rfl

/-! ## By-status aggregation: the counters -/

theorem status_counts_le (data : List JSObject) :
    data.countP (fun b => decide (b.get "STUBOOKING" = JSValue.num 3))
        + data.countP (fun b => decide (b.get "STUBOOKING" = JSValue.num 5))
        + data.countP (fun b => decide (b.get "STUBOOKING" = JSValue.num 2))
        ≤ data.length
      ∧ (data.countP (fun b => decide (b.get "STUBOOKING" = JSValue.num 3))
            + data.countP (fun b => decide (b.get "STUBOOKING" = JSValue.num 5))
            + data.countP (fun b => decide (b.get "STUBOOKING" = JSValue.num 2))
            = data.length
          ↔ ∀ b ∈ data, b.get "STUBOOKING" = JSValue.num 3
              ∨ b.get "STUBOOKING" = JSValue.num 5 ∨ b.get "STUBOOKING" = JSValue.num 2) := by
  induction data with
  | nil => simp
  | cons b rest ih =>
    obtain ⟨ih1, ih2⟩ := ih
    by_cases h3 : b.get "STUBOOKING" = JSValue.num 3
    · simp only [List.countP_cons, h3, List.length_cons, List.mem_cons, forall_eq_or_imp]
      simp only [decide_True, if_true, true_or, true_and, reduceCtorEq, decide_False,
        JSValue.num.injEq]
      constructor
      · norm_num; omega
      · rw [← ih2]; norm_num; omega
    · by_cases h5 : b.get "STUBOOKING" = JSValue.num 5
      · simp only [List.countP_cons, h5, List.length_cons, List.mem_cons, forall_eq_or_imp]
        simp only [decide_True, if_true, true_or, or_true, true_and, reduceCtorEq, decide_False,
          JSValue.num.injEq]
        constructor
        · norm_num; omega
        · rw [← ih2]; norm_num; omega
      · by_cases h2 : b.get "STUBOOKING" = JSValue.num 2
        · simp only [List.countP_cons, h2, List.length_cons, List.mem_cons, forall_eq_or_imp]
          simp only [decide_True, if_true, true_or, or_true, true_and, reduceCtorEq,
            decide_False, JSValue.num.injEq]
          constructor
          · norm_num; omega
          · rw [← ih2]; norm_num; omega
        · simp only [List.countP_cons, h3, h5, h2, List.length_cons, List.mem_cons,
            forall_eq_or_imp, decide_False, or_self, false_and]
          constructor
          · simp; omega
          · simp; omega

/-- C24. The values returned by `processBookingStatusData` satisfy
used + cancelled + no-show ≤ total, with equality exactly when the STUBOOKING of every
booking is one of 3, 5, 2; a booking with any other status code only adds one to the total
counter. -/
theorem status_values_bound (data : List JSObject) :
    (∃ total used cancelled noShow,
        (processBookingStatusData data).map StatusEntry.value = [total, used, cancelled, noShow]
          ∧ used + cancelled + noShow ≤ total
          ∧ (used + cancelled + noShow = total
              ↔ ∀ b ∈ data, b.get "STUBOOKING" = JSValue.num 3
                  ∨ b.get "STUBOOKING" = JSValue.num 5 ∨ b.get "STUBOOKING" = JSValue.num 2))
      ∧ ∀ (c : StatusCounts) (b : JSObject),
          b.get "STUBOOKING" ≠ JSValue.num 3 → b.get "STUBOOKING" ≠ JSValue.num 5 →
          b.get "STUBOOKING" ≠ JSValue.num 2 →
          statusStep c b = { c with total := c.total + 1 } := by
  constructor
  · refine ⟨data.length,
      data.countP (fun b => decide (b.get "STUBOOKING" = JSValue.num 3)),
      data.countP (fun b => decide (b.get "STUBOOKING" = JSValue.num 5)),
      data.countP (fun b => decide (b.get "STUBOOKING" = JSValue.num 2)), ?_,
      (status_counts_le data).1, (status_counts_le data).2⟩
    simp [processBookingStatusData, foldl_statusStep]
  · intro c b h3 h5 h2
    simp [statusStep, h3, h5, h2]

/-- C24, witness: a booking with status code 1 (neither used, cancelled nor no-show) adds
one to the total only. -/
theorem status_values_bound_witness :
    statusStep { total := 3, used := 2, cancelled := 1, noShow := 0 }
        (exampleBooking "2024-05-02" 1)
      = { total := 4, used := 2, cancelled := 1, noShow := 0 } :=
  (status_values_bound exampleBookings).2 { total := 3, used := 2, cancelled := 1, noShow := 0 }
    (exampleBooking "2024-05-02" 1) (by decide) (by decide) (by decide)

/-! ## Report view: the series of the selected day -/

theorem filterE_filteredData (newDate : JSValue → JSDate) (key : String)
    (data : List JSObject) :
    ∀ kept, filterE (filteredDataFilter newDate key) data = Except.ok kept →
      kept = data.filter (fun b => decide (dayKey? newDate b = some key)) := by
  induction data with
  | nil =>
    intro kept h
    simp only [filterE] at h
    injection h with h
    simp [← h]
  | cons b rest ih =>
    intro kept h
    simp only [filterE, filteredDataFilter] at h
    cases hk : format (newDate (b.get "BDATE")) DatePattern.ymd with
    | error e => simp [hk] at h
    | ok bookingDate =>
      simp only [hk] at h
      have hdk : dayKey? newDate b = some bookingDate := by
        simp [dayKey?, bookingKey, hk]
      cases hr : filterE (filteredDataFilter newDate key) rest with
      | error e => simp [hr] at h
      | ok kept' =>
        simp only [hr] at h
        injection h with h
        rw [← h, ih kept' hr, List.filter_cons, hdk]
        by_cases hbk : bookingDate = key <;> simp [hbk]

theorem roomUsageStep_display (newDate : JSValue → JSDate) (o o' : Dict UsageEntry)
    (b : JSObject) (h : roomUsageStep newDate o b = Except.ok o')
    (hinv : ∀ k e, o.get? k = some e →
      format (newDate (JSValue.str k)) DatePattern.dmy = Except.ok e.date) :
    ∀ k e, o'.get? k = some e →
      format (newDate (JSValue.str k)) DatePattern.dmy = Except.ok e.date := by
  unfold roomUsageStep at h
  cases hk : bookingKey newDate b with
  | error e => simp [hk] at h
  | ok key =>
    simp only [hk] at h
    cases hg : o.get? key with
    | some e₀ =>
      simp only [hg] at h
      injection h with h
      subst h
      intro k e he
      by_cases hkk : k = key
      · subst hkk
        rw [Dict.get?_set_self] at he
        injection he with he
        subst he
        exact hinv k e₀ hg
      · rw [Dict.get?_set_ne _ _ _ _ hkk] at he
        exact hinv k e he
    | none =>
      simp only [hg] at h
      cases hf : format (newDate (JSValue.str key)) DatePattern.dmy with
      | error e => simp [hf] at h
      | ok display =>
        simp only [hf, Dict.get?_set_self] at h
        injection h with h
        subst h
        intro k e he
        by_cases hkk : k = key
        · subst hkk
          rw [Dict.get?_set_self] at he
          injection he with he
          subst he
          exact hf
        · rw [Dict.get?_set_ne _ _ _ _ hkk, Dict.get?_set_ne _ _ _ _ hkk] at he
          exact hinv k e he

theorem forEach_roomUsage_display (newDate : JSValue → JSDate) (data : List JSObject) :
    ∀ o o' : Dict UsageEntry, forEach (roomUsageStep newDate) o data = Except.ok o' →
      (∀ k e, o.get? k = some e →
        format (newDate (JSValue.str k)) DatePattern.dmy = Except.ok e.date) →
      ∀ k e, o'.get? k = some e →
        format (newDate (JSValue.str k)) DatePattern.dmy = Except.ok e.date := by
  induction data with
  | nil =>
    intro o o' h hinv
    simp only [forEach] at h
    injection h with h
    subst h
    exact hinv
  | cons b rest ih =>
    intro o o' h hinv
    simp only [forEach] at h
    cases hs : roomUsageStep newDate o b with
    | error e => simp [hs] at h
    | ok o₁ =>
      simp only [hs] at h
      exact ih o₁ o' h (roomUsageStep_display newDate o o₁ b hs hinv)

theorem processRoomUsageData_display (newDate : JSValue → JSDate) (data : List JSObject)
    (entries : List UsageEntry) (h : processRoomUsageData newDate data = Except.ok entries) :
    ∀ e ∈ entries,
      format (newDate (JSValue.str e.sortDate)) DatePattern.dmy = Except.ok e.date := by
  obtain ⟨o, hinv, heq⟩ := processRoomUsageData_ok newDate data entries h
  intro e he
  rw [heq, usage_mem_iff newDate data o hinv] at he
  unfold processRoomUsageData at h
  cases hf : forEach (roomUsageStep newDate) [] data with
  | error e' => simp [hf] at h
  | ok o₂ =>
    simp only [hf] at h
    injection h with h
    have hd := forEach_roomUsage_display newDate data [] o₂ hf
      (by intro k e hk; simp [Dict.get?] at hk)
    have he₂ : e ∈ (Dict.values o₂).insertionSort usageLE := by
      rw [h, heq, usage_mem_iff newDate data o hinv]
      exact he
    rw [(List.perm_insertionSort usageLE _).mem_iff, Dict.mem_values] at he₂
    obtain ⟨k, hk⟩ := he₂
    have hinv₂ := forEach_roomUsage_inv newDate data [] o₂ [] hf (usageInv_nil newDate)
    simp only [List.nil_append] at hinv₂
    have hg := Dict.get?_of_mem o₂ k e hinv₂.1 hk
    have hs := (hinv₂.2.1 k e hg).1
    rw [hs]
    exact hd k e hg

theorem dayCount_filter (newDate : JSValue → JSDate) (data : List JSObject) (key : String) :
    dayCount newDate (data.filter (fun b => decide (dayKey? newDate b = some key))) key
      = dayCount newDate data key := by
  unfold dayCount
  rw [List.countP_filter]
  congr 1
  funext b
  simp

theorem single_day_series (newDate : JSValue → JSDate) (data : List JSObject) (key : String)
    (entries : List UsageEntry)
    (h : processRoomUsageData newDate
          (data.filter (fun b => decide (dayKey? newDate b = some key))) = Except.ok entries) :
    (dayCount newDate data key = 0 ∧ entries = [])
      ∨ ∃ e, entries = [e] ∧ e.sortDate = key ∧ e.count = dayCount newDate data key
          ∧ 0 < e.count := by
  obtain ⟨o, hinv, heq⟩ := processRoomUsageData_ok newDate _ entries h
  have hkey : ∀ e ∈ entries, e.sortDate = key ∧ e.count = dayCount newDate data key
      ∧ 0 < e.count := by
    intro e he
    rw [heq, usage_mem_iff newDate _ o hinv] at he
    obtain ⟨_, hc, hpos⟩ := hinv.2.1 _ e he
    have hpos' := hpos
    unfold dayCount at hpos'
    rw [List.countP_pos_iff] at hpos'
    obtain ⟨b, hb, hbk⟩ := hpos'
    have hb' := (List.mem_filter.mp hb).2
    simp only [decide_eq_true_eq] at hb' hbk
    have hs : e.sortDate = key := by
      rw [hbk] at hb'
      exact Option.some.inj hb'
    refine ⟨hs, ?_, ?_⟩
    · rw [hc, hs, dayCount_filter]
    · rw [hc]; exact hpos
  have hnodup : (entries.map UsageEntry.sortDate).Nodup := by
    rw [heq]
    exact usage_keys_nodup newDate _ o hinv
  match entries, hkey, hnodup, heq with
  | [], _, _, heq =>
    left
    refine ⟨?_, rfl⟩
    by_contra hne
    have hpos : 0 < dayCount newDate
        (data.filter (fun b => decide (dayKey? newDate b = some key))) key := by
      rw [dayCount_filter]; omega
    cases hg : o.get? key with
    | none => have := hinv.2.2 key hg; omega
    | some e =>
      have hs := (hinv.2.1 key e hg).1
      have hmem : e ∈ (Dict.values o).insertionSort usageLE := by
        rw [usage_mem_iff newDate _ o hinv, hs]
        exact hg
      rw [← heq] at hmem
      simp at hmem
  | [e], hkey, _, _ =>
    right
    exact ⟨e, rfl, hkey e (by simp)⟩
  | e₁ :: e₂ :: rest, hkey, hnodup, _ =>
    exfalso
    have h1 := (hkey e₁ (by simp)).1
    have h2 := (hkey e₂ (by simp)).1
    simp [h1, h2] at hnodup

/-- The usage series of a selected day.  When `fetchFilteredData` sets the usage series
from a bookings response, the series has at most one entry.  It is empty when no booking of the response falls on the
selected day; otherwise its single entry has the `yyyy-MM-dd` key of the selected day as
`sortDate`, the number of response bookings whose BDATE formats to that key as `count`, and
as display string `date` the `dd/MM/yyyy` form of the date the host reads from the key. -/
theorem fetchFilteredData_series (newDate : JSValue → JSDate) (data : List JSObject)
    (s s' : ReportState)
    (h : fetchFilteredData newDate (Except.ok data) s = (s', [])) :
    ∃ key, format s.selectedDate DatePattern.ymd = Except.ok key
      ∧ ((dayCount newDate data key = 0 ∧ s'.roomUsageData = [])
        ∨ ∃ e, s'.roomUsageData = [e] ∧ e.sortDate = key
            ∧ e.count = data.countP (fun b => decide (dayKey? newDate b = some key))
            ∧ 0 < e.count
            ∧ format (newDate (JSValue.str key)) DatePattern.dmy = Except.ok e.date) := by
  unfold fetchFilteredData at h
  cases hk : format s.selectedDate DatePattern.ymd with
  | error e => simp [hk] at h
  | ok key =>
    simp only [hk] at h
    cases hf : filterE (filteredDataFilter newDate key) data with
    | error e => simp [hf] at h
    | ok kept =>
      simp only [hf] at h
      cases hp : processRoomUsageData newDate kept with
      | error e => simp [hp] at h
      | ok entries =>
        simp only [hp] at h
        have hs' : s'.roomUsageData = entries := by
          have := congrArg Prod.fst h
          simp only at this
          rw [← this]
        have hkept := filterE_filteredData newDate key data kept hf
        have hdisp := processRoomUsageData_display newDate kept entries hp
        rw [hkept] at hp
        refine ⟨key, rfl, ?_⟩
        rcases single_day_series newDate data key entries hp with ⟨h0, hnil⟩ | ⟨e, he, h1, h2, h3⟩
        · left
          exact ⟨h0, by rw [hs', hnil]⟩
        · right
          refine ⟨e, by rw [hs', he], h1, h2, h3, ?_⟩
          have := hdisp e (by rw [he]; simp)
          rw [h1] at this
          exact this

/-- With 2024-05-01 selected, on a host that reads the key as that day, the worked example
gives the single entry of that day with count 2. -/
theorem fetchFilteredData_series_witness :
    (fetchFilteredData exampleNewDate (Except.ok exampleBookings)
        (initialReportState exampleNow)).1.roomUsageData
        = [{ date := "01/05/2024", sortDate := "2024-05-01", count := 2 }]
      ∧ ∃ key, format (initialReportState exampleNow).selectedDate DatePattern.ymd
            = Except.ok key
          ∧ ((dayCount exampleNewDate exampleBookings key = 0
              ∧ (fetchFilteredData exampleNewDate (Except.ok exampleBookings)
                  (initialReportState exampleNow)).1.roomUsageData = [])
            ∨ ∃ e, (fetchFilteredData exampleNewDate (Except.ok exampleBookings)
                    (initialReportState exampleNow)).1.roomUsageData = [e]
                ∧ e.sortDate = key
                ∧ e.count = exampleBookings.countP
                    (fun b => decide (dayKey? exampleNewDate b = some key))
                ∧ 0 < e.count
                ∧ format (exampleNewDate (JSValue.str key)) DatePattern.dmy
                    = Except.ok e.date) :=
  ⟨rfl,
    fetchFilteredData_series exampleNewDate exampleBookings (initialReportState exampleNow)
      (fetchFilteredData exampleNewDate (Except.ok exampleBookings)
        (initialReportState exampleNow)).1 rfl⟩

/-- C21, failing input: on a host five hours west of UTC, with 1 May 2024 selected and one
booking of that day in the response, `fetchFilteredData` sets a single entry with count 1
and key `2024-05-01`, but its `date`, the field the chart shows, is `30/04/2024` and not
the selected date `01/05/2024`: the display string is built from `new Date(key)`, and the
host reads the date-only key as midnight UTC. -/
theorem fetchFilteredData_previous_day :
    format (initialReportState exampleNow).selectedDate DatePattern.dmy
        = Except.ok "01/05/2024"
      ∧ bookingKey westOfUTCNewDate (exampleBooking "2024-05-01T10:00:00" 3)
          = Except.ok "2024-05-01"
      ∧ fetchFilteredData westOfUTCNewDate
          (Except.ok [exampleBooking "2024-05-01T10:00:00" 3]) (initialReportState exampleNow)
        = ({ initialReportState exampleNow with
              roomUsageData := [{ date := "30/04/2024", sortDate := "2024-05-01", count := 1 }] },
           []) :=
  ⟨rfl, rfl, rfl⟩

/-! ## Rooms view: search term and current page -/

/-- C25. Changing the search term leaves `currentPage` unchanged.  With the eleven rooms
numbered 1 to 11, page 2 is offered by the page buttons; after going to page 2 and then
entering the search term `11`, `filteredRooms` holds room 11 while `paginatedRooms` is
empty: `currentPage` 2 exceeds `totalPages` 1 and the table shows the no-data row. -/
theorem search_keeps_page :
    (∀ (value : String) (s : RoomsState), (onSearchChange value s).currentPage = s.currentPage)
      ∧ (2 : Int) ∈ pageButtons (filteredRooms asciiLower (sortedRooms elevenRooms)
            initialRoomsState.searchTerm)
      ∧ (onSearchChange "11" (handlePageChange 2 initialRoomsState)).currentPage = 2
      ∧ filteredRooms asciiLower (sortedRooms elevenRooms)
            (onSearchChange "11" (handlePageChange 2 initialRoomsState)).searchTerm
          = [[("CFRNUMBER", JSValue.num 11), ("CFRNAME", JSValue.str "Hall")]]
      ∧ totalPages (filteredRooms asciiLower (sortedRooms elevenRooms)
            (onSearchChange "11" (handlePageChange 2 initialRoomsState)).searchTerm) = 1
      ∧ paginatedRooms (filteredRooms asciiLower (sortedRooms elevenRooms)
            (onSearchChange "11" (handlePageChange 2 initialRoomsState)).searchTerm)
            (onSearchChange "11" (handlePageChange 2 initialRoomsState)).currentPage = []
      ∧ showsNoDataRow (paginatedRooms (filteredRooms asciiLower (sortedRooms elevenRooms)
            (onSearchChange "11" (handlePageChange 2 initialRoomsState)).searchTerm)
            (onSearchChange "11" (handlePageChange 2 initialRoomsState)).currentPage) = true := by
  refine ⟨fun _ _ => rfl, ?_, rfl, ?_, ?_, ?_, ?_⟩ <;> decide

/-! ## Numbers: rounding, printing and parsing -/

theorem excessBits_of_lt (fuel v : Nat) (h : v < 2 ^ 53) : excessBits fuel v = 0 := by
  cases fuel with
  | zero => rfl
  | succ f =>
    unfold excessBits
    rw [if_pos h]

theorem roundToDouble_of_lt (v : Nat) (h : v < 2 ^ 53) : roundToDouble v = v := by
  simp [roundToDouble, excessBits_of_lt v v h, Nat.mod_one]

theorem roundToDouble_of_le (v : Nat) (h : v ≤ 2 ^ 53) : roundToDouble v = v := by
  rcases Nat.lt_or_ge v (2 ^ 53) with hlt | hge
  · exact roundToDouble_of_lt v hlt
  · have hv : v = 2 ^ 53 := Nat.le_antisymm h hge
    subst hv
    decide

theorem excessBits_spec (fuel : Nat) : ∀ v : Nat, 2 ^ 53 ≤ v → v ≤ fuel →
    1 ≤ excessBits fuel v ∧ 2 ^ 52 ≤ v / 2 ^ excessBits fuel v := by
  induction fuel with
  | zero =>
    intro v hv hf
    have : 0 < 2 ^ 53 := by norm_num
    omega
  | succ f ih =>
    intro v hv hf
    have hnot : ¬ v < 2 ^ 53 := by omega
    have hstep : excessBits (f + 1) v = excessBits f (v / 2) + 1 := by
      rw [excessBits, if_neg hnot]
    rw [hstep]
    refine ⟨by omega, ?_⟩
    have hdiv : v / 2 ^ (excessBits f (v / 2) + 1) = v / 2 / 2 ^ excessBits f (v / 2) := by
      rw [Nat.pow_succ, Nat.mul_comm, Nat.div_div_eq_div_mul]
    rw [hdiv]
    have h53 : (2 : Nat) ^ 53 = 2 * 2 ^ 52 := by norm_num
    rcases Nat.lt_or_ge (v / 2) (2 ^ 53) with hlt | hge
    · rw [excessBits_of_lt f (v / 2) hlt, Nat.pow_zero, Nat.div_one]
      omega
    · exact (ih (v / 2) hge (by omega)).2

theorem roundToDouble_ge (v : Nat) (h : 2 ^ 53 ≤ v) : 2 ^ 53 ≤ roundToDouble v := by
  obtain ⟨he, hq⟩ := excessBits_spec v v h (Nat.le_refl v)
  have hpow : 2 ≤ 2 ^ excessBits v v := by
    calc 2 = 2 ^ 1 := by norm_num
      _ ≤ 2 ^ excessBits v v := Nat.pow_le_pow_right (by norm_num) he
  have hbase : 2 ^ 53 ≤ v / 2 ^ excessBits v v * 2 ^ excessBits v v := by
    calc 2 ^ 53 = 2 ^ 52 * 2 := by norm_num
      _ ≤ v / 2 ^ excessBits v v * 2 ^ excessBits v v := Nat.mul_le_mul hq hpow
  unfold roundToDouble
  simp only
  split_ifs
  · exact le_trans hbase (Nat.mul_le_mul_right _ (Nat.le_succ _))
  · exact hbase

theorem roundToDouble_eq_zero (v : Nat) : roundToDouble v = 0 ↔ v = 0 := by
  constructor
  · intro h
    rcases Nat.lt_or_ge v (2 ^ 53) with hlt | hge
    · rw [roundToDouble_of_lt v hlt] at h
      exact h
    · have := roundToDouble_ge v hge
      have hpos : 0 < 2 ^ 53 := by norm_num
      omega
  · intro h
    subst h
    rfl

theorem roundToDouble_inj_of_lt (v x : Nat) (hx : x < 2 ^ 53) (h : roundToDouble v = x) :
    v = x := by
  rcases Nat.lt_or_ge v (2 ^ 53) with hlt | hge
  · rw [roundToDouble_of_lt v hlt] at h
    exact h
  · have := roundToDouble_ge v hge
    omega

theorem shortestAt_round (x m v : Nat) (h : shortestAt x m = some v) :
    roundToDouble v = x := by
  unfold shortestAt at h
  simp only at h
  split_ifs at h <;> (cases h; assumption)

theorem shortestDecimal_of_lt (x : Nat) (h : x < 2 ^ 53) : shortestDecimal x = x := by
  unfold shortestDecimal
  split
  · next v heq =>
    obtain ⟨m, -, hm⟩ := List.exists_of_findSome?_eq_some heq
    exact roundToDouble_inj_of_lt v x h (shortestAt_round x m v hm)
  · rfl

theorem shortestDecimal_of_le (x : Nat) (h : x ≤ 2 ^ 53) : shortestDecimal x = x := by
  rcases Nat.lt_or_ge x (2 ^ 53) with hlt | hge
  · exact shortestDecimal_of_lt x hlt
  · have hx : x = 2 ^ 53 := Nat.le_antisymm h hge
    subst hx
    decide

theorem naturalToString_of_le (x : Nat) (h : x ≤ 2 ^ 53) : naturalToString x = Nat.repr x := by
  have hlt : x < 10 ^ 21 := by
    have : (2 : Nat) ^ 53 < 10 ^ 21 := by norm_num
    omega
  unfold naturalToString
  simp only [shortestDecimal_of_le x h]
  rw [if_pos hlt]

theorem numberToString_natCast (n : Nat) (h : n ≤ 2 ^ 53) :
    numberToString ((n : Nat) : Int) = Nat.repr n := by
  have hneg : ¬ ((n : Nat) : Int) < 0 := by omega
  simp only [numberToString, hneg, if_false, Int.natAbs_ofNat]
  exact naturalToString_of_le n h

theorem numberToString_neg (n : Nat) (h0 : 0 < n) (h : n ≤ 2 ^ 53) :
    numberToString (- ((n : Nat) : Int)) = "-" ++ Nat.repr n := by
  have hneg : - ((n : Nat) : Int) < 0 := by omega
  simp only [numberToString, hneg, if_true, Int.natAbs_neg, Int.natAbs_ofNat]
  rw [naturalToString_of_le n h]
theorem decimalRepresentation_lt_10 (n : Nat) (h : n < 10) :
    decimalRepresentation n = [Nat.digitChar n] := by
  unfold decimalRepresentation
  split_ifs with h0
  · rw [h0]; rfl
  · rw [Nat.digits_of_lt 10 n h0 h]; rfl

theorem decimalRepresentation_step (n : Nat) (h : 10 ≤ n) :
    decimalRepresentation n = decimalRepresentation (n / 10) ++ [Nat.digitChar (n % 10)] := by
  have h0 : n ≠ 0 := by omega
  have h1 : n / 10 ≠ 0 := by omega
  unfold decimalRepresentation
  rw [if_neg h0, if_neg h1, Nat.digits_def' (by decide) (by omega)]
  simp

theorem toDigitsCore_eq (f : Nat) : ∀ (n : Nat) (ds : List Char), n < f →
    Nat.toDigitsCore 10 f n ds = decimalRepresentation n ++ ds := by
  induction f with
  | zero => intro n ds h; omega
  | succ f ih =>
    intro n ds h
    rw [toDigitsCore_succ]
    split_ifs with hq
    · have hlt : n < 10 := by omega
      have hm : n % 10 = n := by omega
      rw [decimalRepresentation_lt_10 n hlt, hm]
      rfl
    · have hge : 10 ≤ n := by omega
      rw [ih (n / 10) _ (by omega), decimalRepresentation_step n hge]
      simp

theorem toDigits_eq (n : Nat) : Nat.toDigits 10 n = decimalRepresentation n := by
  rw [Nat.toDigits, toDigitsCore_eq (n + 1) n [] (by omega), List.append_nil]

theorem repr_data (n : Nat) : (Nat.repr n).data = decimalRepresentation n := by
  show (Nat.toDigits 10 n).asString.data = decimalRepresentation n
  rw [toDigits_eq]
  rfl

theorem digitValue_digitChar (d : Nat) (h : d < 10) :
    digitValue 10 (Nat.digitChar d) = some d := by
  interval_cases d <;> rfl

theorem parseDigits_digits (ds : List Nat) (h : ∀ d ∈ ds, d < 10) (a : Nat) :
    parseDigits 10 (ds.map Nat.digitChar) (some a)
      = some (ds.foldl (fun v d => 10 * v + d) a) := by
  induction ds generalizing a with
  | nil => rfl
  | cons d rest ih =>
    have hd : d < 10 := h d (List.mem_cons_self _ _)
    simp only [List.map_cons, parseDigits, digitValue_digitChar d hd, List.foldl_cons]
    exact ih (fun x hx => h x (List.mem_cons_of_mem _ hx)) _

theorem decimalValue_digits (ds : List Nat) (h : ∀ d ∈ ds, d < 10) (a : Nat) :
    (ds.map Nat.digitChar).foldl (fun n c => 10 * n + (c.toNat - 48)) a
      = ds.foldl (fun v d => 10 * v + d) a := by
  induction ds generalizing a with
  | nil => rfl
  | cons d rest ih =>
    have hd : d < 10 := h d (List.mem_cons_self _ _)
    simp only [List.map_cons, List.foldl_cons, digitChar_toNat d hd]
    rw [ih (fun x hx => h x (List.mem_cons_of_mem _ hx))]
    congr 1
    omega

theorem foldl_zeros (k : Nat) (ds : List Nat) :
    (List.replicate k 0 ++ ds).foldl (fun v d => 10 * v + d) 0
      = ds.foldl (fun v d => 10 * v + d) 0 := by
  induction k with
  | zero => rfl
  | succ k ih => simpa [List.replicate_succ] using ih

theorem foldl_digits (n : Nat) :
    (Nat.digits 10 n).reverse.foldl (fun v d => 10 * v + d) 0 = n := by
  rw [List.foldl_reverse]
  have h : ∀ L : List Nat, L.foldr (fun d v => 10 * v + d) 0 = Nat.ofDigits 10 L := by
    intro L
    induction L with
    | nil => rfl
    | cons d rest ih =>
      rw [List.foldr_cons, ih, Nat.ofDigits_cons]
      omega
  rw [h, Nat.ofDigits_digits]

theorem decimalRepresentation_digits (n : Nat) :
    ∃ ds : List Nat, decimalRepresentation n = ds.map Nat.digitChar ∧ (∀ d ∈ ds, d < 10)
      ∧ ds.foldl (fun v d => 10 * v + d) 0 = n := by
  by_cases h0 : n = 0
  · subst h0
    exact ⟨[0], rfl, by simp, rfl⟩
  · refine ⟨(Nat.digits 10 n).reverse, ?_, ?_, foldl_digits n⟩
    · simp [decimalRepresentation, h0]
    · intro d hd
      exact Nat.digits_lt_base (by decide) (List.mem_reverse.mp hd)

theorem digitChar_plain (d : Nat) (h : d < 10) :
    isStrWhiteSpaceChar (Nat.digitChar d) = false ∧ Nat.digitChar d ≠ '-'
      ∧ Nat.digitChar d ≠ '+' ∧ Nat.digitChar d ≠ 'x' ∧ Nat.digitChar d ≠ 'X' := by
  interval_cases d <;> decide

theorem parseUnsigned_digits (ds : List Nat) (h : ∀ d ∈ ds, d < 10) :
    parseUnsigned (ds.map Nat.digitChar) = parseDigits 10 (ds.map Nat.digitChar) none := by
  unfold parseUnsigned
  split
  · next rest heq =>
    rcases ds with _ | ⟨d, _ | ⟨e, tail⟩⟩
    · simp at heq
    · simp at heq
    · simp only [List.map_cons, List.cons.injEq] at heq
      exact absurd heq.2.1 (digitChar_plain e (h e (by simp))).2.2.2.1
  · next rest heq =>
    rcases ds with _ | ⟨d, _ | ⟨e, tail⟩⟩
    · simp at heq
    · simp at heq
    · simp only [List.map_cons, List.cons.injEq] at heq
      exact absurd heq.2.1 (digitChar_plain e (h e (by simp))).2.2.2.2
  · rfl

theorem parseUnsigned_value (d : Nat) (ds : List Nat) (h : ∀ e ∈ d :: ds, e < 10) :
    parseUnsigned ((d :: ds).map Nat.digitChar)
      = some ((d :: ds).foldl (fun v e => 10 * v + e) 0) := by
  have hd : d < 10 := h d (List.mem_cons_self _ _)
  rw [parseUnsigned_digits (d :: ds) h]
  simp only [List.map_cons, parseDigits, digitValue_digitChar d hd, List.foldl_cons]
  exact parseDigits_digits ds (fun x hx => h x (List.mem_cons_of_mem _ hx)) _

theorem parseIntString_digits (d : Nat) (ds : List Nat) (h : ∀ e ∈ d :: ds, e < 10) :
    parseIntString (String.mk ((d :: ds).map Nat.digitChar))
      = toNumber false ((d :: ds).foldl (fun v e => 10 * v + e) 0) := by
  have hd : d < 10 := h d (List.mem_cons_self _ _)
  obtain ⟨hws, hminus, hplus, -, -⟩ := digitChar_plain d hd
  unfold parseIntString
  have hdrop : (String.mk ((d :: ds).map Nat.digitChar)).data.dropWhile isStrWhiteSpaceChar
      = (d :: ds).map Nat.digitChar := by
    simp only [List.map_cons, List.dropWhile_cons, hws]
    rfl
  rw [hdrop]
  split
  · next rest heq =>
    simp only [List.map_cons, List.cons.injEq] at heq
    exact absurd heq.1 hminus
  · next rest heq =>
    simp only [List.map_cons, List.cons.injEq] at heq
    exact absurd heq.1 hplus
  · rw [parseUnsigned_value d ds h]
    rfl

theorem parseIntString_minus_digits (d : Nat) (ds : List Nat) (h : ∀ e ∈ d :: ds, e < 10) :
    parseIntString (String.mk ('-' :: (d :: ds).map Nat.digitChar))
      = toNumber true ((d :: ds).foldl (fun v e => 10 * v + e) 0) := by
  unfold parseIntString
  have hdrop : (String.mk ('-' :: (d :: ds).map Nat.digitChar)).data.dropWhile
      isStrWhiteSpaceChar = '-' :: (d :: ds).map Nat.digitChar := by
    have hws : isStrWhiteSpaceChar '-' = false := by decide
    simp only [List.dropWhile_cons, hws]
    rfl
  rw [hdrop]
  simp only
  rw [parseUnsigned_value d ds h]
  rfl

theorem toNumber_of_le (negative : Bool) (v : Nat) (h : v ≤ 2 ^ 53) :
    toNumber negative v = JSNumber.finite (if negative then - (v : Int) else (v : Int)) := by
  have hbound : (2 : Nat) ^ 53 < 16 ^ 256 := by decide
  unfold toNumber
  rw [roundToDouble_of_le v h, if_pos (by omega)]

theorem decimalRepresentation_ne_nil (n : Nat) : decimalRepresentation n ≠ [] := by
  unfold decimalRepresentation
  split_ifs with h0
  · simp
  · simp [Nat.digits_eq_nil_iff_eq_zero, h0]

theorem parseIntString_repr (n : Nat) :
    parseIntString (Nat.repr n) = toNumber false n
      ∧ parseIntString ("-" ++ Nat.repr n) = toNumber true n := by
  obtain ⟨ds, hds, hlt, hval⟩ := decimalRepresentation_digits n
  have hne : ds ≠ [] := by
    intro h
    rw [h] at hds
    exact decimalRepresentation_ne_nil n hds
  obtain ⟨d, rest, rfl⟩ : ∃ d rest, ds = d :: rest := by
    cases ds with
    | nil => exact absurd rfl hne
    | cons d rest => exact ⟨d, rest, rfl⟩
  have hrepr : Nat.repr n = String.mk ((d :: rest).map Nat.digitChar) := by
    have := repr_data n
    rw [hds] at this
    exact String.ext this
  have hminus : "-" ++ Nat.repr n = String.mk ('-' :: (d :: rest).map Nat.digitChar) := by
    rw [hrepr]
    rfl
  constructor
  · rw [hrepr, parseIntString_digits d rest hlt, hval]
  · rw [hminus, parseIntString_minus_digits d rest hlt, hval]

theorem parseInt_num (n : Int) (h : n.natAbs ≤ 2 ^ 53) :
    parseInt (JSValue.num n) = JSNumber.finite n := by
  show parseIntString (numberToString n) = JSNumber.finite n
  rcases Int.lt_or_le n 0 with hneg | hpos
  · obtain ⟨m, hm⟩ : ∃ m : Nat, n = - ((m : Nat) : Int) := ⟨n.natAbs, by omega⟩
    subst hm
    have hm0 : 0 < m := by omega
    have hm53 : m ≤ 2 ^ 53 := by simpa using h
    rw [numberToString_neg m hm0 hm53, (parseIntString_repr m).2, toNumber_of_le true m hm53]
    rfl
  · obtain ⟨m, hm⟩ : ∃ m : Nat, n = ((m : Nat) : Int) := ⟨n.natAbs, by omega⟩
    subst hm
    have hm53 : m ≤ 2 ^ 53 := by simpa using h
    rw [numberToString_natCast m hm53, (parseIntString_repr m).1, toNumber_of_le false m hm53]
    rfl

theorem decimalRepresentation_no_l (n : Nat) (c : Char) (h : c ∈ decimalRepresentation n) :
    c ≠ 'l' := by
  obtain ⟨ds, hds, hlt, -⟩ := decimalRepresentation_digits n
  rw [hds] at h
  obtain ⟨d, hd, rfl⟩ := List.mem_map.mp h
  have := hlt d hd
  interval_cases d <;> decide

theorem repr_no_l (n : Nat) (c : Char) (h : c ∈ (Nat.repr n).data) : c ≠ 'l' := by
  rw [repr_data] at h
  exact decimalRepresentation_no_l n c h

theorem repr_ne_nil (n : Nat) : (Nat.repr n).data ≠ [] := by
  rw [repr_data]
  exact decimalRepresentation_ne_nil n

theorem exponentForm_chars (v : Nat) :
    (exponentForm v).data ≠ [] ∧ ∀ c ∈ (exponentForm v).data, c ≠ 'l' := by
  have hstrip : ∀ x ∈ stripTrailingZeros (Nat.toDigits 10 v), x ≠ 'l' := by
    intro x hx
    unfold stripTrailingZeros at hx
    have h1 := (List.dropWhile_sublist _).subset (List.mem_reverse.mp hx)
    have h2 : x ∈ Nat.toDigits 10 v := List.mem_reverse.mp h1
    rw [toDigits_eq] at h2
    exact decimalRepresentation_no_l v x h2
  have hexp : ∀ c ∈ ("e+" ++ Nat.repr ((Nat.toDigits 10 v).length - 1)).data, c ≠ 'l' := by
    intro c hc
    rw [String.data_append] at hc
    rcases List.mem_append.mp hc with h | h
    · have h' : c ∈ ['e', '+'] := h
      simp only [List.mem_cons, List.mem_singleton, List.not_mem_nil, or_false] at h'
      rcases h' with rfl | rfl <;> decide
    · exact repr_no_l _ c h
  unfold exponentForm
  simp only
  split
  · constructor
    · rw [String.data_append]
      exact List.append_ne_nil_of_left_ne_nil (by decide) _
    · intro c hc
      rw [String.data_append] at hc
      rcases List.mem_append.mp hc with h | h
      · have h' : c ∈ ['0'] := h
        rw [List.mem_singleton] at h'
        rw [h']
        decide
      · exact hexp c h
  · next c0 heq =>
    constructor
    · rw [String.data_append]
      exact List.append_ne_nil_of_left_ne_nil (List.cons_ne_nil _ _) _
    · intro c hc
      rw [String.data_append] at hc
      rcases List.mem_append.mp hc with h | h
      · have h' : c ∈ [c0] := h
        rw [List.mem_singleton] at h'
        rw [h']
        exact hstrip c0 (by rw [heq]; exact List.mem_singleton_self _)
      · exact hexp c h
  · next c0 rest _ heq =>
    constructor
    · rw [String.data_append]
      exact List.append_ne_nil_of_left_ne_nil (List.cons_ne_nil _ _) _
    · intro c hc
      rw [String.data_append] at hc
      rcases List.mem_append.mp hc with h | h
      · have h' : c ∈ c0 :: '.' :: rest := h
        rcases List.mem_cons.mp h' with rfl | h''
        · exact hstrip c (by rw [heq]; exact List.mem_cons_self _ _)
        · rcases List.mem_cons.mp h'' with rfl | h3
          · decide
          · exact hstrip c (by rw [heq]; exact List.mem_cons_of_mem _ h3)
      · exact hexp c h

theorem naturalToString_chars (x : Nat) :
    (naturalToString x).data ≠ [] ∧ ∀ c ∈ (naturalToString x).data, c ≠ 'l' := by
  unfold naturalToString
  simp only
  split_ifs
  · exact ⟨repr_ne_nil _, fun c hc => repr_no_l _ c hc⟩
  · exact exponentForm_chars _

theorem numberToString_chars (n : Int) :
    (numberToString n).data ≠ [] ∧ ∀ c ∈ (numberToString n).data, c ≠ 'l' := by
  obtain ⟨hne, hno⟩ := naturalToString_chars n.natAbs
  unfold numberToString
  split_ifs
  · constructor
    · rw [String.data_append]
      exact List.append_ne_nil_of_left_ne_nil (by decide) _
    · intro c hc
      rw [String.data_append] at hc
      rcases List.mem_append.mp hc with h | h
      · have h' : c ∈ ['-'] := h
        rw [List.mem_singleton] at h'
        rw [h']
        decide
      · exact hno c h
  · exact ⟨hne, hno⟩

theorem numberToString_ne_empty (n : Int) : numberToString n ≠ "" := by
  intro h
  apply (numberToString_chars n).1
  rw [h]

theorem numberToString_ne_all (n : Int) : numberToString n ≠ "all" := by
  intro h
  have hmem : 'l' ∈ (numberToString n).data := by
    rw [h]
    decide
  exact (numberToString_chars n).2 'l' hmem rfl
/-! ## Rooms view: the sorted list -/

theorem orderedInsert_congr {α : Type} (r s : α → α → Prop) [DecidableRel r] [DecidableRel s]
    (a : α) (l : List α) (h : ∀ b ∈ l, (r a b ↔ s a b)) :
    l.orderedInsert r a = l.orderedInsert s a := by
  induction l with
  | nil => rfl
  | cons b rest ih =>
    have hb := h b (List.mem_cons_self _ _)
    have hrest := ih (fun c hc => h c (List.mem_cons_of_mem _ hc))
    by_cases hr : r a b
    · simp [List.orderedInsert, hr, hb.mp hr]
    · have hs : ¬ s a b := fun hs => hr (hb.mpr hs)
      simp [List.orderedInsert, hr, hs, hrest]

theorem insertionSort_congr {α : Type} (r s : α → α → Prop) [DecidableRel r] [DecidableRel s]
    (l : List α) (h : ∀ a ∈ l, ∀ b ∈ l, (r a b ↔ s a b)) :
    l.insertionSort r = l.insertionSort s := by
  induction l with
  | nil => rfl
  | cons a rest ih =>
    have hrest := ih (fun x hx y hy =>
      h x (List.mem_cons_of_mem _ hx) y (List.mem_cons_of_mem _ hy))
    simp only [List.insertionSort]
    rw [hrest]
    apply orderedInsert_congr
    intro b hb
    have hb' : b ∈ rest := (List.perm_insertionSort s rest).mem_iff.mp hb
    exact h a (List.mem_cons_self _ _) b (List.mem_cons_of_mem _ hb')

theorem ofInt_nonpositive (z : Int) :
    (match JSNumber.ofInt z with
      | JSNumber.nan => True
      | JSNumber.finite v => v ≤ 0
      | JSNumber.infinity negative => negative = true) ↔ z ≤ 0 := by
  unfold JSNumber.ofInt toNumber
  by_cases hfin : roundToDouble z.natAbs < 16 ^ 256
  · rw [if_pos hfin]
    by_cases hneg : z < 0
    · simp only [hneg, decide_True, if_true]
      omega
    · simp only [hneg, decide_False, Bool.false_eq_true, if_false]
      have hzero := roundToDouble_eq_zero z.natAbs
      constructor
      · intro h
        have : roundToDouble z.natAbs = 0 := by omega
        have := hzero.mp this
        omega
      · intro h
        have : z.natAbs = 0 := by omega
        rw [hzero.mpr this]
        exact le_refl _
  · rw [if_neg hfin]
    have hne : z.natAbs ≠ 0 := by
      intro h
      apply hfin
      rw [(roundToDouble_eq_zero z.natAbs).mpr h]
      decide
    simp only [decide_eq_true_eq]
    omega

theorem roomLE_iff (a b : JSObject) (ha : (parseInt (a.get "CFRNUMBER")).isFinite = true)
    (hb : (parseInt (b.get "CFRNUMBER")).isFinite = true) :
    roomLE a b ↔ roomNumber a ≤ roomNumber b := by
  unfold roomLE compareRooms roomNumber
  cases hx : parseInt (a.get "CFRNUMBER") with
  | nan => rw [hx] at ha; exact absurd ha (by decide)
  | infinity negative => rw [hx] at ha; exact absurd ha (by simp [JSNumber.isFinite])
  | finite x =>
    cases hy : parseInt (b.get "CFRNUMBER") with
    | nan => rw [hy] at hb; exact absurd hb (by decide)
    | infinity negative => rw [hy] at hb; exact absurd hb (by simp [JSNumber.isFinite])
    | finite y =>
      simp only [JSNumber.sub]
      rw [ofInt_nonpositive]
      omega

theorem filter_orderedInsert (a : JSObject) (n : Int) (l : List JSObject) :
    (l.orderedInsert (fun x y => roomNumber x ≤ roomNumber y) a).filter
        (fun x => decide (roomNumber x = n))
      = (if roomNumber a = n then [a] else []) ++ l.filter (fun x => decide (roomNumber x = n)) := by
  induction l with
  | nil => by_cases h : roomNumber a = n <;> simp [h]
  | cons b rest ih =>
    by_cases hab : roomNumber a ≤ roomNumber b
    · simp only [List.orderedInsert, hab, if_true]
      by_cases h : roomNumber a = n <;> simp [List.filter_cons, h]
    · simp only [List.orderedInsert, hab, if_false]
      rw [List.filter_cons, ih]
      by_cases h : roomNumber a = n
      · have hbn : roomNumber b ≠ n := by omega
        simp [h, hbn, List.filter_cons]
      · by_cases hbn : roomNumber b = n <;> simp [h, hbn, List.filter_cons]

theorem filter_insertionSort (n : Int) (l : List JSObject) :
    (l.insertionSort (fun x y => roomNumber x ≤ roomNumber y)).filter
        (fun x => decide (roomNumber x = n))
      = l.filter (fun x => decide (roomNumber x = n)) := by
  induction l with
  | nil => rfl
  | cons a rest ih =>
    simp only [List.insertionSort]
    rw [filter_orderedInsert, ih]
    by_cases h : roomNumber a = n <;> simp [h, List.filter_cons]

theorem sortedRooms_eq (rooms : List JSObject)
    (hparse : ∀ room ∈ rooms, (parseInt (room.get "CFRNUMBER")).isFinite = true) :
    sortedRooms rooms = rooms.insertionSort (fun x y => roomNumber x ≤ roomNumber y) := by
  unfold sortedRooms
  apply insertionSort_congr
  intro a ha b hb
  exact roomLE_iff a b (hparse a ha) (hparse b hb)

theorem sortedRoomsOnHeap_spec (h : ArrayHeap) (rooms : Nat) :
    (sortedRoomsOnHeap h rooms).1.read (sortedRoomsOnHeap h rooms).2
        = sortedRooms (h.read rooms)
      ∧ ∀ other, other < h.length →
          (sortedRoomsOnHeap h rooms).1.read other = h.read other := by
  simp only [sortedRoomsOnHeap, sortInPlace, spreadArray, ArrayHeap.read, sortedRooms]
  constructor
  · simp [List.getD_eq_getElem?_getD, List.getElem?_set, List.getElem?_append_right]
  · intro other ho
    have hne : h.length ≠ other := by omega
    simp [List.getD_eq_getElem?_getD, List.getElem?_set, hne, List.getElem?_append_left ho]

theorem roomNumber_num (room : JSObject) (n : Int) (h : room.get "CFRNUMBER" = JSValue.num n)
    (hn : n.natAbs ≤ 2 ^ 53) :
    (parseInt (room.get "CFRNUMBER")).isFinite = true ∧ roomNumber room = n := by
  unfold roomNumber
  rw [h, parseInt_num n hn]
  exact ⟨rfl, rfl⟩

theorem roomNumber_digits (room : JSObject) (m : Nat)
    (h : room.get "CFRNUMBER" = JSValue.str (Nat.repr m)) (hm : m ≤ 2 ^ 53) :
    (parseInt (room.get "CFRNUMBER")).isFinite = true ∧ roomNumber room = (m : Int) := by
  have hparse : parseInt (JSValue.str (Nat.repr m)) = JSNumber.finite (m : Int) := by
    show parseIntString (Nat.repr m) = _
    rw [(parseIntString_repr m).1, toNumber_of_le false m hm]
    rfl
  unfold roomNumber
  rw [h, hparse]
  exact ⟨rfl, rfl⟩

/-- C26, as stated, fails: the sort orders the rooms by the Number `parseInt` reads from the
text of CFRNUMBER, which for large values is not the integer value of CFRNUMBER.  The
Number `1e21` is printed as `1e+21`, which `parseInt` reads as 1, so the room numbered
`1e21` stays before room 2; the digit strings of `2^53 + 1` and `2^53` are both read as
`2^53`, so the two rooms keep their fetched order, the larger integer first. -/
theorem sortedRooms_not_by_integer_value :
    (hugeRoom.get "CFRNUMBER" = JSValue.num 1000000000000000000000
      ∧ roundToDouble 1000000000000000000000 = 1000000000000000000000
      ∧ secondRoom.get "CFRNUMBER" = JSValue.num 2
      ∧ parseInt (hugeRoom.get "CFRNUMBER") = JSNumber.finite 1
      ∧ parseInt (secondRoom.get "CFRNUMBER") = JSNumber.finite 2
      ∧ sortedRooms [hugeRoom, secondRoom] = [hugeRoom, secondRoom])
    ∧ (decimalValue "9007199254740993".data = 9007199254740993
      ∧ decimalValue "9007199254740992".data = 9007199254740992
      ∧ parseInt (longDigitsRoom.get "CFRNUMBER") = JSNumber.finite 9007199254740992
      ∧ parseInt (shorterDigitsRoom.get "CFRNUMBER") = JSNumber.finite 9007199254740992
      ∧ sortedRooms [longDigitsRoom, shorterDigitsRoom]
          = [longDigitsRoom, shorterDigitsRoom]) := by
  decide

/-- C26, amended. When `parseInt` reads an integer from the CFRNUMBER of every room,
`sortedRooms` is a rearrangement of the fetched rooms in non-decreasing order of the number
`parseInt` reads, and the rooms with the same such number keep their fetched relative
order.  That number is the integer value of CFRNUMBER whenever CFRNUMBER is an integer
Number, or the decimal digit string of a natural number, of absolute value at most `2^53`.
The fetched array itself is left unchanged: the sort reorders the copy `[...rooms]`, and
every array that existed before the call, `rooms` included, holds afterwards what it held
before. -/
theorem sortedRooms_spec (rooms : List JSObject)
    (hparse : ∀ room ∈ rooms, (parseInt (room.get "CFRNUMBER")).isFinite = true) :
    (sortedRooms rooms).Perm rooms
      ∧ (sortedRooms rooms).Pairwise (fun a b => roomNumber a ≤ roomNumber b)
      ∧ (∀ n : Int, (sortedRooms rooms).filter (fun x => decide (roomNumber x = n))
          = rooms.filter (fun x => decide (roomNumber x = n)))
      ∧ (∀ (room : JSObject) (n : Int), room.get "CFRNUMBER" = JSValue.num n →
          n.natAbs ≤ 2 ^ 53 →
          (parseInt (room.get "CFRNUMBER")).isFinite = true ∧ roomNumber room = n)
      ∧ (∀ (room : JSObject) (m : Nat), room.get "CFRNUMBER" = JSValue.str (Nat.repr m) →
          m ≤ 2 ^ 53 →
          (parseInt (room.get "CFRNUMBER")).isFinite = true ∧ roomNumber room = (m : Int))
      ∧ ∀ (h : ArrayHeap) (ref : Nat), ref < h.length → h.read ref = rooms →
          (sortedRoomsOnHeap h ref).1.read (sortedRoomsOnHeap h ref).2 = sortedRooms rooms
            ∧ (sortedRoomsOnHeap h ref).1.read ref = rooms
            ∧ ∀ other, other < h.length →
                (sortedRoomsOnHeap h ref).1.read other = h.read other := by
  refine ⟨List.perm_insertionSort roomLE rooms, ?_, ?_, ?_, ?_, ?_⟩
  · rw [sortedRooms_eq rooms hparse]
    haveI : IsTotal JSObject (fun x y => roomNumber x ≤ roomNumber y) :=
      ⟨fun x y => le_total (roomNumber x) (roomNumber y)⟩
    haveI : IsTrans JSObject (fun x y => roomNumber x ≤ roomNumber y) :=
      ⟨fun x y z hxy hyz => le_trans hxy hyz⟩
    exact List.sorted_insertionSort (fun x y => roomNumber x ≤ roomNumber y) rooms
  · intro n
    rw [sortedRooms_eq rooms hparse]
    exact filter_insertionSort n rooms
  · intro room n h hn
    exact roomNumber_num room n h hn
  · intro room m h hm
    exact roomNumber_digits room m h hm
  · intro h ref hlt hread
    obtain ⟨h1, h2⟩ := sortedRoomsOnHeap_spec h ref
    rw [hread] at h1
    exact ⟨h1, by rw [h2 ref hlt, hread], h2⟩

/-- C26, witness: rooms 12 and 5, fetched in that order, are listed as 5, 12; `parseInt`
reads 12 and 5 from them, and the fetched array still holds 12, 5. -/
theorem sortedRooms_spec_witness :
    sortedRooms [otherRoom, exampleRoom] = [exampleRoom, otherRoom]
      ∧ (sortedRooms [otherRoom, exampleRoom]).Perm [otherRoom, exampleRoom]
      ∧ roomNumber otherRoom = 12
      ∧ (sortedRoomsOnHeap [[otherRoom, exampleRoom]] 0).1.read 0 = [otherRoom, exampleRoom] :=
  have h := sortedRooms_spec [otherRoom, exampleRoom] (by decide)
  ⟨by decide, h.1, (h.2.2.2.1 otherRoom 12 rfl (by decide)).2,
    (h.2.2.2.2.2 [[otherRoom, exampleRoom]] 0 (by decide) rfl).2.1⟩

/-! ## Report view: the usage-rate card -/

theorem mathRound_ratio (u d : Nat) (hd : 0 < d) :
    mathRound ((u : ℚ) / (d : ℚ) * 100) = (((200 * u + d) / (2 * d) : Nat) : Int) := by
  unfold mathRound
  have hd' : (d : ℚ) ≠ 0 := by exact_mod_cast (Nat.pos_iff_ne_zero.mp hd)
  have h : (u : ℚ) / (d : ℚ) * 100 + 1 / 2 = ((200 * u + d : Nat) : ℚ) / ((2 * d : Nat) : ℚ) := by
    push_cast
    field_simp
    ring
  rw [h, Rat.floor_natCast_div_natCast]
  norm_cast

theorem orElse_some_zero (n : Nat) : orElse (some n) 0 = n := by
  show (if n = 0 then 0 else n) = n
  split_ifs <;> omega

theorem countP_replicate_append {α : Type} (p : α → Bool) (n : Nat) (a b : α)
    (ha : p a = true) (hb : p b = false) :
    (List.replicate n a ++ [b]).countP p = n ∧ (List.replicate n a ++ [b]).length = n + 1 := by
  constructor
  · rw [List.countP_append, List.countP_replicate, List.countP_cons, List.countP_nil]
    simp [ha, hb]
  · rw [List.length_append, List.length_replicate]
    rfl

theorem usageRateCard_eq (data : List JSObject) :
    usageRateDenominator (processBookingStatusData data)
        = (if data.length = 0 then 1 else data.length)
      ∧ usageRateCard (processBookingStatusData data)
        = (((200 * data.countP (fun b => decide (b.get "STUBOOKING" = JSValue.num 3))
              + (if data.length = 0 then 1 else data.length))
            / (2 * (if data.length = 0 then 1 else data.length)) : Nat) : Int) := by
  have h1 : labelTotal ≠ labelUsed := by decide
  have hden : usageRateDenominator (processBookingStatusData data)
      = (if data.length = 0 then 1 else data.length) := by
    simp [usageRateDenominator, findValue, processBookingStatusData, foldl_statusStep, orElse]
  have hnum : orElse (findValue (processBookingStatusData data) labelUsed) 0
      = data.countP (fun b => decide (b.get "STUBOOKING" = JSValue.num 3)) := by
    have hfind : findValue (processBookingStatusData data) labelUsed
        = some (data.countP (fun b => decide (b.get "STUBOOKING" = JSValue.num 3))) := by
      simp [findValue, processBookingStatusData, foldl_statusStep, List.find?, h1]
    rw [hfind, orElse_some_zero]
  refine ⟨hden, ?_⟩
  unfold usageRateCard
  rw [hden, hnum]
  apply mathRound_ratio
  split <;> omega

/-- C27, as stated, fails: with 199 used bookings out of 200 the card shows 100 although
one booking was cancelled (99.5 rounds up to 100). -/
theorem usage_rate_rounds_up :
    usageRateCard (processBookingStatusData almostAllUsed) = 100
      ∧ exampleBooking "2024-05-02" 5 ∈ almostAllUsed
      ∧ (exampleBooking "2024-05-02" 5).get "STUBOOKING" ≠ JSValue.num 3 := by
  refine ⟨?_, ?_, by decide⟩
  · rw [(usageRateCard_eq almostAllUsed).2]
    have hused : (exampleBooking "2024-05-01" 3).get "STUBOOKING" = JSValue.num 3 := by decide
    have hcancelled : (exampleBooking "2024-05-02" 5).get "STUBOOKING" ≠ JSValue.num 3 := by
      decide
    obtain ⟨hcount, hlength⟩ := countP_replicate_append
      (fun b : JSObject => decide (b.get "STUBOOKING" = JSValue.num 3)) 199
      (exampleBooking "2024-05-01" 3) (exampleBooking "2024-05-02" 5)
      (by simp [hused]) (by simp [hcancelled])
    unfold almostAllUsed
    rw [hcount, hlength]
    decide
  · exact List.mem_append_right _ (List.mem_singleton_self _)

/-- C27, amended. For the status series of `processBookingStatusData`, the usage-rate card
value `round(used / (total or 1) * 100)`, in exact arithmetic, is an integer between 0 and
100; the denominator is never zero; the value is 0 when there are no bookings and 100 when
there is at least one booking and every booking has status used.  It is 100 exactly when
there is at least one booking and at least 199 of every 200 bookings have status used. -/
theorem usage_rate_card (data : List JSObject) :
    0 ≤ usageRateCard (processBookingStatusData data)
      ∧ usageRateCard (processBookingStatusData data) ≤ 100
      ∧ usageRateDenominator (processBookingStatusData data) ≠ 0
      ∧ (data = [] → usageRateCard (processBookingStatusData data) = 0)
      ∧ (data ≠ [] → (∀ b ∈ data, b.get "STUBOOKING" = JSValue.num 3) →
          usageRateCard (processBookingStatusData data) = 100)
      ∧ (usageRateCard (processBookingStatusData data) = 100
          ↔ data ≠ []
            ∧ 199 * data.length
                ≤ 200 * data.countP (fun b => decide (b.get "STUBOOKING" = JSValue.num 3))) := by
  obtain ⟨hden, hrate⟩ := usageRateCard_eq data
  have hle : data.countP (fun b => decide (b.get "STUBOOKING" = JSValue.num 3)) ≤ data.length :=
    List.countP_le_length _
  have hiff : usageRateCard (processBookingStatusData data) = 100
      ↔ data ≠ []
        ∧ 199 * data.length
            ≤ 200 * data.countP (fun b => decide (b.get "STUBOOKING" = JSValue.num 3)) := by
    rw [hrate]
    by_cases hlen : data.length = 0
    · have hnil : data = [] := List.eq_nil_of_length_eq_zero hlen
      subst hnil
      simp
    · have hne : data ≠ [] := fun h => hlen (by rw [h]; rfl)
      simp only [hlen, if_false, hne, ne_eq, not_false_eq_true, true_and]
      have hpos : 0 < 2 * data.length := by omega
      constructor
      · intro h
        have h' : (200 * data.countP (fun b => decide (b.get "STUBOOKING" = JSValue.num 3))
            + data.length) / (2 * data.length) = 100 := by exact_mod_cast h
        have := (Nat.le_div_iff_mul_le hpos).mp (le_of_eq h'.symm)
        omega
      · intro h
        have h1 : 100 ≤ (200 * data.countP (fun b => decide (b.get "STUBOOKING" = JSValue.num 3))
            + data.length) / (2 * data.length) :=
          (Nat.le_div_iff_mul_le hpos).mpr (by omega)
        have h2 : (200 * data.countP (fun b => decide (b.get "STUBOOKING" = JSValue.num 3))
            + data.length) / (2 * data.length) < 101 :=
          (Nat.div_lt_iff_lt_mul hpos).mpr (by omega)
        have : (200 * data.countP (fun b => decide (b.get "STUBOOKING" = JSValue.num 3))
            + data.length) / (2 * data.length) = 100 := by omega
        exact_mod_cast this
  refine ⟨?_, ?_, ?_, ?_, ?_, hiff⟩
  · rw [hrate]; exact Int.natCast_nonneg _
  · rw [hrate]
    have hpos : 0 < 2 * (if data.length = 0 then 1 else data.length) := by split <;> omega
    have : (200 * data.countP (fun b => decide (b.get "STUBOOKING" = JSValue.num 3))
        + (if data.length = 0 then 1 else data.length))
        / (2 * (if data.length = 0 then 1 else data.length)) < 101 :=
      (Nat.div_lt_iff_lt_mul hpos).mpr (by split <;> omega)
    exact_mod_cast (by omega : (200 * data.countP (fun b => decide (b.get "STUBOOKING" = JSValue.num 3))
        + (if data.length = 0 then 1 else data.length))
        / (2 * (if data.length = 0 then 1 else data.length)) ≤ 100)
  · rw [hden]; split <;> omega
  · intro hnil
    subst hnil
    rw [hrate]
    simp
  · intro hne hall
    rw [hiff]
    refine ⟨hne, ?_⟩
    have : data.countP (fun b => decide (b.get "STUBOOKING" = JSValue.num 3)) = data.length := by
      rw [List.countP_eq_length]
      intro b hb
      simp [hall b hb]
    omega

/-- C27, witness: without bookings the card shows 0, and three bookings that were all used
give 100. -/
theorem usage_rate_card_witness :
    usageRateCard (processBookingStatusData []) = 0
      ∧ usageRateCard (processBookingStatusData
          [exampleBooking "2024-05-01" 3, exampleBooking "2024-05-01" 3,
           exampleBooking "2024-05-02" 3]) = 100 :=
  ⟨(usage_rate_card []).2.2.2.1 rfl,
    (usage_rate_card [exampleBooking "2024-05-01" 3, exampleBooking "2024-05-01" 3,
      exampleBooking "2024-05-02" 3]).2.2.2.2.1 (by decide) (by decide)⟩

/-! ## Rooms view: the displayed room ID -/

/-- C29, as stated, fails for large identifiers.  The Number `1e21` is a non-negative
integer, but `formatID` returns `1e+21` for it, not its decimal representation, and
`parseInt` reads 1 from that string.  For `2^60`, which is the Number
1152921504606846976, `formatID` returns `1152921504606847000`. -/
theorem formatID_large_numbers :
    roundToDouble 1000000000000000000000 = 1000000000000000000000
      ∧ formatID (JSValue.num 1000000000000000000000) = Except.ok "1e+21"
      ∧ (Nat.repr 1000000000000000000000).data = decimalRepresentation 1000000000000000000000
      ∧ Nat.repr 1000000000000000000000 ≠ "1e+21"
      ∧ parseInt (JSValue.str "1e+21") = JSNumber.finite 1
      ∧ roundToDouble 1152921504606846976 = 1152921504606846976
      ∧ formatID (JSValue.num 1152921504606846976) = Except.ok "1152921504606847000"
      ∧ (Nat.repr 1152921504606846976).data = decimalRepresentation 1152921504606846976
      ∧ Nat.repr 1152921504606846976 ≠ "1152921504606847000" :=
  ⟨by decide, rfl, repr_data _, by decide, by decide, by decide, rfl, repr_data _, by decide⟩

/-- C29, amended. For every non-negative integer `id` up to `2^53`, `formatID(id)` returns
the decimal representation of `id` preceded by as many zeros as bring it to the length
`max(3, number of digits of id)`, and parsing the result as a decimal integer, with the
`parseInt` of the code or digit by digit, gives back `id`. -/
theorem formatID_spec (n : Nat) (hn : n ≤ 2 ^ 53) :
    ∃ text : String, formatID (JSValue.num (n : Int)) = Except.ok text
      ∧ text.data
          = List.replicate
              (max 3 (decimalRepresentation n).length - (decimalRepresentation n).length) '0'
            ++ decimalRepresentation n
      ∧ text.length = max 3 (decimalRepresentation n).length
      ∧ parseInt (JSValue.str text) = JSNumber.finite (n : Int)
      ∧ decimalValue text.data = n := by
  obtain ⟨ds, hds, hlt, hval⟩ := decimalRepresentation_digits n
  have hpad : max 3 (decimalRepresentation n).length - (decimalRepresentation n).length
      = 3 - (decimalRepresentation n).length := by omega
  have hformat : formatID (JSValue.num (n : Int))
      = Except.ok (String.leftpad 3 '0' (Nat.repr n)) := by
    simp only [formatID, JSValue.toStringOpt, numberToString_natCast n hn]
  have hdata : (String.leftpad 3 '0' (Nat.repr n)).data
      = List.replicate (3 - (decimalRepresentation n).length) '0' ++ decimalRepresentation n := by
    simp only [String.leftpad, List.leftpad, repr_data]
  have hmap : List.replicate (3 - (decimalRepresentation n).length) '0' ++ decimalRepresentation n
      = (List.replicate (3 - (decimalRepresentation n).length) 0 ++ ds).map Nat.digitChar := by
    rw [List.map_append, List.map_replicate, hds]
    rfl
  have hall : ∀ d ∈ List.replicate (3 - (decimalRepresentation n).length) 0 ++ ds, d < 10 := by
    intro d hd
    rcases List.mem_append.mp hd with h | h
    · rw [(List.mem_replicate.mp h).2]; decide
    · exact hlt d h
  have hne : ds ≠ [] := by
    intro h
    rw [h] at hds
    exact decimalRepresentation_ne_nil n hds
  refine ⟨String.leftpad 3 '0' (Nat.repr n), hformat, ?_, ?_, ?_, ?_⟩
  · rw [hdata, hpad]
  · show (String.leftpad 3 '0' (Nat.repr n)).data.length = _
    rw [hdata, List.length_append, List.length_replicate]
    omega
  · show parseIntString (String.leftpad 3 '0' (Nat.repr n)) = _
    have hstr : String.leftpad 3 '0' (Nat.repr n)
        = String.mk ((List.replicate (3 - (decimalRepresentation n).length) 0 ++ ds).map
            Nat.digitChar) := by
      rw [← hmap, ← hdata]
    rw [hstr]
    cases hP : List.replicate (3 - (decimalRepresentation n).length) 0 ++ ds with
    | nil => simp [hne] at hP
    | cons d rest =>
      rw [parseIntString_digits d rest (hP ▸ hall), ← hP, foldl_zeros, hval,
        toNumber_of_le false n hn]
      rfl
  · rw [hdata, hmap]
    unfold decimalValue
    rw [decimalValue_digits _ hall, foldl_zeros, hval]

/-- C29, witness: room 5 is shown as `005`, which is parsed back to 5. -/
theorem formatID_spec_witness :
    formatID (JSValue.num 5) = Except.ok "005"
      ∧ ∃ text : String, formatID (JSValue.num ((5 : Nat) : Int)) = Except.ok text
          ∧ text.length = max 3 (decimalRepresentation 5).length
          ∧ parseInt (JSValue.str text) = JSNumber.finite ((5 : Nat) : Int) :=
  ⟨rfl, (formatID_spec 5 (by decide)).imp (fun _ h => ⟨h.1, h.2.2.1, h.2.2.2.1⟩)⟩

/-! ## Report view: the shared department selection -/

/-- C28, as stated, fails.  A department whose DNUMBER string differs from every DNAME can
still be shown by the department chart after it is selected in the lock-stats tab: when its
name is the number string of another department the chart shows that department, and an
entry built from a member row without DNAME passes the filter whenever no department is
found.  A department whose DNUMBER is the string `all` stores the value of the item for all
departments, and the lock-stats filter then keeps every row. -/
theorem department_filters_not_empty :
    ((∀ d ∈ [numberNamedDepartment, salesDepartment],
        d.get "DNAME" ≠ JSValue.str (departmentTabSelectValue numberNamedDepartment))
      ∧ lockStatsTabSelectValue numberNamedDepartment = some "20"
      ∧ departmentChartData (setSelectedDepartment "20"
          (reportStateWith [numberNamedDepartment, salesDepartment]
            [{ department := JSValue.str "Sales", employees := 2 },
             { department := JSValue.str "20", employees := 1 }] []))
        = [{ department := JSValue.str "Sales", employees := 2 }])
    ∧ ((∀ d ∈ [salesDepartment],
          d.get "DNAME" ≠ JSValue.str (departmentTabSelectValue salesDepartment))
      ∧ lockStatsTabSelectValue salesDepartment = some "Sales"
      ∧ processDepartmentData [salesMember, memberWithoutDepartment]
          = Except.ok [{ department := JSValue.str "Sales", employees := 1 },
                       { department := JSValue.undefined, employees := 1 }]
      ∧ departmentChartData (setSelectedDepartment "Sales"
          (reportStateWith [salesDepartment]
            [{ department := JSValue.str "Sales", employees := 1 },
             { department := JSValue.undefined, employees := 1 }] []))
        = [{ department := JSValue.undefined, employees := 1 }])
    ∧ ((∀ d ∈ [allDepartment, salesDepartment],
          d.get "DNAME" ≠ JSValue.str (departmentTabSelectValue allDepartment))
      ∧ salesLockStat.get "DNAME" ≠ JSValue.str (departmentTabSelectValue allDepartment)
      ∧ lockStatsChartData (setSelectedDepartment (departmentTabSelectValue allDepartment)
          (reportStateWith [allDepartment, salesDepartment] [] [salesLockStat]))
        = [salesLockStat]) := by
  refine ⟨⟨by decide, rfl, by decide⟩, ⟨by decide, rfl, rfl, by decide⟩, ⟨by decide, by decide,
    by decide⟩⟩

/-- C28, amended. Both department selects store their value in the one state
`selectedDepartment`, the department tab the DNUMBER string and the lock-stats tab the
DNAME, and a selection changes nothing else.  For every department whose value in the
department select is not `all` (true of every numeric DNUMBER) and differs from the DNAME of
every lock-stat row, selecting it in the department tab makes the lock-stats filter return
no rows.  For every department whose DNAME is not `all` and differs from the DNUMBER
string of every department, selecting it in the lock-stats tab makes the department chart
filter return exactly the entries whose department is `undefined` (built from member rows
without DNAME), so no entries when every entry has a department. -/
theorem department_selection_mismatch (s : ReportState) (dept : JSObject) :
    (∀ value, setSelectedDepartment value s = { s with selectedDepartment := value })
      ∧ (∀ n : Int, dept.get "DNUMBER" = JSValue.num n →
          departmentTabSelectValue dept = numberToString n
            ∧ departmentTabSelectValue dept ≠ "all")
      ∧ (departmentTabSelectValue dept ≠ "all" →
          (∀ stat ∈ s.lockStatsData,
            stat.get "DNAME" ≠ JSValue.str (departmentTabSelectValue dept)) →
          lockStatsChartData (setSelectedDepartment (departmentTabSelectValue dept) s) = [])
      ∧ (∀ name, lockStatsTabSelectValue dept = some name → name ≠ "all" →
          (∀ d ∈ s.departments, (d.get "DNUMBER").toStringOpt ≠ some name) →
          departmentChartData (setSelectedDepartment name s)
              = s.departmentData.filter (fun e => decide (e.department = JSValue.undefined))
            ∧ ((∀ e ∈ s.departmentData, e.department ≠ JSValue.undefined) →
                departmentChartData (setSelectedDepartment name s) = [])) := by
  refine ⟨fun _ => rfl, ?_, ?_, ?_⟩
  · intro n hn
    have hne : numberToString n ≠ "" := numberToString_ne_empty n
    have hsel : departmentTabSelectValue dept = numberToString n := by
      simp [departmentTabSelectValue, hn, JSValue.toStringOpt, hne]
    exact ⟨hsel, hsel ▸ numberToString_ne_all n⟩
  · intro hall hrows
    unfold lockStatsChartData setSelectedDepartment
    simp only [List.filter_eq_nil_iff, Bool.or_eq_true, decide_eq_true_eq, not_or]
    intro stat hstat
    exact ⟨hall, hrows stat hstat⟩
  · intro name _ hall hnone
    have hfind : selectedDepartmentName (setSelectedDepartment name s) = JSValue.undefined := by
      unfold selectedDepartmentName setSelectedDepartment
      have : s.departments.find?
          (fun d => decide ((d.get "DNUMBER").toStringOpt = some name)) = none := by
        rw [List.find?_eq_none]
        intro d hd
        simpa using hnone d hd
      simp only [this]
    have hdata : departmentChartData (setSelectedDepartment name s)
        = s.departmentData.filter (fun e => decide (e.department = JSValue.undefined)) := by
      unfold departmentChartData
      rw [hfind]
      simp [setSelectedDepartment, hall]
    refine ⟨hdata, fun hdefined => ?_⟩
    rw [hdata, List.filter_eq_nil_iff]
    intro e he
    simpa using hdefined e he

/-- C28, witness: with the department Sales (number 20) and a lock-stat row of Sales,
selecting Sales in the department tab stores `20` and the lock-stats chart gets no rows
although a row of that department exists; selecting Sales in the lock-stats tab stores
`Sales` and the department chart gets no entries. -/
theorem department_selection_mismatch_witness :
    salesLockStat.get "DNAME" = salesDepartment.get "DNAME"
      ∧ departmentTabSelectValue salesDepartment = "20"
      ∧ lockStatsChartData (setSelectedDepartment (departmentTabSelectValue salesDepartment)
          (reportStateWith [salesDepartment]
            [{ department := JSValue.str "Sales", employees := 1 }] [salesLockStat])) = []
      ∧ departmentChartData (setSelectedDepartment "Sales"
          (reportStateWith [salesDepartment]
            [{ department := JSValue.str "Sales", employees := 1 }] [salesLockStat])) = [] :=
  ⟨by decide, by decide,
    (department_selection_mismatch (reportStateWith [salesDepartment]
      [{ department := JSValue.str "Sales", employees := 1 }] [salesLockStat])
      salesDepartment).2.2.1 (by decide) (by decide),
    ((department_selection_mismatch (reportStateWith [salesDepartment]
      [{ department := JSValue.str "Sales", employees := 1 }] [salesLockStat])
      salesDepartment).2.2.2 "Sales" rfl (by decide) (by decide)).2 (by decide)⟩

end Meeting
